import Mathlib

/-!
# SaveGameLibrary: a shallow embedding of the slot manager

The development embeds `SaveGameManager` (SaveGameManager.cpp / .h), the structs under
`Private/Structs`, `USaveGameObject`, `ATimeKeeper` and the array getters of
`UExpandedSaveGameLibrary` as Lean definitions, and proves properties of them.

Conventions.
* `FString` is `String`; C++ `int` is `Int`.
* A `float` is represented by its IEEE-754 single precision bit pattern. The embedded code
  never computes with floats, it only stores and returns them.
* `TMap<FString, V>` is an ordered list of key/value pairs. `Add` overwrites the value of an
  existing key in place and appends otherwise, `Remove` drops every pair with the key,
  `operator[]` is `Find`, which is `none` where the engine would fail its `check`.
* An operation that can reach such a failed `check` returns an `Option`; `none` is the crash.
* Engine services (game thread test, project settings, clock, slot files, actor spawning,
  listeners) are fields of `Engine`, the host state threaded through the operations.
-/

namespace SaveGameLibrary

/-! ## Engine value types -/

/-- A C++ `float`, as its IEEE-754 single precision bit pattern. -/
structure float where
  bits : Nat
  deriving DecidableEq

/-- The literal `0.f`. -/
def float.zero : float := ⟨0⟩

/-- The literal `1.f`. -/
def float.one : float := ⟨0x3F800000⟩

/-- Engine `FVector`. -/
structure FVector where
  X : float
  Y : float
  Z : float
  deriving DecidableEq

/-- Engine `FRotator`, in constructor order (pitch, yaw, roll). -/
structure FRotator where
  Pitch : float
  Yaw : float
  Roll : float
  deriving DecidableEq

/-- Engine `FQuat`. -/
structure FQuat where
  X : float
  Y : float
  Z : float
  W : float
  deriving DecidableEq

/-- Engine `FTransform`: rotation, translation and 3D scale. -/
structure FTransform where
  Rotation : FQuat
  Translation : FVector
  Scale3D : FVector
  deriving DecidableEq

/-- Engine `FVector::OneVector`. -/
def FVector.OneVector : FVector := ⟨float.one, float.one, float.one⟩

/-- Engine `FVector::ZeroVector`. -/
def FVector.ZeroVector : FVector := ⟨float.zero, float.zero, float.zero⟩

/-- Engine `FQuat::Identity`. -/
def FQuat.Identity : FQuat := ⟨float.zero, float.zero, float.zero, float.one⟩

/-- Engine default constructor `FTransform()`: identity rotation, zero translation, unit scale. -/
def FTransform.Identity : FTransform := ⟨FQuat.Identity, FVector.ZeroVector, FVector.OneVector⟩

/-- Engine constructor `FTransform(const FRotator&, const FVector& Translation, const FVector& Scale3D)`.
The engine's rotator to quaternion conversion `FRotator::Quaternion` is the parameter `Quaternion`. -/
def FTransform.ofRotator (Quaternion : FRotator → FQuat) (InRotation : FRotator)
    (InTranslation InScale3D : FVector) : FTransform :=
  ⟨Quaternion InRotation, InTranslation, InScale3D⟩

/-- Engine `FText`, by its source string. -/
structure FText where
  Source : String
  deriving DecidableEq

/-- Engine `FName`, by its name table index; index `0` is `NAME_None`. -/
structure FName where
  Index : Nat
  deriving DecidableEq

/-- Engine `UClass`, by an identifier. -/
structure UClass where
  Id : Nat
  deriving DecidableEq

/-- Engine `TSubclassOf<T>`: a class pointer that may be null. -/
abbrev TSubclassOf := Option UClass

/-- Engine `ESpawnActorCollisionHandlingMethod`. -/
inductive ESpawnActorCollisionHandlingMethod where
  | Undefined
  | AlwaysSpawn
  | AdjustIfPossibleButAlwaysSpawn
  | AdjustIfPossibleButDontSpawnIfColliding
  | DontSpawnIfColliding
  deriving DecidableEq

/-- Engine `FString::FromInt`. -/
def FromInt (Num : Int) : String :=
  if Num < 0 then "-" ++ Nat.repr Num.natAbs else Nat.repr Num.toNat

/-! ## `TMap<FString, V>` -/

/-- Engine `TMap<FString, V>` as its list of pairs, in iteration order. -/
structure TMap (V : Type) where
  Pairs : List (String × V)
  deriving DecidableEq

namespace TMap

variable {V : Type}

/-- The empty map, `TMap{}`. -/
def Empty : TMap V := ⟨[]⟩

/-- Lookup in a list of pairs: the value of the first pair with the key. -/
def FindPairs : List (String × V) → String → Option V
  | [], _ => none
  | (k, v) :: rest, Key => if k = Key then some v else FindPairs rest Key

/-- Overwrite the first pair with the key, or append a new pair. -/
def AddPairs : List (String × V) → String → V → List (String × V)
  | [], Key, Value => [(Key, Value)]
  | (k, v) :: rest, Key, Value =>
    if k = Key then (Key, Value) :: rest else (k, v) :: AddPairs rest Key Value

/-- Drop every pair with the key. -/
def RemovePairs : List (String × V) → String → List (String × V)
  | [], _ => []
  | (k, v) :: rest, Key => if k = Key then RemovePairs rest Key else (k, v) :: RemovePairs rest Key

/-- `TMap::Find`; also `operator[]`, whose failed `check` is `none`. -/
def Find (Map : TMap V) (Key : String) : Option V := FindPairs Map.Pairs Key

/-- `TMap::Contains`. -/
def Contains (Map : TMap V) (Key : String) : Bool := (Map.Find Key).isSome

/-- `TMap::Add`. -/
def Add (Map : TMap V) (Key : String) (Value : V) : TMap V := ⟨AddPairs Map.Pairs Key Value⟩

/-- `TMap::Remove`. -/
def Remove (Map : TMap V) (Key : String) : TMap V := ⟨RemovePairs Map.Pairs Key⟩

/-- The keys in iteration order. -/
def Keys (Map : TMap V) : List String := Map.Pairs.map Prod.fst

end TMap

/-! ## The structs of `Private/Structs` -/

/-- ActorSaveData.h, `FActorSaveData`, with its default member initialisers. -/
structure FActorSaveData where
  Class : TSubclassOf := none
  Transform : FTransform := FTransform.Identity
  SpawnMethod : ESpawnActorCollisionHandlingMethod := ESpawnActorCollisionHandlingMethod.Undefined
  bIsSimulatingPhysics : Bool := false
  deriving DecidableEq

/-- SaveSlotInfo.h, `FSaveSlotInfo`. -/
structure FSaveSlotInfo where
  DateCreated : String := ""
  TimeCreated : String := ""
  TimePlayed : String := ""
  deriving DecidableEq

/-- SavedData.h, `FSavedData`; the defaults are those of the constructor in SavedData.cpp
(`Version{ 1.2f }`, `SecondsPlayed{ 0 }`, everything else empty). -/
structure FSavedData where
  Version : float := ⟨0x3F99999A⟩
  ActorNames : List String := []
  Actors : TMap FActorSaveData := TMap.Empty
  Objects : TMap TSubclassOf := TMap.Empty
  Classes : TMap TSubclassOf := TMap.Empty
  Transforms : TMap FTransform := TMap.Empty
  Vectors : TMap FVector := TMap.Empty
  Rotators : TMap FRotator := TMap.Empty
  Strings : TMap String := TMap.Empty
  Texts : TMap FText := TMap.Empty
  Names : TMap FName := TMap.Empty
  Integers : TMap Int := TMap.Empty
  Floats : TMap float := TMap.Empty
  Booleans : TMap Bool := TMap.Empty
  SecondsPlayed : Int := 0
  ProjectVersion : String := ""
  deriving DecidableEq

/-- SaveGameData.h, `FSaveGameData`: the slot directory. -/
structure FSaveGameData where
  Slots : TMap FSaveSlotInfo := TMap.Empty
  Data : TMap FSavedData := TMap.Empty
  deriving DecidableEq

/-- SaveGameObject.h, `USaveGameObject`: the persisted container. -/
structure USaveGameObject where
  Slots : TMap FSaveSlotInfo := TMap.Empty
  Data : TMap FSavedData := TMap.Empty
  deriving DecidableEq

/-- SaveGameObject.cpp, `USaveGameObject::SetData`. -/
def USaveGameObject.SetData (_Object : USaveGameObject) (InData : FSaveGameData) : USaveGameObject :=
  { Slots := InData.Slots, Data := InData.Data }

/-- `USaveGameObject::GetSlots`. -/
def USaveGameObject.GetSlots (Object : USaveGameObject) : TMap FSaveSlotInfo := Object.Slots

/-- `USaveGameObject::GetData`. -/
def USaveGameObject.GetData (Object : USaveGameObject) : TMap FSavedData := Object.Data

/-! ## Engine objects seen by the manager -/

/-- Engine `UWorld`, by an identifier. -/
structure UWorld where
  Id : Nat
  deriving DecidableEq

/-- The components of an actor that `GetIsSimulatingPhysics` distinguishes. -/
inductive UActorComponent where
  | SkeletalMesh (bSimulatePhysics : Bool)
  | StaticMesh (bSimulatePhysics : Bool)
  | Other
  deriving DecidableEq

/-- Engine `AActor`, as far as `StoreActor` reads it: `GetName`, `GetClass`, `GetTransform`,
`GetComponents`. -/
structure AActor where
  Name : String
  Class : UClass
  Transform : FTransform
  Components : List UActorComponent
  deriving DecidableEq

/-- Engine `UObject`, as far as `StoreObject` reads it: `GetName` and `GetClass` (never null for a
live object). -/
structure UObject where
  Name : String
  Class : UClass
  deriving DecidableEq

/-- TimeKeeper.h, `ATimeKeeper`. `SaveData` is always the address of the manager's `CurrentData`
once `Init` has run, so only the flags are recorded. -/
structure ATimeKeeper where
  bIsActive : Bool := false
  bIsVerboseLoggingEnabled : Bool := true
  deriving DecidableEq

/-- TimeKeeper.cpp, `ATimeKeeper::Init`. -/
def ATimeKeeper.Init (_Keeper : ATimeKeeper) (bInIsVerboseLoggingEnabled : Bool) : ATimeKeeper :=
  { bIsActive := true, bIsVerboseLoggingEnabled := bInIsVerboseLoggingEnabled }

/-- TimeKeeper.cpp, `ATimeKeeper::SetIsActive`. -/
def ATimeKeeper.SetIsActive (Keeper : ATimeKeeper) (bInIsActive : Bool)
    (_bInIsVerboseLoggingEnabled : Bool) : ATimeKeeper :=
  { Keeper with bIsActive := bInIsActive }

/-- The lifecycle hooks of `ISaveGameEvents`. -/
inductive ESaveGameEvent where
  | PreSave
  | PostSave
  | PreLoad
  | PostLoad
  | NewSaveCreated
  deriving DecidableEq

/-- Engine `FDateTime`, by its calendar fields. -/
structure FDateTime where
  Year : Nat
  Month : Nat
  Day : Nat
  Hour : Nat
  Minute : Nat
  Second : Nat
  deriving DecidableEq

/-- A file of the save game directory: slot file name, user index and the object stored in it. -/
structure FSaveFile where
  SlotName : String
  UserIndex : Int
  Object : USaveGameObject
  deriving DecidableEq

/-- The host: everything the manager reaches through engine calls. -/
structure Engine where
  /-- Result of `IsInGameThread()`. -/
  bIsInGameThread : Bool := true
  /-- The `ProjectVersion` entry of the game ini, when it is set. -/
  ProjectVersion : Option String := none
  /-- The clock, `FDateTime::Now()`. -/
  Now : FDateTime := ⟨2022, 1, 1, 0, 0, 0⟩
  /-- Durable storage: the files written by `SaveGameToSlot`. -/
  SaveGames : List FSaveFile := []
  /-- Whether a write by `SaveGameToSlot` succeeds. -/
  bWriteSucceeds : Bool := true
  /-- The `ATimeKeeper` actors spawned into the world, oldest first. -/
  TimeKeepers : List ATimeKeeper := []
  /-- The actors of the world that implement `USaveGameEvents`, by name. -/
  Listeners : List String := []
  /-- The notifications delivered so far, oldest first: hook and listener. -/
  Dispatched : List (ESaveGameEvent × String) := []
  deriving DecidableEq

namespace Engine

/-- `UGameplayStatics::LoadGameFromSlot` followed by `Cast<USaveGameObject>`: the object of the
file, or null when there is no such file or the file name is empty. -/
def LoadGameFromSlot (Host : Engine) (SlotName : String) (UserIndex : Int) : Option USaveGameObject :=
  if SlotName = "" then none
  else
    (Host.SaveGames.find? (fun File => File.SlotName = SlotName ∧ File.UserIndex = UserIndex)).map
      FSaveFile.Object

/-- `UGameplayStatics::DoesSaveGameExist`. -/
def DoesSaveGameExist (Host : Engine) (SlotName : String) (UserIndex : Int) : Bool :=
  (Host.LoadGameFromSlot SlotName UserIndex).isSome

/-- `UGameplayStatics::SaveGameToSlot`: on success the file holds the object, replacing an earlier
file of the same name and user; on failure storage is unchanged. An empty file name always fails.
Returns the success flag. -/
def SaveGameToSlot (Host : Engine) (Object : USaveGameObject) (SlotName : String) (UserIndex : Int) :
    Bool × Engine :=
  if Host.bWriteSucceeds ∧ SlotName ≠ "" then
    (true, { Host with SaveGames := ⟨SlotName, UserIndex, Object⟩ ::
      Host.SaveGames.filter (fun File => ¬ (File.SlotName = SlotName ∧ File.UserIndex = UserIndex)) })
  else (false, Host)

/-- `UGameplayStatics::CreateSaveGameObject` followed by `Cast<USaveGameObject>`: a fresh object of
the class, or null when the class is null. -/
def CreateSaveGameObject (SaveGameClass : TSubclassOf) : Option USaveGameObject :=
  SaveGameClass.map (fun _ => {})

/-- The version string both `NewGame` and `SaveGame` compute: `"1.0"`, overwritten by
`GConfig->GetString` when the project setting exists. -/
def GetProjectVersion (Host : Engine) : String := Host.ProjectVersion.getD "1.0"

/-- `UGameplayStatics::GetAllActorsWithInterface`: the listeners of the world, none for a null
world. -/
def GetAllActorsWithInterface (Host : Engine) (World : Option UWorld) : List String :=
  match World with
  | none => []
  | some _ => Host.Listeners

/-- `CALL_INTERFACE_FUNCTION_ON_ALL_ACTORS`, and the body of the event thread classes of
EventThreads.cpp: deliver one hook to every actor of the list. -/
def Dispatch (Host : Engine) (Actors : List String) (Event : ESaveGameEvent) : Engine :=
  { Host with Dispatched := Host.Dispatched ++ Actors.map (fun Actor => (Event, Actor)) }

end Engine

/-! ## `SaveGameManager` -/

/-- SaveGameManager.h, the members of `SaveGameManager`. `TimeKeeper` is the position of the
manager's keeper in `Engine.TimeKeepers`; the defaults are the constructor's. -/
structure SaveGameManager where
  SaveSlotNames : List String := []
  World : Option UWorld := none
  SaveObject : Option USaveGameObject := none
  TimeKeeper : Option Nat := none
  SaveData : FSaveGameData := {}
  SaveFileName : String := ""
  CurrentSlotInfo : FSaveSlotInfo := {}
  CurrentData : FSavedData := {}
  CurrentSlotName : String := ""
  bHasDataBeenLoaded : Bool := false
  bIsVerboseLoggingEnabled : Bool := true
  bIsUsingSingleSaveFile : Bool := true
  bIsMultithreading : Bool := true
  bIsMultithreadingEvents : Bool := false
  deriving DecidableEq

/-! The `Empty*` placeholders of SaveGameManager.cpp, lines 32 to 41. -/

/-- `EmptyString`. -/
def EmptyString : String := ""
/-- `EmptyText`. -/
def EmptyText : FText := ⟨""⟩
/-- `EmptyName`. -/
def EmptyName : FName := ⟨0⟩
/-- `EmptyVector = FVector{ 0.f, 0.f, 0.f }`. -/
def EmptyVector : FVector := ⟨float.zero, float.zero, float.zero⟩
/-- `EmptyRotator = FRotator{ 0.f, 0.f, 0.f }`. -/
def EmptyRotator : FRotator := ⟨float.zero, float.zero, float.zero⟩
/-- `EmptyTransform = FTransform{ EmptyRotator, EmptyVector, EmptyVector }`. -/
def EmptyTransform (Quaternion : FRotator → FQuat) : FTransform :=
  FTransform.ofRotator Quaternion EmptyRotator EmptyVector EmptyVector
/-- `EmptyActorData = FActorSaveData{}`. -/
def EmptyActorData : FActorSaveData := {}
/-- `EmptySlotInfo = FSaveSlotInfo{}`. -/
def EmptySlotInfo : FSaveSlotInfo := {}
/-- `EmptySaveData = FSavedData{}`. -/
def EmptySaveData : FSavedData := {}
/-- `EmptyClass = nullptr`. -/
def EmptyClass : TSubclassOf := none

/-- The body of the macro `INTERNAL_GET_VALUE`: the mapped value, `emptyValue` for a missing key. -/
def INTERNAL_GET_VALUE {V : Type} (map : TMap V) (emptyValue : V) (VariableName : String) : V :=
  if ¬ map.Contains VariableName then emptyValue
  else (map.Find VariableName).getD emptyValue

namespace SaveGameManager

/-- `INTERNAL_STORE_VALUE(Integers, Int, ...)`. -/
def StoreInt (M : SaveGameManager) (VariableName : String) (Value : Int) : SaveGameManager :=
  { M with CurrentData := { M.CurrentData with Integers := M.CurrentData.Integers.Add VariableName Value } }

/-- `INTERNAL_STORE_VALUE(Floats, Float, ...)`. -/
def StoreFloat (M : SaveGameManager) (VariableName : String) (Value : float) : SaveGameManager :=
  { M with CurrentData := { M.CurrentData with Floats := M.CurrentData.Floats.Add VariableName Value } }

/-- `INTERNAL_STORE_TEXT_VALUE(Booleans, Boolean, ...)`. -/
def StoreBoolean (M : SaveGameManager) (VariableName : String) (Value : Bool) : SaveGameManager :=
  { M with CurrentData := { M.CurrentData with Booleans := M.CurrentData.Booleans.Add VariableName Value } }

/-- `INTERNAL_STORE_TEXT_VALUE(Texts, Text, ...)`. -/
def StoreText (M : SaveGameManager) (VariableName : String) (Value : FText) : SaveGameManager :=
  { M with CurrentData := { M.CurrentData with Texts := M.CurrentData.Texts.Add VariableName Value } }

/-- `INTERNAL_STORE_TEXT_VALUE(Names, Name, ...)`. -/
def StoreName (M : SaveGameManager) (VariableName : String) (Value : FName) : SaveGameManager :=
  { M with CurrentData := { M.CurrentData with Names := M.CurrentData.Names.Add VariableName Value } }

/-- `INTERNAL_STORE_TEXT_VALUE(Strings, String, ...)`. -/
def StoreString (M : SaveGameManager) (VariableName : String) (Value : String) : SaveGameManager :=
  { M with CurrentData := { M.CurrentData with Strings := M.CurrentData.Strings.Add VariableName Value } }

/-- `SaveGameManager::StoreVector`. -/
def StoreVector (M : SaveGameManager) (VariableName : String) (Vector : FVector) : SaveGameManager :=
  { M with CurrentData := { M.CurrentData with Vectors := M.CurrentData.Vectors.Add VariableName Vector } }

/-- `SaveGameManager::StoreRotator`. -/
def StoreRotator (M : SaveGameManager) (VariableName : String) (Rotator : FRotator) : SaveGameManager :=
  { M with CurrentData := { M.CurrentData with Rotators := M.CurrentData.Rotators.Add VariableName Rotator } }

/-- `SaveGameManager::StoreTransform`. -/
def StoreTransform (M : SaveGameManager) (VariableName : String) (Transform : FTransform) :
    SaveGameManager :=
  { M with CurrentData :=
      { M.CurrentData with Transforms := M.CurrentData.Transforms.Add VariableName Transform } }

/-- `SaveGameManager::StoreClass`: a null class is rejected by `CHECK_IS_NULL`. -/
def StoreClass (M : SaveGameManager) (ClassName : String) (Class : TSubclassOf) : SaveGameManager :=
  match Class with
  | none => M
  | some C =>
    { M with CurrentData := { M.CurrentData with Classes := M.CurrentData.Classes.Add ClassName (some C) } }

/-- `SaveGameManager::GetIsSimulatingPhysics`: the flag of the last mesh component. -/
def GetIsSimulatingPhysics (Actor : AActor) : Bool :=
  Actor.Components.foldl
    (fun bIsSimulatingPhysics Component =>
      match Component with
      | .SkeletalMesh b => b
      | .StaticMesh b => b
      | .Other => bIsSimulatingPhysics)
    false

/-- `SaveGameManager::StoreActor`. -/
def StoreActor (M : SaveGameManager) (ObjectName : String) (ActorToStore : Option AActor)
    (SpawnMethod : ESpawnActorCollisionHandlingMethod) : SaveGameManager :=
  match ActorToStore with
  | none => M
  | some Actor =>
    let Name := if ObjectName = "" then Actor.Name else ObjectName
    let Data : FActorSaveData :=
      { Class := some Actor.Class, Transform := Actor.Transform, SpawnMethod := SpawnMethod,
        bIsSimulatingPhysics := GetIsSimulatingPhysics Actor }
    if M.CurrentData.Actors.Contains Name then
      { M with CurrentData := { M.CurrentData with Actors := M.CurrentData.Actors.Add Name Data } }
    else
      { M with CurrentData := { M.CurrentData with
          Actors := M.CurrentData.Actors.Add Name Data,
          ActorNames := M.CurrentData.ActorNames ++ [Name] } }

/-- `SaveGameManager::StoreObject`. The key is the object's own name exactly when `ObjectName` is
not empty, as the source has it. -/
def StoreObject (M : SaveGameManager) (ObjectName : String) (ObjectToStore : Option UObject) :
    SaveGameManager :=
  match ObjectToStore with
  | none => M
  | some Object =>
    let Name := if ¬ ObjectName = "" then Object.Name else ObjectName
    { M with CurrentData := { M.CurrentData with
        Objects := M.CurrentData.Objects.Add Name (some Object.Class) } }

/-- `INTERNAL_GET_VALUE(Int, Integers, int, 0)`. -/
def GetInt (M : SaveGameManager) (VariableName : String) : Int :=
  INTERNAL_GET_VALUE M.CurrentData.Integers 0 VariableName

/-- `INTERNAL_GET_VALUE(Float, Floats, float, 0.f)`. -/
def GetFloat (M : SaveGameManager) (VariableName : String) : float :=
  INTERNAL_GET_VALUE M.CurrentData.Floats float.zero VariableName

/-- `INTERNAL_GET_VALUE(Boolean, Booleans, bool, false)`. -/
def GetBoolean (M : SaveGameManager) (VariableName : String) : Bool :=
  INTERNAL_GET_VALUE M.CurrentData.Booleans false VariableName

/-- `INTERNAL_GET_VALUE(Class, Classes, ..., EmptyClass)`. -/
def GetClass (M : SaveGameManager) (VariableName : String) : TSubclassOf :=
  INTERNAL_GET_VALUE M.CurrentData.Classes EmptyClass VariableName

/-- `INTERNAL_GET_VALUE(ActorData, Actors, ..., EmptyActorData)`. -/
def GetActorData (M : SaveGameManager) (VariableName : String) : FActorSaveData :=
  INTERNAL_GET_VALUE M.CurrentData.Actors EmptyActorData VariableName

/-- `INTERNAL_GET_VALUE(Vector, Vectors, ..., EmptyVector)`. -/
def GetVector (M : SaveGameManager) (VariableName : String) : FVector :=
  INTERNAL_GET_VALUE M.CurrentData.Vectors EmptyVector VariableName

/-- `INTERNAL_GET_VALUE(Transform, Transforms, ..., EmptyTransform)`. -/
def GetTransform (Quaternion : FRotator → FQuat) (M : SaveGameManager) (VariableName : String) :
    FTransform :=
  INTERNAL_GET_VALUE M.CurrentData.Transforms (EmptyTransform Quaternion) VariableName

/-- `INTERNAL_GET_VALUE(Rotator, Rotators, ..., EmptyRotator)`. -/
def GetRotator (M : SaveGameManager) (VariableName : String) : FRotator :=
  INTERNAL_GET_VALUE M.CurrentData.Rotators EmptyRotator VariableName

/-- `INTERNAL_GET_VALUE(String, Strings, ..., EmptyString)`. -/
def GetString (M : SaveGameManager) (VariableName : String) : String :=
  INTERNAL_GET_VALUE M.CurrentData.Strings EmptyString VariableName

/-- `INTERNAL_GET_VALUE(Text, Texts, ..., EmptyText)`. -/
def GetText (M : SaveGameManager) (VariableName : String) : FText :=
  INTERNAL_GET_VALUE M.CurrentData.Texts EmptyText VariableName

/-- `INTERNAL_GET_VALUE(Name, Names, ..., EmptyName)`. -/
def GetName (M : SaveGameManager) (VariableName : String) : FName :=
  INTERNAL_GET_VALUE M.CurrentData.Names EmptyName VariableName

end SaveGameManager

namespace SaveGameManager

/-- The macro `INTERNAL_ERASE_VALUE` on a map member: remove the key when present and raise
`bDidEraseValue`; the result is the member and the flag afterwards. -/
def INTERNAL_ERASE_VALUE {V : Type} (map : TMap V) (VariableName : String) (bDidEraseValue : Bool) :
    TMap V × Bool :=
  if map.Contains VariableName then (map.Remove VariableName, true) else (map, bDidEraseValue)

/-- The macro `INTERNAL_ERASE_VALUE` on the array member `ActorNames`: `TArray::Contains` and
`TArray::Remove`, which drops every equal item. -/
def INTERNAL_ERASE_VALUE_Array (map : List String) (VariableName : String) (bDidEraseValue : Bool) :
    List String × Bool :=
  if VariableName ∈ map then (map.filter (fun Item => Item ≠ VariableName), true)
  else (map, bDidEraseValue)

/-- `SaveGameManager::EraseValue`: the twelve `INTERNAL_ERASE_VALUE` lines in source order. The
result is the returned flag and the manager afterwards. -/
def EraseValue (M : SaveGameManager) (VariableName : String) : Bool × SaveGameManager :=
  let D := M.CurrentData
  let bDidEraseValue := false
  let Integers := INTERNAL_ERASE_VALUE D.Integers VariableName bDidEraseValue
  let Floats := INTERNAL_ERASE_VALUE D.Floats VariableName Integers.2
  let Booleans := INTERNAL_ERASE_VALUE D.Booleans VariableName Floats.2
  let Vectors := INTERNAL_ERASE_VALUE D.Vectors VariableName Booleans.2
  let Transforms := INTERNAL_ERASE_VALUE D.Transforms VariableName Vectors.2
  let Rotators := INTERNAL_ERASE_VALUE D.Rotators VariableName Transforms.2
  let Strings := INTERNAL_ERASE_VALUE D.Strings VariableName Rotators.2
  let Names := INTERNAL_ERASE_VALUE D.Names VariableName Strings.2
  let Texts := INTERNAL_ERASE_VALUE D.Texts VariableName Names.2
  let Actors := INTERNAL_ERASE_VALUE D.Actors VariableName Texts.2
  let Classes := INTERNAL_ERASE_VALUE D.Classes VariableName Actors.2
  let ActorNames := INTERNAL_ERASE_VALUE_Array D.ActorNames VariableName Classes.2
  (ActorNames.2, { M with CurrentData := { D with
    Integers := Integers.1, Floats := Floats.1, Booleans := Booleans.1, Vectors := Vectors.1,
    Transforms := Transforms.1, Rotators := Rotators.1, Strings := Strings.1, Names := Names.1,
    Texts := Texts.1, Actors := Actors.1, Classes := Classes.1, ActorNames := ActorNames.1 } })

/-- `SaveGameManager::SpawnObject`: the object built by the engine's `NewObject` from the class
stored under the name, null when the name is not in `Objects`. -/
def SpawnObject (NewObject : TSubclassOf → Option UObject) (M : SaveGameManager)
    (ObjectName : String) : Option UObject :=
  if M.CurrentData.Objects.Contains ObjectName then
    NewObject ((M.CurrentData.Objects.Find ObjectName).getD none)
  else none

/-- `SaveGameManager::SpawnObjects`: one `NewObject` per entry of `Objects` with a valid class,
appended to `SpawnedObjects`. -/
def SpawnObjects (NewObject : TSubclassOf → Option UObject) (M : SaveGameManager)
    (SpawnedObjects : List (Option UObject)) : List (Option UObject) :=
  M.CurrentData.Objects.Pairs.foldl
    (fun Spawned Object =>
      match Object.2 with
      | none => Spawned
      | some Class => Spawned ++ [NewObject (some Class)])
    SpawnedObjects

/-- `SaveGameManager::SpawnStoredObjects`: both branches run `SpawnObjects` on an empty array
(the multithreaded one on the game thread, waiting for it). -/
def SpawnStoredObjects (NewObject : TSubclassOf → Option UObject) (M : SaveGameManager) :
    List (Option UObject) :=
  SpawnObjects NewObject M []

end SaveGameManager

/-! ## Dates -/

/-- `FString::Printf(TEXT("%0<Width>i"), Value)` for a value that is not negative. -/
def ZeroPadded (Width : Nat) (Value : Nat) : String :=
  String.mk (List.replicate (Width - (Nat.repr Value).length) '0' ++ (Nat.repr Value).data)

/-- Engine `FString::Mid(Start, Count)`. -/
def Mid (Source : String) (Start Count : Nat) : String :=
  String.mk ((Source.data.drop Start).take Count)

namespace FDateTime

/-- Engine `FDateTime::Today`: the date of now at midnight. -/
def Today (Now : FDateTime) : FDateTime := { Now with Hour := 0, Minute := 0, Second := 0 }

/-- Engine `FDateTime::ToString()` with its default format `%Y.%m.%d-%H.%M.%S`. -/
def ToString (Date : FDateTime) : String :=
  ZeroPadded 4 Date.Year ++ "." ++ ZeroPadded 2 Date.Month ++ "." ++ ZeroPadded 2 Date.Day ++ "-" ++
    ZeroPadded 2 Date.Hour ++ "." ++ ZeroPadded 2 Date.Minute ++ "." ++ ZeroPadded 2 Date.Second

/-- Engine `FDateTime::GetHour12`. -/
def GetHour12 (Date : FDateTime) : Nat :=
  if Date.Hour < 1 then 12 else if Date.Hour > 12 then Date.Hour - 12 else Date.Hour

end FDateTime

namespace SaveGameManager

/-- `SaveGameManager::SetTimeAndDateCreated`, with `Now` the engine clock. -/
def SetTimeAndDateCreated (Now : FDateTime) (Slot : FSaveSlotInfo) : FSaveSlotInfo :=
  let Date := (FDateTime.Today Now).ToString
  let Year := Mid Date 0 4
  let Month := Mid Date 5 2
  let Day := Mid Date 8 2
  let DateCreated := Slot.DateCreated ++ (Month ++ "-" ++ Day ++ "-" ++ Year)
  let Hour : Int := Now.GetHour12
  let Minute : Int := Now.Minute
  let TimeCreated :=
    if Minute > 9 then FromInt Hour ++ ":" ++ FromInt Minute
    else FromInt Hour ++ ":0" ++ FromInt Minute
  let Hour24 := Now.Hour
  { Slot with
    DateCreated := DateCreated,
    TimeCreated := if Hour24 < 11 then TimeCreated ++ "AM" else TimeCreated ++ "PM" }

/-- `SaveGameManager::SpawnTimeKeeper`: with a world, spawn a new keeper, `Init` it on
`CurrentData` and make it the manager's keeper; keepers spawned earlier stay in the world. -/
def SpawnTimeKeeper (M : SaveGameManager) (Host : Engine) : SaveGameManager × Engine :=
  match M.World with
  | some _ =>
    ({ M with TimeKeeper := some Host.TimeKeepers.length },
     { Host with TimeKeepers :=
        Host.TimeKeepers ++ [ATimeKeeper.Init {} M.bIsVerboseLoggingEnabled] })
  | none => (M, Host)

/-- `SaveGameManager::NewGame`. The result is the returned flag, the manager and the host. -/
def NewGame (M : SaveGameManager) (Host : Engine) (SaveSlotName : String)
    (_SaveGameClass : TSubclassOf) (bInIsMultithreading : Bool) (bOverwriteExistingSave : Bool) :
    Bool × SaveGameManager × Engine :=
  if ¬ Host.bIsInGameThread then (false, M, Host)
  else
    let ActorsWithInterface := Host.GetAllActorsWithInterface M.World
    let M1 := { M with bIsMultithreading := bInIsMultithreading }
    if ¬ bOverwriteExistingSave ∧ M1.SaveData.Slots.Contains SaveSlotName then (false, M1, Host)
    else
      -- CurrentData = FSavedData{}, then moved into the directory
      let SlotInfo := SetTimeAndDateCreated Host.Now {}
      let M2 := { M1 with
        CurrentSlotName := SaveSlotName,
        SaveData :=
          { Slots := M1.SaveData.Slots.Add SaveSlotName SlotInfo,
            Data := M1.SaveData.Data.Add SaveSlotName {} },
        CurrentData := { ({} : FSavedData) with ProjectVersion := Host.GetProjectVersion } }
      let Host1 := Host.Dispatch ActorsWithInterface ESaveGameEvent.NewSaveCreated
      match M2.World with
      | none => (false, M2, Host1)
      | some _ =>
        let (M3, Host2) := M2.SpawnTimeKeeper Host1
        (true, M3, Host2)

/-- `SaveGameLibraryThread::Run` on the object handed over by `SaveGame`. -/
def SaveGameLibraryThread_Run (Host : Engine) (SaveGameObject : USaveGameObject) (Filename : String)
    (SaveSlotName : String) (UserIndex : Int) : Engine :=
  if SaveSlotName = "" then Host
  else (Host.SaveGameToSlot SaveGameObject Filename UserIndex).2

/-- `SaveGameManager::SaveGame`. The result is `none` when `SaveData.Data[SaveSlotName]` is
reached without the key being in `Data`. The background save of the multithreaded branch is
modelled by the effect of its `Run`. -/
def SaveGame (M : SaveGameManager) (Host : Engine) (SaveSlotName : String) (UserIndex : Int)
    (SaveGameClass : TSubclassOf) (bInIsMultithreading : Bool) : Option (SaveGameManager × Engine) :=
  if ¬ Host.bIsInGameThread then some (M, Host)
  else
    let ActorsWithInterface := Host.GetAllActorsWithInterface M.World
    let M1 := { M with bIsMultithreading := bInIsMultithreading }
    let Host1 := Host.Dispatch ActorsWithInterface ESaveGameEvent.PreSave
    let M2 := { M1 with CurrentData := { M1.CurrentData with ProjectVersion := Host.GetProjectVersion } }
    let Committed : Option FSaveGameData :=
      if ¬ M2.SaveData.Slots.Contains SaveSlotName then
        some { Slots := M2.SaveData.Slots.Add SaveSlotName M2.CurrentSlotInfo,
               Data := M2.SaveData.Data.Add SaveSlotName M2.CurrentData }
      else if M2.SaveData.Data.Contains SaveSlotName then
        some { M2.SaveData with Data := M2.SaveData.Data.Add SaveSlotName M2.CurrentData }
      else none
    match Committed with
    | none => none
    | some SaveData =>
      let M3 := { M2 with SaveData := SaveData, SaveObject := Engine.CreateSaveGameObject SaveGameClass }
      let M4 := if ¬ M3.bIsUsingSingleSaveFile then { M3 with SaveFileName := SaveSlotName } else M3
      let (M5, Host2) :=
        match M4.SaveObject with
        | some Object =>
          let Object1 := Object.SetData M4.SaveData
          let M5 := { M4 with SaveObject := some Object1 }
          if bInIsMultithreading then
            (M5, SaveGameLibraryThread_Run Host1 Object1 M5.SaveFileName SaveSlotName UserIndex)
          else (M5, (Host1.SaveGameToSlot Object1 M5.SaveFileName UserIndex).2)
        | none => (M4, Host1)
      some (M5, Host2.Dispatch ActorsWithInterface ESaveGameEvent.PostSave)

/-- `SaveGameManager::LoadData`. Both branches read the file; the multithreaded one does so in a
task the caller waits for. -/
def LoadData (M : SaveGameManager) (Host : Engine) (Filename : String) (UserIndex : Int) :
    Bool × SaveGameManager :=
  let M1 := { M with SaveFileName := Filename }
  let M2 := { M1 with SaveObject := Host.LoadGameFromSlot M1.SaveFileName UserIndex }
  let M3 := { M2 with bHasDataBeenLoaded := M2.SaveObject.isSome }
  match M3.SaveObject with
  | some Object => (true, { M3 with SaveData := { Slots := Object.GetSlots, Data := Object.GetData } })
  | none => (false, M3)

/-- `SaveGameManager::LoadGame`. The result is `none` when `SaveData.Data[SaveSlotName]` is
reached without the key being in `Data`. -/
def LoadGame (M : SaveGameManager) (Host : Engine) (SaveSlotName : String) (UserIndex : Int) :
    Option (Bool × SaveGameManager × Engine) :=
  if ¬ Host.bIsInGameThread then some (false, M, Host)
  else
    let ActorsWithInterface := Host.GetAllActorsWithInterface M.World
    let Host1 := Host.Dispatch ActorsWithInterface ESaveGameEvent.PreLoad
    let M1 := if ¬ M.bIsUsingSingleSaveFile then { M with SaveFileName := SaveSlotName } else M
    let M2 := if ¬ M1.bHasDataBeenLoaded then (M1.LoadData Host1 M1.SaveFileName UserIndex).2 else M1
    match M2.SaveData.Slots.Find SaveSlotName with
    | none => some (false, M2, Host1)
    | some SlotInfo =>
      match M2.SaveData.Data.Find SaveSlotName with
      | none => none
      | some Data =>
        let M3 := { M2 with CurrentSlotInfo := SlotInfo, CurrentData := Data,
                            CurrentSlotName := SaveSlotName }
        if M3.SaveObject.isSome ∧ M3.SaveFileName ≠ "" then
          let Host2 := Host1.Dispatch ActorsWithInterface ESaveGameEvent.PostLoad
          match M3.World with
          | none => some (false, M3, Host2)
          | some _ =>
            let (M4, Host3) := M3.SpawnTimeKeeper Host2
            some (true, M4, Host3)
        else some (false, M3, Host1)

/-- `SaveGameManager::SetActiveSave`. The result is `none` when `SaveData.Data[SaveSlotName]` is
reached without the key being in `Data`. -/
def SetActiveSave (M : SaveGameManager) (SaveSlotName : String) : Option SaveGameManager :=
  if SaveSlotName = "" then
    some { M with CurrentSlotName := "", CurrentSlotInfo := EmptySlotInfo, CurrentData := EmptySaveData }
  else
    match M.SaveData.Slots.Find SaveSlotName with
    | none => some M
    | some SlotInfo =>
      match M.SaveData.Data.Find SaveSlotName with
      | none => none
      | some Data =>
        let M1 := { M with CurrentSlotName := SaveSlotName, CurrentSlotInfo := SlotInfo,
                           CurrentData := Data }
        some (if ¬ M1.bIsUsingSingleSaveFile then { M1 with SaveFileName := SaveSlotName } else M1)

/-- `SetSaveFileName` of SaveGameManager.h. -/
def SetSaveFileName (M : SaveGameManager) (Filename : String) : SaveGameManager :=
  { M with SaveFileName := Filename }

/-- `SetWorld` of SaveGameManager.h. -/
def SetWorld (M : SaveGameManager) (InWorld : Option UWorld) : SaveGameManager :=
  { M with World := InWorld }

/-- `SetIsUsingSingleSaveFile` of SaveGameManager.h. -/
def SetIsUsingSingleSaveFile (M : SaveGameManager) (bNewState : Bool) : SaveGameManager :=
  { M with bIsUsingSingleSaveFile := bNewState }

/-- `SetIsMultithreading` of SaveGameManager.h. -/
def SetIsMultithreading (M : SaveGameManager) (bNewState : Bool) : SaveGameManager :=
  { M with bIsMultithreading := bNewState }

/-- `SetIsMultithreadingEvents` of SaveGameManager.h. -/
def SetIsMultithreadingEvents (M : SaveGameManager) (bNewState : Bool) : SaveGameManager :=
  { M with bIsMultithreadingEvents := bNewState }

/-- `SetIsVerboseLoggingEnabled` of SaveGameManager.h. -/
def SetIsVerboseLoggingEnabled (M : SaveGameManager) (bNewState : Bool) : SaveGameManager :=
  { M with bIsVerboseLoggingEnabled := bNewState }

end SaveGameManager

/-! ## The array getters of `UExpandedSaveGameLibrary` -/

/-- The macro `GET_ARRAY` of ExpandedSaveGameLibrary.cpp: for `Index` from `0` while
`Index < ArraySize`, append `Get(ArrayName + FString::FromInt(Index))` to `StoredArray`. -/
def GET_ARRAY {V : Type} (Get : String → V) (ArrayName : String) (ArraySize : Int)
    (StoredArray : List V) : List V :=
  (List.range ArraySize.toNat).foldl
    (fun Stored (Index : Nat) => Stored ++ [Get (ArrayName ++ FromInt (Index : Int))])
    StoredArray

namespace UExpandedSaveGameLibrary

/-- `GENERATE_GETTERS(Int, int)`, the array getter. -/
def GetStoredIntArray (Manager : SaveGameManager) (ArrayName : String) (ArraySize : Int)
    (StoredArray : List Int) : List Int :=
  GET_ARRAY Manager.GetInt ArrayName ArraySize StoredArray

/-- `GENERATE_GETTERS(Float, float)`, the array getter. -/
def GetStoredFloatArray (Manager : SaveGameManager) (ArrayName : String) (ArraySize : Int)
    (StoredArray : List float) : List float :=
  GET_ARRAY Manager.GetFloat ArrayName ArraySize StoredArray

/-- `GENERATE_GETTERS(Boolean, bool)`, the array getter. -/
def GetStoredBooleanArray (Manager : SaveGameManager) (ArrayName : String) (ArraySize : Int)
    (StoredArray : List Bool) : List Bool :=
  GET_ARRAY Manager.GetBoolean ArrayName ArraySize StoredArray

/-- `GENERATE_GETTERS(Class, TSubclassOf<UObject>)`, the array getter. -/
def GetStoredClassArray (Manager : SaveGameManager) (ArrayName : String) (ArraySize : Int)
    (StoredArray : List TSubclassOf) : List TSubclassOf :=
  GET_ARRAY Manager.GetClass ArrayName ArraySize StoredArray

/-- `GENERATE_GETTERS(ActorData, FActorSaveData)`, the array getter. -/
def GetStoredActorDataArray (Manager : SaveGameManager) (ArrayName : String) (ArraySize : Int)
    (StoredArray : List FActorSaveData) : List FActorSaveData :=
  GET_ARRAY Manager.GetActorData ArrayName ArraySize StoredArray

/-- `GENERATE_GETTERS(Vector, FVector)`, the array getter. -/
def GetStoredVectorArray (Manager : SaveGameManager) (ArrayName : String) (ArraySize : Int)
    (StoredArray : List FVector) : List FVector :=
  GET_ARRAY Manager.GetVector ArrayName ArraySize StoredArray

/-- `GENERATE_GETTERS(Rotator, FRotator)`, the array getter. -/
def GetStoredRotatorArray (Manager : SaveGameManager) (ArrayName : String) (ArraySize : Int)
    (StoredArray : List FRotator) : List FRotator :=
  GET_ARRAY Manager.GetRotator ArrayName ArraySize StoredArray

/-- `GENERATE_GETTERS(Transform, FTransform)`, the array getter. -/
def GetStoredTransformArray (Quaternion : FRotator → FQuat) (Manager : SaveGameManager)
    (ArrayName : String) (ArraySize : Int) (StoredArray : List FTransform) : List FTransform :=
  GET_ARRAY (Manager.GetTransform Quaternion) ArrayName ArraySize StoredArray

/-- `GENERATE_GETTERS(String, FString)`, the array getter. -/
def GetStoredStringArray (Manager : SaveGameManager) (ArrayName : String) (ArraySize : Int)
    (StoredArray : List String) : List String :=
  GET_ARRAY Manager.GetString ArrayName ArraySize StoredArray

/-- `GENERATE_GETTERS(Text, FText)`, the array getter. -/
def GetStoredTextArray (Manager : SaveGameManager) (ArrayName : String) (ArraySize : Int)
    (StoredArray : List FText) : List FText :=
  GET_ARRAY Manager.GetText ArrayName ArraySize StoredArray

/-- `GENERATE_GETTERS(Name, FName)`, the array getter. -/
def GetStoredNameArray (Manager : SaveGameManager) (ArrayName : String) (ArraySize : Int)
    (StoredArray : List FName) : List FName :=
  GET_ARRAY Manager.GetName ArrayName ArraySize StoredArray

end UExpandedSaveGameLibrary

/-! ## Slot directory operations -/

namespace TMap

variable {V : Type}

/-- The loop of `FindAndRenameSlot` on the pairs of a map: the first pair whose key is `Key` gets
the key `NewKey`, in place; the flag tells whether there was one. -/
def RenameFirstPair : List (String × V) → String → String → Bool × List (String × V)
  | [], _, _ => (false, [])
  | (k, v) :: rest, Key, NewKey =>
    if k = Key then (true, (NewKey, v) :: rest)
    else ((RenameFirstPair rest Key NewKey).1, (k, v) :: (RenameFirstPair rest Key NewKey).2)

end TMap

namespace SaveGameManager

/-- `SaveGameManager::FindAndRenameSlot`: the key of the first matching pair of `SaveData.Slots`
is assigned in place; `SaveData.Data` is not visited. The engine leaves the pair in the hash
bucket of its old key; lookups here compare keys pair by pair, which is what the engine does
while the map has a single bucket (fewer than four pairs) or when both keys share a bucket. -/
def FindAndRenameSlot (M : SaveGameManager) (SaveSlotName NewSlotName : String) :
    Bool × SaveGameManager :=
  ((TMap.RenameFirstPair M.SaveData.Slots.Pairs SaveSlotName NewSlotName).1,
   { M with SaveData := { M.SaveData with
      Slots := ⟨(TMap.RenameFirstPair M.SaveData.Slots.Pairs SaveSlotName NewSlotName).2⟩ } })

/-- `SaveGameManager::RenameSlot`. -/
def RenameSlot (M : SaveGameManager) (SaveSlotName NewSlotName : String) : Bool × SaveGameManager :=
  if ¬ M.SaveData.Slots.Contains SaveSlotName then (false, M)
  else
    if M.bIsUsingSingleSaveFile then
      if M.CurrentSlotName = SaveSlotName then
        FindAndRenameSlot { M with CurrentSlotName := NewSlotName } SaveSlotName NewSlotName
      else FindAndRenameSlot M SaveSlotName NewSlotName
    else FindAndRenameSlot M SaveSlotName NewSlotName

/-- `SaveGameManager::UpdateSaveSlotProjectVersion`. The result is `none` when
`SaveData.Data[SaveSlotName]` is reached without the key being in `Data`. -/
def UpdateSaveSlotProjectVersion (M : SaveGameManager) (SaveSlotName NewVersion : String) :
    Option (Bool × SaveGameManager) :=
  if M.SaveData.Slots.Contains SaveSlotName then
    match M.SaveData.Data.Find SaveSlotName with
    | none => none
    | some Slot =>
      some (true, { M with SaveData := { M.SaveData with
        Data := M.SaveData.Data.Add SaveSlotName { Slot with ProjectVersion := NewVersion } } })
  else some (false, M)

/-- `SaveGameManager::GetSaveSlotProjectVersion`. The result is `none` when
`SaveData.Data[SaveSlotName]` is reached without the key being in `Data`. -/
def GetSaveSlotProjectVersion (M : SaveGameManager) (SaveSlotName : String) : Option String :=
  if M.SaveData.Slots.Contains SaveSlotName then
    (M.SaveData.Data.Find SaveSlotName).map FSavedData.ProjectVersion
  else some EmptyString

/-- `SaveGameManager::GetSaveSlotNames`: the keys of `SaveData.Slots` in iteration order, also
kept in the member `SaveSlotNames`. -/
def GetSaveSlotNames (M : SaveGameManager) : List String × SaveGameManager :=
  (M.SaveData.Slots.Keys, { M with SaveSlotNames := M.SaveData.Slots.Keys })

/-- The manager after the load step that opens both `LoadGame` (lines 430 to 438) and
`DeleteGame` (lines 522 to 531): the file name follows the slot name unless a single file is
used, and `LoadData` runs unless `bHasDataBeenLoaded` is set. -/
def LoadStep (M : SaveGameManager) (Host : Engine) (SaveSlotName : String) (UserIndex : Int) :
    SaveGameManager :=
  let M1 := if ¬ M.bIsUsingSingleSaveFile then { M with SaveFileName := SaveSlotName } else M
  if ¬ M1.bHasDataBeenLoaded then (M1.LoadData Host M1.SaveFileName UserIndex).2 else M1

/-- `SaveGameManager::DeleteGame`. The result is `none` when `SaveObject->SetData` is reached with
a null `SaveObject`, which is the case when the save class cannot be instantiated. The write is
the direct `SaveGameToSlot` call of the source, whatever `bInIsMultithreading` is. -/
def DeleteGame (M : SaveGameManager) (Host : Engine) (SaveSlotName : String) (UserIndex : Int)
    (SaveGameClass : TSubclassOf) (_bInIsMultithreading : Bool) :
    Option (Bool × SaveGameManager × Engine) :=
  let M1 := if ¬ M.bIsUsingSingleSaveFile then { M with SaveFileName := SaveSlotName } else M
  let M2 := if ¬ M1.bHasDataBeenLoaded then (M1.LoadData Host M1.SaveFileName UserIndex).2 else M1
  let M3 :=
    if M2.CurrentSlotName = SaveSlotName then
      { M2 with CurrentSlotName := "", CurrentData := {}, CurrentSlotInfo := {} }
    else M2
  let M4 := { M3 with SaveData :=
    { Slots := M3.SaveData.Slots.Remove SaveSlotName, Data := M3.SaveData.Data.Remove SaveSlotName } }
  match Engine.CreateSaveGameObject SaveGameClass with
  | none => none
  | some Object =>
    let Object1 := Object.SetData M4.SaveData
    let M5 := { M4 with SaveObject := some Object1 }
    some (true, M5, (Host.SaveGameToSlot Object1 M5.SaveFileName UserIndex).2)

end SaveGameManager

/-! ## Played time, slot queries -/

/-- The local variables of `SaveGameManager::GetTimePlayed`: the slot whose `TimePlayed` is
written, the running `TimeLeft` and the six counters. -/
structure FTimePlayedLocals where
  Slot : FSaveSlotInfo
  TimeLeft : Int
  Years : Int := 0
  Months : Int := 0
  Weeks : Int := 0
  Days : Int := 0
  Hours : Int := 0
  Minutes : Int := 0
  deriving DecidableEq

namespace SaveGameManager

/-- `SecondsInAYear` of `GetTimePlayed`. -/
def SecondsInAYear : Int := 31557600
/-- `SecondsInAMonth` of `GetTimePlayed`. -/
def SecondsInAMonth : Int := 2592000
/-- `SecondsInAWeek` of `GetTimePlayed`. -/
def SecondsInAWeek : Int := 605800
/-- `SecondsInADay` of `GetTimePlayed`. -/
def SecondsInADay : Int := 86400
/-- `SecondsInAnHour` of `GetTimePlayed`. -/
def SecondsInAnHour : Int := 3600
/-- `SecondsInAMinute` of `GetTimePlayed`. -/
def SecondsInAMinute : Int := 60

/-- `SaveGameManager::AppendTime`. -/
def AppendTime (Slot : FSaveSlotInfo) (InTime : Int) (TimeAboveOneString TimeEqualsOneString : String) :
    FSaveSlotInfo :=
  if InTime > 0 then
    if InTime > 1 then
      { Slot with TimePlayed := Slot.TimePlayed ++ (FromInt InTime ++ TimeAboveOneString) }
    else
      { Slot with TimePlayed := Slot.TimePlayed ++ (FromInt InTime ++ TimeEqualsOneString) }
  else Slot

/-- The body of `SaveGameManager::GetTimePlayed` from `Slot.TimePlayed.Empty()` to the last
`AppendTime`, on the slot reference and the committed `SecondsPlayed`; `/` on `int` is the
truncating division. The result is the locals at the `return`. -/
def GetTimePlayed_Locals (Slot : FSaveSlotInfo) (SecondsPlayed : Int) : FTimePlayedLocals :=
  let L0 : FTimePlayedLocals := { Slot := { Slot with TimePlayed := "" }, TimeLeft := SecondsPlayed }
  let L1 :=
    if L0.TimeLeft ≥ SecondsInAYear then
      let Years := (((L0.TimeLeft.tdiv 365).tdiv 24).tdiv 60).tdiv 60
      { L0 with Years := Years, TimeLeft := L0.TimeLeft - SecondsInAYear * Years,
                Slot := AppendTime L0.Slot Years " years, " " year, " }
    else L0
  let L2 :=
    if L1.TimeLeft ≥ SecondsInAMonth then
      let Months := (((L1.TimeLeft.tdiv 30).tdiv 24).tdiv 60).tdiv 60
      { L1 with Months := Months, TimeLeft := L1.TimeLeft - SecondsInAMonth * Months,
                Slot := AppendTime L1.Slot Months " months," " month, " }
    else L1
  let L3 :=
    if L2.TimeLeft ≥ SecondsInAWeek then
      let Weeks := (((L2.TimeLeft.tdiv 7).tdiv 24).tdiv 60).tdiv 60
      { L2 with Weeks := Weeks, TimeLeft := L2.TimeLeft - SecondsInAWeek * Weeks,
                Slot := AppendTime L2.Slot Weeks " weeks," " week, " }
    else L2
  let L4 :=
    if L3.TimeLeft ≥ SecondsInADay then
      let Days := ((L3.TimeLeft.tdiv 24).tdiv 60).tdiv 60
      { L3 with Days := Days, TimeLeft := L3.TimeLeft - SecondsInADay * Days,
                Slot := AppendTime L3.Slot Days " days, " " day, " }
    else L3
  let L5 :=
    if L4.TimeLeft ≥ SecondsInAnHour then
      let Hours := (L4.TimeLeft.tdiv 60).tdiv 60
      { L4 with Hours := Hours, TimeLeft := L4.TimeLeft - SecondsInAnHour * Hours,
                Slot := AppendTime L4.Slot Hours " hours, " " hour, " }
    else L4
  let L6 :=
    if L5.TimeLeft ≥ SecondsInAMinute then
      let Minutes := L5.TimeLeft.tdiv 60
      { L5 with Minutes := Minutes, TimeLeft := L5.TimeLeft - SecondsInAMinute * Minutes,
                Slot := AppendTime L5.Slot Minutes " minutes, " " minute, " }
    else L5
  { L6 with Slot := AppendTime L6.Slot L6.TimeLeft " seconds, " " second, " }

/-- `SaveGameManager::GetTimePlayed`: the string returned and the manager afterwards, whose
metadata entry for the slot carries that string. The result is `none` when
`SaveData.Slots[SaveSlotName]` or `SaveData.Data[SaveSlotName]` is reached without the key being
in the map; the source tests neither. -/
def GetTimePlayed (M : SaveGameManager) (SaveSlotName : String) : Option (String × SaveGameManager) :=
  match M.SaveData.Slots.Find SaveSlotName with
  | none => none
  | some Slot =>
    match M.SaveData.Data.Find SaveSlotName with
    | none => none
    | some Data =>
      let L := GetTimePlayed_Locals Slot Data.SecondsPlayed
      some (L.Slot.TimePlayed,
        { M with SaveData := { M.SaveData with Slots := M.SaveData.Slots.Add SaveSlotName L.Slot } })

/-- `SaveGameManager::GetSaveSlotInfo`: the metadata returned and the manager afterwards; `none`
when `GetTimePlayed` meets a missing key. -/
def GetSaveSlotInfo (M : SaveGameManager) (SaveSlotName : String) :
    Option (FSaveSlotInfo × SaveGameManager) :=
  if M.SaveData.Slots.Contains SaveSlotName then
    match M.GetTimePlayed SaveSlotName with
    | none => none
    | some Played =>
      match Played.2.SaveData.Slots.Find SaveSlotName with
      | none => none
      | some Slot =>
        some ({ Slot with TimePlayed := Played.1 },
          { Played.2 with SaveData := { Played.2.SaveData with
            Slots := Played.2.SaveData.Slots.Add SaveSlotName { Slot with TimePlayed := Played.1 } } })
  else some (EmptySlotInfo, M)

/-- `SaveGameManager::GetDateCreated`. -/
def GetDateCreated (M : SaveGameManager) : String := M.CurrentSlotInfo.DateCreated

/-- `SaveGameManager::GetSecondsPlayed`. -/
def GetSecondsPlayed (M : SaveGameManager) : Int := M.CurrentData.SecondsPlayed

/-- `SaveGameManager::GetCurrentSlotName`. -/
def GetCurrentSlotName (M : SaveGameManager) : String := M.CurrentSlotName

/-- `DoesSaveSlotExist` of SaveGameManager.h, line 49. The body is the expression statement
`SaveData.Slots.Contains(SaveSlotName);` and the function has no `return`, so the source does not
determine the value the caller receives; `Unspecified` stands for that value. -/
def DoesSaveSlotExist (Unspecified : Bool) (M : SaveGameManager) (SaveSlotName : String) : Bool :=
  let _Discarded := M.SaveData.Slots.Contains SaveSlotName
  Unspecified

end SaveGameManager

namespace UExpandedSaveGameLibrary

/-- `UExpandedSaveGameLibrary::DoesSaveSlotExit`: forwards `Manager.DoesSaveSlotExist`. -/
def DoesSaveSlotExit (Unspecified : Bool) (Manager : SaveGameManager) (SaveSlotName : String) :
    Bool :=
  Manager.DoesSaveSlotExist Unspecified SaveSlotName

/-- `UExpandedSaveGameLibrary::GetDateCreated`: forwards `Manager.GetDateCreated`. -/
def GetDateCreated (Manager : SaveGameManager) : String := Manager.GetDateCreated

end UExpandedSaveGameLibrary

/-! ## Playtime tracking -/

/-- TimeKeeper.cpp, `ATimeKeeper::Tick`, on the store the keeper points to: an active keeper
increments `SecondsPlayed`. -/
def ATimeKeeper.Tick (Keeper : ATimeKeeper) (SaveData : FSavedData) : FSavedData :=
  if Keeper.bIsActive then { SaveData with SecondsPlayed := SaveData.SecondsPlayed + 1 }
  else SaveData

namespace SaveGameManager

/-- `SaveGameManager::SetIsTimeKeeperEnabled`, with `ContextWorld` the result of
`Context->GetWorld()`: the world is taken over, `SpawnTimeKeeper` runs, and the keeper the
manager then points to gets `SetIsActive(bNewState)`. -/
def SetIsTimeKeeperEnabled (M : SaveGameManager) (Host : Engine) (ContextWorld : Option UWorld)
    (bNewState : Bool) : SaveGameManager × Engine :=
  let Spawned := SpawnTimeKeeper { M with World := ContextWorld } Host
  match Spawned.1.TimeKeeper with
  | some Index =>
    match Spawned.2.TimeKeepers[Index]? with
    | some Keeper =>
      let Keeper1 := Keeper.SetIsActive bNewState Spawned.1.bIsVerboseLoggingEnabled
      (Spawned.1, { Spawned.2 with TimeKeepers := Spawned.2.TimeKeepers.set Index Keeper1 })
    | none => Spawned
  | none => Spawned

/-- One tick of the world: `ATimeKeeper::Tick` runs once on every keeper in the world, oldest
first, each on the manager's `CurrentData`, the store all of them were bound to by `Init`. -/
def WorldTick (M : SaveGameManager) (Host : Engine) : SaveGameManager :=
  let Ticked := Host.TimeKeepers.foldl (fun SaveData Keeper => Keeper.Tick SaveData) M.CurrentData
  { M with CurrentData := Ticked }

/-- The text one call of `AppendTime` appends to `Slot.TimePlayed`; empty when it appends
nothing. -/
def AppendTime_Text (InTime : Int) (TimeAboveOneString TimeEqualsOneString : String) : String :=
  if InTime > 0 then
    if InTime > 1 then FromInt InTime ++ TimeAboveOneString
    else FromInt InTime ++ TimeEqualsOneString
  else ""

end SaveGameManager

/-- An operation of a run of `StoreActor` and `EraseValue` calls. -/
inductive FActorOperation where
  | StoreActor (ObjectName : String) (ActorToStore : Option AActor)
      (SpawnMethod : ESpawnActorCollisionHandlingMethod)
  | EraseValue (VariableName : String)

/-- The manager after one operation of a run. -/
def FActorOperation.Apply (M : SaveGameManager) : FActorOperation → SaveGameManager
  | .StoreActor ObjectName ActorToStore SpawnMethod => M.StoreActor ObjectName ActorToStore SpawnMethod
  | .EraseValue VariableName => (M.EraseValue VariableName).2

/-- The key an operation stores under, if it stores: `ObjectName`, or the actor's own name when
`ObjectName` is empty; nothing for a null actor. -/
def FActorOperation.StoredName : FActorOperation → Option String
  | .StoreActor ObjectName (some Actor) _ => some (if ObjectName = "" then Actor.Name else ObjectName)
  | .StoreActor _ none _ => none
  | .EraseValue _ => none

/-- The actor-name list as the data model words it, for a run of operations: a stored name that
is not in the list goes to its end, a stored name that is in the list leaves it alone, an erased
name is taken out. -/
def ExpectedActorNames : List String → List FActorOperation → List String
  | Names, [] => Names
  | Names, .StoreActor ObjectName (some Actor) _ :: Rest =>
    let Name := if ObjectName = "" then Actor.Name else ObjectName
    ExpectedActorNames (if Name ∈ Names then Names else Names ++ [Name]) Rest
  | Names, .StoreActor _ none _ :: Rest => ExpectedActorNames Names Rest
  | Names, .EraseValue VariableName :: Rest =>
    ExpectedActorNames (Names.filter (fun Item => Item ≠ VariableName)) Rest

namespace SaveGameManager

/-- One `if (TimeLeft >= SecondsInA...)` block of `SaveGameManager::GetTimePlayed` as a function
of the locals: `Seconds` is the constant tested and subtracted, `Count` the chain of divisions,
`SetCounter` the assignment to the block's counter. `GetTimePlayed_Locals` is six such blocks
and the closing `AppendTime`. -/
def GetTimePlayed_Block (Seconds : Int) (Count : Int → Int)
    (SetCounter : FTimePlayedLocals → Int → FTimePlayedLocals)
    (TimeAboveOneString TimeEqualsOneString : String) (L : FTimePlayedLocals) : FTimePlayedLocals :=
  if L.TimeLeft ≥ Seconds then
    { SetCounter L (Count L.TimeLeft) with
        TimeLeft := L.TimeLeft - Seconds * Count L.TimeLeft,
        Slot := AppendTime L.Slot (Count L.TimeLeft) TimeAboveOneString TimeEqualsOneString }
  else L

end SaveGameManager

/-- The manager after a run of operations, first to last. -/
def FActorOperation.Run (M : SaveGameManager) (Operations : List FActorOperation) : SaveGameManager :=
  Operations.foldl FActorOperation.Apply M

/-! # Theorems -/

/-! ## Lemmas on `TMap` -/

namespace TMap

variable {V : Type}

theorem FindPairs_AddPairs_same (l : List (String × V)) (Key : String) (Value : V) :
    FindPairs (AddPairs l Key Value) Key = some Value := by
  induction l with
  | nil => simp [AddPairs, FindPairs]
  | cons p rest ih =>
    obtain ⟨k, v⟩ := p
    by_cases h : k = Key
    · simp [AddPairs, FindPairs, h]
    · simp [AddPairs, FindPairs, h, ih]

theorem FindPairs_AddPairs_other (l : List (String × V)) (Key Other : String) (Value : V)
    (h : Other ≠ Key) : FindPairs (AddPairs l Key Value) Other = FindPairs l Other := by
  induction l with
  | nil => simp [AddPairs, FindPairs, Ne.symm h]
  | cons p rest ih =>
    obtain ⟨k, v⟩ := p
    by_cases hk : k = Key
    · subst hk
      simp [AddPairs, FindPairs, Ne.symm h]
    · by_cases ho : k = Other
      · subst ho
        simp [AddPairs, FindPairs, h]
      · simp [AddPairs, FindPairs, hk, ho, ih]

theorem FindPairs_RemovePairs_same (l : List (String × V)) (Key : String) :
    FindPairs (RemovePairs l Key) Key = none := by
  induction l with
  | nil => simp [RemovePairs, FindPairs]
  | cons p rest ih =>
    obtain ⟨k, v⟩ := p
    by_cases h : k = Key
    · simp [RemovePairs, h, ih]
    · simp [RemovePairs, FindPairs, h, ih]

theorem FindPairs_RemovePairs_other (l : List (String × V)) (Key Other : String)
    (h : Other ≠ Key) : FindPairs (RemovePairs l Key) Other = FindPairs l Other := by
  induction l with
  | nil => simp [RemovePairs, FindPairs]
  | cons p rest ih =>
    obtain ⟨k, v⟩ := p
    by_cases hk : k = Key
    · subst hk
      simp [RemovePairs, FindPairs, Ne.symm h, ih]
    · by_cases ho : k = Other
      · subst ho
        simp [RemovePairs, FindPairs, h]
      · simp [RemovePairs, FindPairs, hk, ho, ih]

theorem Find_Add_same (Map : TMap V) (Key : String) (Value : V) :
    (Map.Add Key Value).Find Key = some Value :=
  FindPairs_AddPairs_same Map.Pairs Key Value

theorem Find_Add_other (Map : TMap V) (Key Other : String) (Value : V) (h : Other ≠ Key) :
    (Map.Add Key Value).Find Other = Map.Find Other :=
  FindPairs_AddPairs_other Map.Pairs Key Other Value h

theorem Contains_Add_same (Map : TMap V) (Key : String) (Value : V) :
    (Map.Add Key Value).Contains Key = true := by
  simp [Contains, Find_Add_same]

theorem Find_Remove_same (Map : TMap V) (Key : String) : (Map.Remove Key).Find Key = none :=
  FindPairs_RemovePairs_same Map.Pairs Key

theorem Find_Remove_other (Map : TMap V) (Key Other : String) (h : Other ≠ Key) :
    (Map.Remove Key).Find Other = Map.Find Other :=
  FindPairs_RemovePairs_other Map.Pairs Key Other h

theorem Contains_Remove_same (Map : TMap V) (Key : String) :
    (Map.Remove Key).Contains Key = false := by
  simp [Contains, Find_Remove_same]

theorem Find_Empty (Key : String) : (Empty : TMap V).Find Key = none := rfl

theorem Contains_Empty (Key : String) : (Empty : TMap V).Contains Key = false := rfl

end TMap

theorem INTERNAL_GET_VALUE_Add {V : Type} (map : TMap V) (emptyValue Value : V) (Key : String) :
    INTERNAL_GET_VALUE (map.Add Key Value) emptyValue Key = Value := by
  simp [INTERNAL_GET_VALUE, TMap.Contains_Add_same, TMap.Find_Add_same]

theorem INTERNAL_GET_VALUE_absent {V : Type} (map : TMap V) (emptyValue : V) (Key : String)
    (h : map.Contains Key = false) : INTERNAL_GET_VALUE map emptyValue Key = emptyValue := by
  simp [INTERNAL_GET_VALUE, h]

/-! ## Store and get -/

/-- C1: for each gettable kind (integer, float, boolean, string, text, name, vector, rotator,
transform, non-null class), every manager state `M` (so also one where `n` already holds a value
of the kind), every name `n` and value `v`, the getter of the kind applied after the store of the
kind returns `v`. -/
theorem C1_get_after_store (Quaternion : FRotator → FQuat) (M : SaveGameManager) (n : String) :
    (∀ v : Int, (M.StoreInt n v).GetInt n = v) ∧
    (∀ v : float, (M.StoreFloat n v).GetFloat n = v) ∧
    (∀ v : Bool, (M.StoreBoolean n v).GetBoolean n = v) ∧
    (∀ v : String, (M.StoreString n v).GetString n = v) ∧
    (∀ v : FText, (M.StoreText n v).GetText n = v) ∧
    (∀ v : FName, (M.StoreName n v).GetName n = v) ∧
    (∀ v : FVector, (M.StoreVector n v).GetVector n = v) ∧
    (∀ v : FRotator, (M.StoreRotator n v).GetRotator n = v) ∧
    (∀ v : FTransform, (M.StoreTransform n v).GetTransform Quaternion n = v) ∧
    (∀ c : UClass, (M.StoreClass n (some c)).GetClass n = some c) := by
  refine ⟨?_, ?_, ?_, ?_, ?_, ?_, ?_, ?_, ?_, ?_⟩ <;> intro v
  · exact INTERNAL_GET_VALUE_Add _ _ _ _
  · exact INTERNAL_GET_VALUE_Add _ _ _ _
  · exact INTERNAL_GET_VALUE_Add _ _ _ _
  · exact INTERNAL_GET_VALUE_Add _ _ _ _
  · exact INTERNAL_GET_VALUE_Add _ _ _ _
  · exact INTERNAL_GET_VALUE_Add _ _ _ _
  · exact INTERNAL_GET_VALUE_Add _ _ _ _
  · exact INTERNAL_GET_VALUE_Add _ _ _ _
  · exact INTERNAL_GET_VALUE_Add _ _ _ _
  · exact INTERNAL_GET_VALUE_Add _ _ _ _

/-! ## Saving and loading -/

open SaveGameManager

theorem Engine.LoadGameFromSlot_SaveGameToSlot (Host : Engine) (Object : USaveGameObject)
    (SlotName : String) (UserIndex : Int) (hW : Host.bWriteSucceeds = true) (hN : SlotName ≠ "") :
    (Host.SaveGameToSlot Object SlotName UserIndex).2.LoadGameFromSlot SlotName UserIndex
      = some Object := by
  simp [Engine.SaveGameToSlot, Engine.LoadGameFromSlot, hW, hN, List.find?]

theorem Engine.LoadGameFromSlot_congr (Host Host2 : Engine) (h : Host2.SaveGames = Host.SaveGames)
    (SlotName : String) (UserIndex : Int) :
    Host2.LoadGameFromSlot SlotName UserIndex = Host.LoadGameFromSlot SlotName UserIndex := by
  simp [Engine.LoadGameFromSlot, h]

theorem Engine.Dispatch_SaveGames (Host : Engine) (Actors : List String) (Event : ESaveGameEvent) :
    (Host.Dispatch Actors Event).SaveGames = Host.SaveGames := rfl

theorem Engine.Dispatch_bWriteSucceeds (Host : Engine) (Actors : List String) (Event : ESaveGameEvent) :
    (Host.Dispatch Actors Event).bWriteSucceeds = Host.bWriteSucceeds := rfl

theorem TMap.Contains_eq_false_iff {V : Type} (Map : TMap V) (Key : String) :
    Map.Contains Key = false ↔ Map.Find Key = none := by
  simp [TMap.Contains]

theorem SaveGame_isSome (M : SaveGameManager) (Host : Engine) (A : String) (UserIndex : Int)
    (SaveGameClass : TSubclassOf) (bInIsMultithreading : Bool)
    (hLock : M.SaveData.Slots.Contains A = true → M.SaveData.Data.Contains A = true) :
    (M.SaveGame Host A UserIndex SaveGameClass bInIsMultithreading).isSome = true := by
  by_cases hThread : Host.bIsInGameThread = true
  · by_cases hS : M.SaveData.Slots.Contains A = true
    · have hD := hLock hS
      simp [SaveGame, hThread, hS, hD]
    · have hS' : M.SaveData.Slots.Contains A = false := by simpa using hS
      simp [SaveGame, hThread, hS']
  · simp [SaveGame, hThread]

/-- The directory and the current triple after `SaveGame` on the game thread. -/
theorem SaveGame_directory (M : SaveGameManager) (Host : Engine) (A : String) (UserIndex : Int)
    (SaveGameClass : TSubclassOf) (bInIsMultithreading : Bool)
    (hThread : Host.bIsInGameThread = true) (M' : SaveGameManager) (Host' : Engine)
    (hSave : M.SaveGame Host A UserIndex SaveGameClass bInIsMultithreading = some (M', Host')) :
      M'.CurrentData = { M.CurrentData with ProjectVersion := Host.GetProjectVersion } ∧
      M'.CurrentSlotInfo = M.CurrentSlotInfo ∧
      M'.CurrentSlotName = M.CurrentSlotName ∧
      M'.SaveData.Data.Find A = some M'.CurrentData ∧
      M'.SaveData.Slots.Find A =
        (if M.SaveData.Slots.Contains A then M.SaveData.Slots.Find A else some M.CurrentSlotInfo) ∧
      M'.SaveFileName = (if M.bIsUsingSingleSaveFile then M.SaveFileName else A) ∧
      (∀ Class, SaveGameClass = some Class → bInIsMultithreading = false →
        Host.bWriteSucceeds = true → M'.SaveFileName ≠ "" →
        Host'.LoadGameFromSlot M'.SaveFileName UserIndex
          = some { Slots := M'.SaveData.Slots, Data := M'.SaveData.Data }) := by
  by_cases hS : M.SaveData.Slots.Contains A = true
  · by_cases hD : M.SaveData.Data.Contains A = true
    · cases SaveGameClass with
      | none =>
        by_cases hF : M.bIsUsingSingleSaveFile = true <;>
          simp [SaveGame, hThread, hS, hD, hF, Engine.CreateSaveGameObject] at hSave <;>
          obtain ⟨rfl, rfl⟩ := hSave <;>
          simp [hS, hF, TMap.Find_Add_same]
      | some Class =>
        by_cases hF : M.bIsUsingSingleSaveFile = true <;> cases bInIsMultithreading <;>
          simp [SaveGame, hThread, hS, hD, hF, Engine.CreateSaveGameObject,
            USaveGameObject.SetData, SaveGameLibraryThread_Run] at hSave <;>
          obtain ⟨rfl, rfl⟩ := hSave <;>
          simp [hS, hF, TMap.Find_Add_same] <;>
          intro hW hN <;>
          simp [Engine.LoadGameFromSlot_congr _ _ (Engine.Dispatch_SaveGames _ _ _),
            Engine.LoadGameFromSlot_SaveGameToSlot, hW, hN, Engine.Dispatch_bWriteSucceeds]
    · have hD' : M.SaveData.Data.Contains A = false := by simpa using hD
      simp [SaveGame, hThread, hS, hD'] at hSave
  · have hS' : M.SaveData.Slots.Contains A = false := by simpa using hS
    cases SaveGameClass with
    | none =>
      by_cases hF : M.bIsUsingSingleSaveFile = true <;>
        simp [SaveGame, hThread, hS', hF, Engine.CreateSaveGameObject] at hSave <;>
        obtain ⟨rfl, rfl⟩ := hSave <;>
        simp [hS', hF, TMap.Find_Add_same]
    | some Class =>
      by_cases hF : M.bIsUsingSingleSaveFile = true <;> cases bInIsMultithreading <;>
        simp [SaveGame, hThread, hS', hF, Engine.CreateSaveGameObject,
          USaveGameObject.SetData, SaveGameLibraryThread_Run] at hSave <;>
        obtain ⟨rfl, rfl⟩ := hSave <;>
        simp [hS', hF, TMap.Find_Add_same] <;>
        intro hW hN <;>
        simp [Engine.LoadGameFromSlot_congr _ _ (Engine.Dispatch_SaveGames _ _ _),
          Engine.LoadGameFromSlot_SaveGameToSlot, hW, hN, Engine.Dispatch_bWriteSucceeds]

/-- C2: save and load round trip. On the game thread, with a save class that can be instantiated,
a write that succeeds and a file name that is not empty, the synchronous `SaveGame(A)` returns,
and in every fresh session (a newly constructed manager given the same file name and single-file
setting, over a host with the same slot files) `LoadGame(A)` returns with the current slot name
`A`, the current store equal to the saved store with the project version refreshed by the save,
and the current slot metadata equal to the directory entry that was saved for `A`. -/
theorem C2_save_load_round_trip (M : SaveGameManager) (Host : Engine) (A : String)
    (UserIndex : Int) (Class : UClass)
    (hThread : Host.bIsInGameThread = true)
    (hLock : M.SaveData.Slots.Contains A = true → M.SaveData.Data.Contains A = true)
    (hWrite : Host.bWriteSucceeds = true)
    (hFile : (if M.bIsUsingSingleSaveFile then M.SaveFileName else A) ≠ "") :
    ∃ M' Host', M.SaveGame Host A UserIndex (some Class) false = some (M', Host') ∧
      ∀ (Host2 : Engine) (World : Option UWorld),
        Host2.SaveGames = Host'.SaveGames → Host2.bIsInGameThread = true →
        ∃ M2 Host3,
          (((({} : SaveGameManager).SetSaveFileName M'.SaveFileName).SetWorld
              World).SetIsUsingSingleSaveFile M.bIsUsingSingleSaveFile).LoadGame Host2 A UserIndex
            = some (World.isSome, M2, Host3) ∧
          M2.CurrentSlotName = A ∧
          M2.CurrentData = { M.CurrentData with ProjectVersion := Host.GetProjectVersion } ∧
          M'.SaveData.Data.Find A = some M2.CurrentData ∧
          M'.SaveData.Slots.Find A = some M2.CurrentSlotInfo := by
  have hSome := SaveGame_isSome M Host A UserIndex (some Class) false hLock
  obtain ⟨⟨M', Host'⟩, hSave⟩ := Option.isSome_iff_exists.mp hSome
  obtain ⟨hCur, -, -, hData, hSlots, hName, hStore⟩ :=
    SaveGame_directory M Host A UserIndex (some Class) false hThread M' Host' hSave
  refine ⟨M', Host', hSave, ?_⟩
  intro Host2 World hGames hThread2
  have hN : M'.SaveFileName ≠ "" := by rw [hName]; exact hFile
  have hLoad := hStore Class rfl rfl hWrite hN
  have hLoad2 : (Host2.Dispatch (Host2.GetAllActorsWithInterface World)
      ESaveGameEvent.PreLoad).LoadGameFromSlot M'.SaveFileName UserIndex
      = some { Slots := M'.SaveData.Slots, Data := M'.SaveData.Data } := by
    rw [Engine.LoadGameFromSlot_congr Host' _ (by rw [Engine.Dispatch_SaveGames]; exact hGames)]
    exact hLoad
  have hSlots' : ∃ Info, M'.SaveData.Slots.Find A = some Info := by
    rw [hSlots]
    by_cases hS : M.SaveData.Slots.Contains A = true
    · simp only [hS, if_true]
      exact Option.isSome_iff_exists.mp hS
    · simp [hS]
  obtain ⟨Info, hInfo⟩ := hSlots'
  have hNameA : ¬ M.bIsUsingSingleSaveFile = true → M'.SaveFileName = A := by
    intro h; rw [hName]; simp [h]
  by_cases hF : M.bIsUsingSingleSaveFile = true
  · cases World with
    | none =>
      simp [LoadGame, LoadData, SetSaveFileName, SetWorld, SetIsUsingSingleSaveFile, hThread2, hF,
        hLoad2, USaveGameObject.GetSlots, USaveGameObject.GetData, hInfo, hData, hN, hCur]
    | some W =>
      simp [LoadGame, LoadData, SetSaveFileName, SetWorld, SetIsUsingSingleSaveFile, hThread2, hF,
        hLoad2, USaveGameObject.GetSlots, USaveGameObject.GetData, hInfo, hData, hN, hCur,
        SpawnTimeKeeper]
  · have hA := hNameA hF
    rw [hA] at hLoad2 hN
    cases World with
    | none =>
      simp [LoadGame, LoadData, SetSaveFileName, SetWorld, SetIsUsingSingleSaveFile, hThread2, hF,
        hLoad2, USaveGameObject.GetSlots, USaveGameObject.GetData, hInfo, hData, hN, hCur]
    | some W =>
      simp [LoadGame, LoadData, SetSaveFileName, SetWorld, SetIsUsingSingleSaveFile, hThread2, hF,
        hLoad2, USaveGameObject.GetSlots, USaveGameObject.GetData, hInfo, hData, hN, hCur,
        SpawnTimeKeeper]

/-- Witness for C2: a manager with file name `Save` and one stored integer, saved as slot `A`
on a default host. -/
theorem C2_save_load_round_trip_witness :
    (∃ M' Host', ((({} : SaveGameManager).SetSaveFileName "Save").StoreInt "Gold" 5).SaveGame
        {} "A" 0 (some ⟨1⟩) false = some (M', Host') ∧
      ∀ (Host2 : Engine) (World : Option UWorld),
        Host2.SaveGames = Host'.SaveGames → Host2.bIsInGameThread = true →
        ∃ M2 Host3,
          (((({} : SaveGameManager).SetSaveFileName M'.SaveFileName).SetWorld
              World).SetIsUsingSingleSaveFile true).LoadGame Host2 "A" 0
            = some (World.isSome, M2, Host3) ∧
          M2.CurrentSlotName = "A" ∧
          M2.CurrentData =
            { ((({} : SaveGameManager).SetSaveFileName "Save").StoreInt "Gold" 5).CurrentData with
              ProjectVersion := "1.0" } ∧
          M'.SaveData.Data.Find "A" = some M2.CurrentData ∧
          M'.SaveData.Slots.Find "A" = some M2.CurrentSlotInfo) :=
  C2_save_load_round_trip ((({} : SaveGameManager).SetSaveFileName "Save").StoreInt "Gold" 5)
    {} "A" 0 ⟨1⟩ (by decide) (by decide) (by decide) (by decide)

/-- Counterexample to C3 as stated: after `NewGame(A)` on a fresh manager, `SaveGame(A)` returns
and the directory's metadata entry for `A` is not the current slot metadata. -/
theorem C3_metadata_not_overwritten :
    ((NewGame (({} : SaveGameManager).SetWorld (some ⟨0⟩)) {} "A" (some ⟨1⟩) false false).2.1.SaveGame
        (NewGame (({} : SaveGameManager).SetWorld (some ⟨0⟩)) {} "A" (some ⟨1⟩) false false).2.2
        "A" 0 (some ⟨1⟩) false).map
      (fun Result => decide (Result.1.SaveData.Slots.Find "A" = some Result.1.CurrentSlotInfo))
      = some false := by
  decide

/-- C3, amended: on the game thread (and with a store entry for every name that has a metadata
entry) `SaveGame(name)` returns, and afterwards the directory's store entry for `name` is the
current store with the project version refreshed; the metadata entry for `name` is the current
slot metadata when `name` was absent before, and is the earlier entry, untouched, when `name` was
present. -/
theorem C3_save_commits_store (M : SaveGameManager) (Host : Engine) (Name : String)
    (UserIndex : Int) (SaveGameClass : TSubclassOf) (bInIsMultithreading : Bool)
    (hThread : Host.bIsInGameThread = true)
    (hLock : M.SaveData.Slots.Contains Name = true → M.SaveData.Data.Contains Name = true) :
    ∃ M' Host', M.SaveGame Host Name UserIndex SaveGameClass bInIsMultithreading = some (M', Host') ∧
      M'.CurrentData = { M.CurrentData with ProjectVersion := Host.GetProjectVersion } ∧
      M'.CurrentSlotInfo = M.CurrentSlotInfo ∧
      M'.SaveData.Data.Find Name = some M'.CurrentData ∧
      (M.SaveData.Slots.Contains Name = false →
        M'.SaveData.Slots.Find Name = some M'.CurrentSlotInfo) ∧
      (M.SaveData.Slots.Contains Name = true →
        M'.SaveData.Slots.Find Name = M.SaveData.Slots.Find Name) := by
  have hSome := SaveGame_isSome M Host Name UserIndex SaveGameClass bInIsMultithreading hLock
  obtain ⟨⟨M', Host'⟩, hSave⟩ := Option.isSome_iff_exists.mp hSome
  obtain ⟨hCur, hInfo, -, hData, hSlots, -, -⟩ :=
    SaveGame_directory M Host Name UserIndex SaveGameClass bInIsMultithreading hThread M' Host' hSave
  refine ⟨M', Host', hSave, hCur, hInfo, hData, ?_, ?_⟩
  · intro h
    rw [hSlots, hInfo]
    simp [h]
  · intro h
    rw [hSlots]
    simp [h]

/-- Witness for C3, amended: one stored integer saved as the new slot `A`. -/
theorem C3_save_commits_store_witness :
    ∃ M' Host',
      ((({} : SaveGameManager).StoreInt "Gold" 5).SaveGame {} "A" 0 (some ⟨1⟩) false
        = some (M', Host')) ∧
      M'.CurrentData = { (({} : SaveGameManager).StoreInt "Gold" 5).CurrentData with
        ProjectVersion := "1.0" } ∧
      M'.CurrentSlotInfo = {} ∧
      M'.SaveData.Data.Find "A" = some M'.CurrentData ∧
      M'.SaveData.Slots.Find "A" = some M'.CurrentSlotInfo := by
  obtain ⟨M', Host', h1, h2, h3, h4, h5, -⟩ :=
    C3_save_commits_store (({} : SaveGameManager).StoreInt "Gold" 5) {} "A" 0 (some ⟨1⟩) false
      (by decide) (by decide)
  exact ⟨M', Host', h1, h2, h3, h4, h5 (by decide)⟩

/-! ## The current store is detached from the directory -/

theorem EraseValue_SaveData (M : SaveGameManager) (n : String) :
    (M.EraseValue n).2.SaveData = M.SaveData := rfl

/-- C4: every `Store*` operation (null inputs included) and `EraseValue` leaves the slot
directory, that is both the metadata mapping and the store mapping with every entry in them,
exactly as it was; only the current store is written. -/
theorem C4_store_and_erase_keep_directory (M : SaveGameManager) (n : String) :
    (∀ v, (M.StoreInt n v).SaveData = M.SaveData) ∧
    (∀ v, (M.StoreFloat n v).SaveData = M.SaveData) ∧
    (∀ v, (M.StoreBoolean n v).SaveData = M.SaveData) ∧
    (∀ v, (M.StoreString n v).SaveData = M.SaveData) ∧
    (∀ v, (M.StoreText n v).SaveData = M.SaveData) ∧
    (∀ v, (M.StoreName n v).SaveData = M.SaveData) ∧
    (∀ v, (M.StoreVector n v).SaveData = M.SaveData) ∧
    (∀ v, (M.StoreRotator n v).SaveData = M.SaveData) ∧
    (∀ v, (M.StoreTransform n v).SaveData = M.SaveData) ∧
    (∀ c, (M.StoreClass n c).SaveData = M.SaveData) ∧
    (∀ a m, (M.StoreActor n a m).SaveData = M.SaveData) ∧
    (∀ o, (M.StoreObject n o).SaveData = M.SaveData) ∧
    (M.EraseValue n).2.SaveData = M.SaveData := by
  refine ⟨fun _ => rfl, fun _ => rfl, fun _ => rfl, fun _ => rfl, fun _ => rfl, fun _ => rfl,
    fun _ => rfl, fun _ => rfl, fun _ => rfl, ?_, ?_, ?_, rfl⟩
  · intro c
    cases c <;> rfl
  · intro a m
    cases a with
    | none => rfl
    | some Actor =>
      simp only [StoreActor]
      split <;> split <;> rfl
  · intro o
    cases o <;> rfl

/-! ## `NewGame` -/

/-- C5: `NewGame(name, overwrite = false)` for a name that is in the directory returns false and
leaves the directory, the current slot name, the current slot metadata, the current store and the
host (slot files included) exactly as they were. -/
theorem C5_new_game_existing_no_overwrite (M : SaveGameManager) (Host : Engine) (Name : String)
    (SaveGameClass : TSubclassOf) (bInIsMultithreading : Bool)
    (hPresent : M.SaveData.Slots.Contains Name = true) :
    (M.NewGame Host Name SaveGameClass bInIsMultithreading false).1 = false ∧
    (M.NewGame Host Name SaveGameClass bInIsMultithreading false).2.1.SaveData = M.SaveData ∧
    (M.NewGame Host Name SaveGameClass bInIsMultithreading false).2.1.CurrentSlotName
      = M.CurrentSlotName ∧
    (M.NewGame Host Name SaveGameClass bInIsMultithreading false).2.1.CurrentSlotInfo
      = M.CurrentSlotInfo ∧
    (M.NewGame Host Name SaveGameClass bInIsMultithreading false).2.1.CurrentData
      = M.CurrentData ∧
    (M.NewGame Host Name SaveGameClass bInIsMultithreading false).2.2 = Host := by
  by_cases hThread : Host.bIsInGameThread = true <;> simp [NewGame, hThread, hPresent]

/-- Witness for C5: the second `NewGame(A)` after a first one that stored a value. -/
theorem C5_new_game_existing_no_overwrite_witness :
    (((NewGame (({} : SaveGameManager).SetWorld (some ⟨0⟩)) {} "A" (some ⟨1⟩) false false).2.1.StoreInt
        "Gold" 5).NewGame {} "A" (some ⟨1⟩) false false).1 = false ∧
    (((NewGame (({} : SaveGameManager).SetWorld (some ⟨0⟩)) {} "A" (some ⟨1⟩) false false).2.1.StoreInt
        "Gold" 5).NewGame {} "A" (some ⟨1⟩) false false).2.1.GetInt "Gold" = 5 := by
  have h := C5_new_game_existing_no_overwrite
    ((NewGame (({} : SaveGameManager).SetWorld (some ⟨0⟩)) {} "A" (some ⟨1⟩) false false).2.1.StoreInt
      "Gold" 5) {} "A" (some ⟨1⟩) false (by decide)
  refine ⟨h.1, ?_⟩
  simp only [GetInt, h.2.2.2.2.1]
  decide

/-- C6: on the game thread with a world set, when `overwrite` is true or the name is not in the
directory, `NewGame(name)` returns true; afterwards the current slot name is `name`, the current
store is the default (empty) store carrying the project version string, so every getter returns
the zero value of its kind for every variable name, and the directory maps `name` to the metadata
stamped from the clock and to the default (empty) store. -/
theorem C6_new_game_success (Quaternion : FRotator → FQuat) (M : SaveGameManager) (Host : Engine)
    (Name : String) (SaveGameClass : TSubclassOf) (bInIsMultithreading bOverwriteExistingSave : Bool)
    (World : UWorld)
    (hThread : Host.bIsInGameThread = true) (hWorld : M.World = some World)
    (hFree : bOverwriteExistingSave = true ∨ M.SaveData.Slots.Contains Name = false) :
    (M.NewGame Host Name SaveGameClass bInIsMultithreading bOverwriteExistingSave).1 = true ∧
    (M.NewGame Host Name SaveGameClass bInIsMultithreading bOverwriteExistingSave).2.1.CurrentSlotName
      = Name ∧
    (M.NewGame Host Name SaveGameClass bInIsMultithreading bOverwriteExistingSave).2.1.CurrentData
      = { ({} : FSavedData) with ProjectVersion := Host.GetProjectVersion } ∧
    (∀ n,
      (M.NewGame Host Name SaveGameClass bInIsMultithreading bOverwriteExistingSave).2.1.GetInt n = 0 ∧
      (M.NewGame Host Name SaveGameClass bInIsMultithreading bOverwriteExistingSave).2.1.GetFloat n
        = float.zero ∧
      (M.NewGame Host Name SaveGameClass bInIsMultithreading bOverwriteExistingSave).2.1.GetBoolean n
        = false ∧
      (M.NewGame Host Name SaveGameClass bInIsMultithreading bOverwriteExistingSave).2.1.GetString n
        = "" ∧
      (M.NewGame Host Name SaveGameClass bInIsMultithreading bOverwriteExistingSave).2.1.GetText n
        = EmptyText ∧
      (M.NewGame Host Name SaveGameClass bInIsMultithreading bOverwriteExistingSave).2.1.GetName n
        = EmptyName ∧
      (M.NewGame Host Name SaveGameClass bInIsMultithreading bOverwriteExistingSave).2.1.GetClass n
        = none ∧
      (M.NewGame Host Name SaveGameClass bInIsMultithreading bOverwriteExistingSave).2.1.GetVector n
        = EmptyVector ∧
      (M.NewGame Host Name SaveGameClass bInIsMultithreading bOverwriteExistingSave).2.1.GetRotator n
        = EmptyRotator ∧
      (M.NewGame Host Name SaveGameClass bInIsMultithreading
        bOverwriteExistingSave).2.1.GetTransform Quaternion n = EmptyTransform Quaternion ∧
      (M.NewGame Host Name SaveGameClass bInIsMultithreading bOverwriteExistingSave).2.1.GetActorData n
        = EmptyActorData) ∧
    (M.NewGame Host Name SaveGameClass bInIsMultithreading
        bOverwriteExistingSave).2.1.SaveData.Slots.Find Name
      = some (SetTimeAndDateCreated Host.Now {}) ∧
    (M.NewGame Host Name SaveGameClass bInIsMultithreading
        bOverwriteExistingSave).2.1.SaveData.Data.Find Name
      = some {} := by
  have hGo : ¬ (¬ bOverwriteExistingSave = true ∧ M.SaveData.Slots.Contains Name = true) := by
    rcases hFree with h | h <;> simp [h]
  have hEq : M.NewGame Host Name SaveGameClass bInIsMultithreading bOverwriteExistingSave =
      (true,
       { M with
          bIsMultithreading := bInIsMultithreading,
          CurrentSlotName := Name,
          SaveData :=
            { Slots := M.SaveData.Slots.Add Name (SetTimeAndDateCreated Host.Now {}),
              Data := M.SaveData.Data.Add Name {} },
          CurrentData := { ({} : FSavedData) with ProjectVersion := Host.GetProjectVersion },
          TimeKeeper := some (Host.Dispatch (Host.GetAllActorsWithInterface M.World)
            ESaveGameEvent.NewSaveCreated).TimeKeepers.length },
       { Host.Dispatch (Host.GetAllActorsWithInterface M.World) ESaveGameEvent.NewSaveCreated with
          TimeKeepers := (Host.Dispatch (Host.GetAllActorsWithInterface M.World)
            ESaveGameEvent.NewSaveCreated).TimeKeepers ++
              [ATimeKeeper.Init {} M.bIsVerboseLoggingEnabled] }) := by
    unfold NewGame
    simp only [hThread, hGo, hWorld, SpawnTimeKeeper]
    simp
  rw [hEq]
  refine ⟨rfl, rfl, rfl, fun n => ⟨rfl, rfl, rfl, rfl, rfl, rfl, rfl, rfl, rfl, rfl, rfl⟩, ?_, ?_⟩
  · exact TMap.Find_Add_same _ _ _
  · exact TMap.Find_Add_same _ _ _

/-- Witness for C6: `NewGame(A, overwrite = true)` after a first `NewGame(A)` and a store. -/
theorem C6_new_game_success_witness :
    (((NewGame (({} : SaveGameManager).SetWorld (some ⟨0⟩)) {} "A" (some ⟨1⟩) false false).2.1.StoreInt
        "Gold" 5).NewGame {} "A" (some ⟨1⟩) false true).1 = true ∧
    (((NewGame (({} : SaveGameManager).SetWorld (some ⟨0⟩)) {} "A" (some ⟨1⟩) false false).2.1.StoreInt
        "Gold" 5).NewGame {} "A" (some ⟨1⟩) false true).2.1.GetInt "Gold" = 0 :=
  have h := C6_new_game_success (fun _ => FQuat.Identity)
    ((NewGame (({} : SaveGameManager).SetWorld (some ⟨0⟩)) {} "A" (some ⟨1⟩) false false).2.1.StoreInt
      "Gold" 5) {} "A" (some ⟨1⟩) false true ⟨0⟩ (by decide) (by decide) (Or.inl rfl)
  ⟨h.1, (h.2.2.2.1 "Gold").1⟩

/-! ## `EraseValue` -/

/-- C7, the code at a failing input: an object stored with `StoreObject` under the name `Chest` is
still in `Objects` after `EraseValue(Chest)`, which returns false; `SpawnObject(Chest)` still
finds it and `SpawnStoredObjects` still spawns it. -/
theorem C7_erase_leaves_stored_object :
    ((({} : SaveGameManager).StoreObject "Chest" (some ⟨"Chest", ⟨7⟩⟩)).EraseValue "Chest").1 = false ∧
    ((({} : SaveGameManager).StoreObject "Chest"
      (some ⟨"Chest", ⟨7⟩⟩)).EraseValue "Chest").2.CurrentData.Objects.Contains "Chest" = true ∧
    SpawnObject (fun Class => Class.map (fun C => ⟨"Spawned", C⟩))
      ((({} : SaveGameManager).StoreObject "Chest" (some ⟨"Chest", ⟨7⟩⟩)).EraseValue "Chest").2 "Chest"
      = some ⟨"Spawned", ⟨7⟩⟩ ∧
    SpawnStoredObjects (fun Class => Class.map (fun C => ⟨"Spawned", C⟩))
      ((({} : SaveGameManager).StoreObject "Chest" (some ⟨"Chest", ⟨7⟩⟩)).EraseValue "Chest").2
      = [some ⟨"Spawned", ⟨7⟩⟩] := by
  decide

theorem INTERNAL_ERASE_VALUE_Contains {V : Type} (map : TMap V) (n : String) (b : Bool) :
    (INTERNAL_ERASE_VALUE map n b).1.Contains n = false := by
  unfold INTERNAL_ERASE_VALUE
  by_cases h : map.Contains n = true
  · simp [h, TMap.Contains_Remove_same]
  · simp [h]

theorem INTERNAL_ERASE_VALUE_flag {V : Type} (map : TMap V) (n : String) (b : Bool) :
    (INTERNAL_ERASE_VALUE map n b).2 = (map.Contains n || b) := by
  unfold INTERNAL_ERASE_VALUE
  by_cases h : map.Contains n = true <;> simp [h]

theorem INTERNAL_ERASE_VALUE_Array_mem (map : List String) (n : String) (b : Bool) :
    n ∉ (INTERNAL_ERASE_VALUE_Array map n b).1 := by
  unfold INTERNAL_ERASE_VALUE_Array
  by_cases h : n ∈ map
  · simp [h]
  · simp [h]

theorem INTERNAL_ERASE_VALUE_Array_flag (map : List String) (n : String) (b : Bool) :
    (INTERNAL_ERASE_VALUE_Array map n b).2 = (decide (n ∈ map) || b) := by
  unfold INTERNAL_ERASE_VALUE_Array
  by_cases h : n ∈ map <;> simp [h]

/-- The flag returned by `EraseValue`: whether the name was in one of the twelve members it
visits. -/
theorem EraseValue_flag (M : SaveGameManager) (n : String) :
    (M.EraseValue n).1 =
      (decide (n ∈ M.CurrentData.ActorNames) || (M.CurrentData.Classes.Contains n ||
        (M.CurrentData.Actors.Contains n || (M.CurrentData.Texts.Contains n ||
        (M.CurrentData.Names.Contains n || (M.CurrentData.Strings.Contains n ||
        (M.CurrentData.Rotators.Contains n || (M.CurrentData.Transforms.Contains n ||
        (M.CurrentData.Vectors.Contains n || (M.CurrentData.Booleans.Contains n ||
        (M.CurrentData.Floats.Contains n || (M.CurrentData.Integers.Contains n || false)))))))))))) := by
  simp only [EraseValue, INTERNAL_ERASE_VALUE_flag, INTERNAL_ERASE_VALUE_Array_flag]

/-- After `EraseValue(n)` the name is in none of the twelve members it visits. -/
theorem EraseValue_absent (M : SaveGameManager) (n : String) :
    (M.EraseValue n).2.CurrentData.Integers.Contains n = false ∧
    (M.EraseValue n).2.CurrentData.Floats.Contains n = false ∧
    (M.EraseValue n).2.CurrentData.Booleans.Contains n = false ∧
    (M.EraseValue n).2.CurrentData.Vectors.Contains n = false ∧
    (M.EraseValue n).2.CurrentData.Transforms.Contains n = false ∧
    (M.EraseValue n).2.CurrentData.Rotators.Contains n = false ∧
    (M.EraseValue n).2.CurrentData.Strings.Contains n = false ∧
    (M.EraseValue n).2.CurrentData.Names.Contains n = false ∧
    (M.EraseValue n).2.CurrentData.Texts.Contains n = false ∧
    (M.EraseValue n).2.CurrentData.Actors.Contains n = false ∧
    (M.EraseValue n).2.CurrentData.Classes.Contains n = false ∧
    n ∉ (M.EraseValue n).2.CurrentData.ActorNames :=
  ⟨INTERNAL_ERASE_VALUE_Contains _ _ _, INTERNAL_ERASE_VALUE_Contains _ _ _,
   INTERNAL_ERASE_VALUE_Contains _ _ _, INTERNAL_ERASE_VALUE_Contains _ _ _,
   INTERNAL_ERASE_VALUE_Contains _ _ _, INTERNAL_ERASE_VALUE_Contains _ _ _,
   INTERNAL_ERASE_VALUE_Contains _ _ _, INTERNAL_ERASE_VALUE_Contains _ _ _,
   INTERNAL_ERASE_VALUE_Contains _ _ _, INTERNAL_ERASE_VALUE_Contains _ _ _,
   INTERNAL_ERASE_VALUE_Contains _ _ _, INTERNAL_ERASE_VALUE_Array_mem _ _ _⟩

/-- A second `EraseValue(n)` right after a first one returns false. -/
theorem EraseValue_twice (M : SaveGameManager) (n : String) :
    ((M.EraseValue n).2.EraseValue n).1 = false := by
  obtain ⟨h1, h2, h3, h4, h5, h6, h7, h8, h9, h10, h11, h12⟩ := EraseValue_absent M n
  rw [EraseValue_flag, h1, h2, h3, h4, h5, h6, h7, h8, h9, h10, h11]
  simp [h12]

/-- C8: for each gettable kind (integer, float, boolean, string, text, name, vector, rotator,
transform, non-null class), every manager state, name `n` and value `v`: after the store of the
kind followed by `EraseValue(n)` the getter of the kind returns the kind's `Empty` placeholder
(its zero value), and a second `EraseValue(n)` returns false. -/
theorem C8_get_after_erase (Quaternion : FRotator → FQuat) (M : SaveGameManager) (n : String) :
    (∀ v : Int, ((M.StoreInt n v).EraseValue n).2.GetInt n = 0 ∧
      (((M.StoreInt n v).EraseValue n).2.EraseValue n).1 = false) ∧
    (∀ v : float, ((M.StoreFloat n v).EraseValue n).2.GetFloat n = float.zero ∧
      (((M.StoreFloat n v).EraseValue n).2.EraseValue n).1 = false) ∧
    (∀ v : Bool, ((M.StoreBoolean n v).EraseValue n).2.GetBoolean n = false ∧
      (((M.StoreBoolean n v).EraseValue n).2.EraseValue n).1 = false) ∧
    (∀ v : String, ((M.StoreString n v).EraseValue n).2.GetString n = "" ∧
      (((M.StoreString n v).EraseValue n).2.EraseValue n).1 = false) ∧
    (∀ v : FText, ((M.StoreText n v).EraseValue n).2.GetText n = EmptyText ∧
      (((M.StoreText n v).EraseValue n).2.EraseValue n).1 = false) ∧
    (∀ v : FName, ((M.StoreName n v).EraseValue n).2.GetName n = EmptyName ∧
      (((M.StoreName n v).EraseValue n).2.EraseValue n).1 = false) ∧
    (∀ v : FVector, ((M.StoreVector n v).EraseValue n).2.GetVector n = EmptyVector ∧
      (((M.StoreVector n v).EraseValue n).2.EraseValue n).1 = false) ∧
    (∀ v : FRotator, ((M.StoreRotator n v).EraseValue n).2.GetRotator n = EmptyRotator ∧
      (((M.StoreRotator n v).EraseValue n).2.EraseValue n).1 = false) ∧
    (∀ v : FTransform,
      ((M.StoreTransform n v).EraseValue n).2.GetTransform Quaternion n = EmptyTransform Quaternion ∧
      (((M.StoreTransform n v).EraseValue n).2.EraseValue n).1 = false) ∧
    (∀ c : UClass, ((M.StoreClass n (some c)).EraseValue n).2.GetClass n = none ∧
      (((M.StoreClass n (some c)).EraseValue n).2.EraseValue n).1 = false) := by
  refine ⟨?_, ?_, ?_, ?_, ?_, ?_, ?_, ?_, ?_, ?_⟩ <;> intro v <;>
    refine ⟨?_, EraseValue_twice _ n⟩
  · exact INTERNAL_GET_VALUE_absent _ _ _ (EraseValue_absent _ n).1
  · exact INTERNAL_GET_VALUE_absent _ _ _ (EraseValue_absent _ n).2.1
  · exact INTERNAL_GET_VALUE_absent _ _ _ (EraseValue_absent _ n).2.2.1
  · exact INTERNAL_GET_VALUE_absent _ _ _ (EraseValue_absent _ n).2.2.2.2.2.2.1
  · exact INTERNAL_GET_VALUE_absent _ _ _ (EraseValue_absent _ n).2.2.2.2.2.2.2.2.1
  · exact INTERNAL_GET_VALUE_absent _ _ _ (EraseValue_absent _ n).2.2.2.2.2.2.2.1
  · exact INTERNAL_GET_VALUE_absent _ _ _ (EraseValue_absent _ n).2.2.2.1
  · exact INTERNAL_GET_VALUE_absent _ _ _ (EraseValue_absent _ n).2.2.2.2.2.1
  · exact INTERNAL_GET_VALUE_absent _ _ _ (EraseValue_absent _ n).2.2.2.2.1
  · exact INTERNAL_GET_VALUE_absent _ _ _ (EraseValue_absent _ n).2.2.2.2.2.2.2.2.2.2.1

/-! ## Getters on missing names -/

/-- Counterexample to C9 as stated: on a fresh manager the transform `Spawn` is absent and
`GetTransform` returns a transform whose scale is the zero vector, not the unit vector, so it is
not the identity transform. -/
theorem C9_default_transform_not_identity :
    ({} : SaveGameManager).CurrentData.Transforms.Contains "Spawn" = false ∧
    (GetTransform (fun _ => FQuat.Identity) {} "Spawn").Scale3D = FVector.ZeroVector ∧
    (GetTransform (fun _ => FQuat.Identity) {} "Spawn").Scale3D ≠ FVector.OneVector ∧
    GetTransform (fun _ => FQuat.Identity) {} "Spawn" ≠ FTransform.Identity := by
  decide

/-- C9, amended: for every kind and every name absent from the kind's mapping of the current
store the getter returns the kind's `Empty` placeholder: `0`, `0.f`, `false`, the empty string,
text and name, the null class, the zero vector, the zero rotator, the default actor snapshot
(null class, identity transform, undefined spawn method, no physics), and for transforms the
transform with the rotation of the zero rotator, zero translation and zero scale. The getters are
functions of the manager and return no new manager: they change no state. -/
theorem C9_get_absent_returns_empty (Quaternion : FRotator → FQuat) (M : SaveGameManager)
    (n : String) :
    (M.CurrentData.Integers.Contains n = false → M.GetInt n = 0) ∧
    (M.CurrentData.Floats.Contains n = false → M.GetFloat n = ⟨0⟩) ∧
    (M.CurrentData.Booleans.Contains n = false → M.GetBoolean n = false) ∧
    (M.CurrentData.Strings.Contains n = false → M.GetString n = "") ∧
    (M.CurrentData.Texts.Contains n = false → M.GetText n = ⟨""⟩) ∧
    (M.CurrentData.Names.Contains n = false → M.GetName n = ⟨0⟩) ∧
    (M.CurrentData.Classes.Contains n = false → M.GetClass n = none) ∧
    (M.CurrentData.Vectors.Contains n = false → M.GetVector n = ⟨⟨0⟩, ⟨0⟩, ⟨0⟩⟩) ∧
    (M.CurrentData.Rotators.Contains n = false → M.GetRotator n = ⟨⟨0⟩, ⟨0⟩, ⟨0⟩⟩) ∧
    (M.CurrentData.Actors.Contains n = false →
      M.GetActorData n =
        { Class := none, Transform := FTransform.Identity,
          SpawnMethod := ESpawnActorCollisionHandlingMethod.Undefined,
          bIsSimulatingPhysics := false }) ∧
    (M.CurrentData.Transforms.Contains n = false →
      M.GetTransform Quaternion n =
        { Rotation := Quaternion ⟨⟨0⟩, ⟨0⟩, ⟨0⟩⟩, Translation := ⟨⟨0⟩, ⟨0⟩, ⟨0⟩⟩,
          Scale3D := ⟨⟨0⟩, ⟨0⟩, ⟨0⟩⟩ }) :=
  ⟨INTERNAL_GET_VALUE_absent _ _ _, INTERNAL_GET_VALUE_absent _ _ _,
   INTERNAL_GET_VALUE_absent _ _ _, INTERNAL_GET_VALUE_absent _ _ _,
   INTERNAL_GET_VALUE_absent _ _ _, INTERNAL_GET_VALUE_absent _ _ _,
   INTERNAL_GET_VALUE_absent _ _ _, INTERNAL_GET_VALUE_absent _ _ _,
   INTERNAL_GET_VALUE_absent _ _ _, INTERNAL_GET_VALUE_absent _ _ _,
   INTERNAL_GET_VALUE_absent _ _ _⟩

/-- Witness for C9, amended: the name `Spawn` on a manager that stored only the integer `Gold`. -/
theorem C9_get_absent_returns_empty_witness :
    (({} : SaveGameManager).StoreInt "Gold" 5).GetInt "Spawn" = 0 ∧
    (({} : SaveGameManager).StoreInt "Gold" 5).GetTransform (fun _ => FQuat.Identity) "Spawn" =
      { Rotation := FQuat.Identity, Translation := ⟨⟨0⟩, ⟨0⟩, ⟨0⟩⟩, Scale3D := ⟨⟨0⟩, ⟨0⟩, ⟨0⟩⟩ } :=
  ⟨(C9_get_absent_returns_empty (fun _ => FQuat.Identity)
      (({} : SaveGameManager).StoreInt "Gold" 5) "Spawn").1 (by decide),
   (C9_get_absent_returns_empty (fun _ => FQuat.Identity)
      (({} : SaveGameManager).StoreInt "Gold" 5) "Spawn").2.2.2.2.2.2.2.2.2.2 (by decide)⟩

/-! ## Array getters -/

theorem FromInt_natCast (Index : Nat) : FromInt (Index : Int) = Nat.repr Index := by
  simp [FromInt]

theorem foldl_append_singleton {V : Type} (f : Nat → V) (l : List Nat) (init : List V) :
    l.foldl (fun Stored Index => Stored ++ [f Index]) init = init ++ l.map f := by
  induction l generalizing init with
  | nil => simp
  | cons a rest ih => simp [ih]

/-- The macro `GET_ARRAY` on an empty output and a size that is not negative. -/
theorem GET_ARRAY_eq_map {V : Type} (Get : String → V) (ArrayName : String) (N : Nat) :
    GET_ARRAY Get ArrayName (N : Int) [] =
      (List.range N).map (fun Index => Get (ArrayName ++ Nat.repr Index)) := by
  unfold GET_ARRAY
  rw [foldl_append_singleton (fun Index => Get (ArrayName ++ FromInt (Index : Int)))]
  simp [FromInt_natCast]

open UExpandedSaveGameLibrary

/-- C10: for every kind, manager state, base name `b` and size `N ≥ 0`, the array getter called
with an empty output returns the list whose element `i`, for `i` from `0` to `N - 1` in order, is
the single getter at the name `b` followed by the decimal digits of `i` (so the list has exactly
`N` elements, with the zero value where the name is absent); and after `StoreInt("Pos0", 1)` and
`StoreInt("Pos1", 2)` on a fresh manager, the integer array `Pos` of size 3 is `[1, 2, 0]`. -/
theorem C10_array_getter (Quaternion : FRotator → FQuat) (M : SaveGameManager) (b : String)
    (N : Nat) :
    GetStoredIntArray M b N [] = (List.range N).map (fun i => M.GetInt (b ++ Nat.repr i)) ∧
    GetStoredFloatArray M b N [] = (List.range N).map (fun i => M.GetFloat (b ++ Nat.repr i)) ∧
    GetStoredBooleanArray M b N [] = (List.range N).map (fun i => M.GetBoolean (b ++ Nat.repr i)) ∧
    GetStoredClassArray M b N [] = (List.range N).map (fun i => M.GetClass (b ++ Nat.repr i)) ∧
    GetStoredActorDataArray M b N []
      = (List.range N).map (fun i => M.GetActorData (b ++ Nat.repr i)) ∧
    GetStoredVectorArray M b N [] = (List.range N).map (fun i => M.GetVector (b ++ Nat.repr i)) ∧
    GetStoredRotatorArray M b N [] = (List.range N).map (fun i => M.GetRotator (b ++ Nat.repr i)) ∧
    GetStoredTransformArray Quaternion M b N []
      = (List.range N).map (fun i => M.GetTransform Quaternion (b ++ Nat.repr i)) ∧
    GetStoredStringArray M b N [] = (List.range N).map (fun i => M.GetString (b ++ Nat.repr i)) ∧
    GetStoredTextArray M b N [] = (List.range N).map (fun i => M.GetText (b ++ Nat.repr i)) ∧
    GetStoredNameArray M b N [] = (List.range N).map (fun i => M.GetName (b ++ Nat.repr i)) ∧
    (GetStoredIntArray M b N []).length = N ∧
    GetStoredIntArray ((({} : SaveGameManager).StoreInt "Pos0" 1).StoreInt "Pos1" 2) "Pos" 3 []
      = [1, 2, 0] := by
  refine ⟨GET_ARRAY_eq_map _ _ _, GET_ARRAY_eq_map _ _ _, GET_ARRAY_eq_map _ _ _,
    GET_ARRAY_eq_map _ _ _, GET_ARRAY_eq_map _ _ _, GET_ARRAY_eq_map _ _ _,
    GET_ARRAY_eq_map _ _ _, GET_ARRAY_eq_map _ _ _, GET_ARRAY_eq_map _ _ _,
    GET_ARRAY_eq_map _ _ _, GET_ARRAY_eq_map _ _ _, ?_, by decide⟩
  rw [GetStoredIntArray, GET_ARRAY_eq_map]
  simp

/-! ## `RenameSlot` -/

theorem TMap.RenameFirstPair_found {V : Type} (l : List (String × V)) (Key NewKey : String) :
    (TMap.RenameFirstPair l Key NewKey).1 = (TMap.FindPairs l Key).isSome := by
  induction l with
  | nil => rfl
  | cons p rest ih =>
    obtain ⟨k, v⟩ := p
    by_cases h : k = Key <;> simp [TMap.RenameFirstPair, TMap.FindPairs, h, ih]

theorem TMap.FindPairs_isSome_iff_mem {V : Type} (l : List (String × V)) (Key : String) :
    (TMap.FindPairs l Key).isSome = true ↔ Key ∈ l.map Prod.fst := by
  induction l with
  | nil => simp [TMap.FindPairs]
  | cons p rest ih =>
    obtain ⟨k, v⟩ := p
    by_cases h : k = Key
    · simp [TMap.FindPairs, h]
    · have h' : ¬ Key = k := fun e => h e.symm
      simp [TMap.FindPairs, h, h', ih]

theorem TMap.Contains_iff_mem_Keys {V : Type} (Map : TMap V) (Key : String) :
    Map.Contains Key = true ↔ Key ∈ Map.Keys :=
  TMap.FindPairs_isSome_iff_mem Map.Pairs Key

theorem List.map_replace_of_not_mem (l : List String) (Key NewKey : String) (h : Key ∉ l) :
    l.map (fun k => if k = Key then NewKey else k) = l := by
  induction l with
  | nil => rfl
  | cons a rest ih =>
    have ha : ¬ a = Key := fun e => h (by simp [e])
    have hr : Key ∉ rest := fun e => h (by simp [e])
    simp [ha, ih hr]

theorem TMap.RenameFirstPair_keys {V : Type} (l : List (String × V)) (Key NewKey : String)
    (hKeys : (l.map Prod.fst).Nodup) :
    (TMap.RenameFirstPair l Key NewKey).2.map Prod.fst
      = (l.map Prod.fst).map (fun k => if k = Key then NewKey else k) := by
  induction l with
  | nil => rfl
  | cons p rest ih =>
    obtain ⟨k, v⟩ := p
    have hNodup := List.nodup_cons.mp hKeys
    by_cases h : k = Key
    · subst h
      simp only [TMap.RenameFirstPair, if_true, List.map_cons]
      rw [List.map_replace_of_not_mem _ _ _ hNodup.1]
    · simp only [TMap.RenameFirstPair, h, if_false, List.map_cons]
      rw [ih hNodup.2]

theorem RenameSlot_found (M : SaveGameManager) (Old New : String)
    (hPresent : M.SaveData.Slots.Contains Old = true) : (M.RenameSlot Old New).1 = true := by
  have hFound : (TMap.RenameFirstPair M.SaveData.Slots.Pairs Old New).1 = true := by
    rw [TMap.RenameFirstPair_found]; exact hPresent
  unfold RenameSlot
  simp only [hPresent, not_true_eq_false, if_false]
  split
  · split <;> exact hFound
  · exact hFound

theorem RenameSlot_Slots (M : SaveGameManager) (Old New : String)
    (hPresent : M.SaveData.Slots.Contains Old = true) :
    (M.RenameSlot Old New).2.SaveData.Slots
      = ⟨(TMap.RenameFirstPair M.SaveData.Slots.Pairs Old New).2⟩ := by
  unfold RenameSlot
  simp only [hPresent, not_true_eq_false, if_false]
  split
  · split <;> rfl
  · rfl

theorem RenameSlot_Data (M : SaveGameManager) (Old New : String) :
    (M.RenameSlot Old New).2.SaveData.Data = M.SaveData.Data := by
  unfold RenameSlot
  split
  · rfl
  · split
    · split <;> rfl
    · rfl

/-- C11: for a directory with unique slot names and names `Old ≠ New`: if `Old` is absent,
`RenameSlot(Old, New)` returns false and leaves the manager as it was; if `Old` is present it
returns true and `GetSaveSlotNames()` afterwards is the earlier list with `Old` replaced by `New`,
so it contains `New`, does not contain `Old`, and has every other name exactly as before. -/
theorem C11_rename_slot_names (M : SaveGameManager) (Old New : String) (hNe : Old ≠ New)
    (hKeys : M.SaveData.Slots.Keys.Nodup) :
    (M.SaveData.Slots.Contains Old = false → M.RenameSlot Old New = (false, M)) ∧
    (M.SaveData.Slots.Contains Old = true →
      (M.RenameSlot Old New).1 = true ∧
      (M.RenameSlot Old New).2.GetSaveSlotNames.1
        = M.GetSaveSlotNames.1.map (fun k => if k = Old then New else k) ∧
      New ∈ (M.RenameSlot Old New).2.GetSaveSlotNames.1 ∧
      Old ∉ (M.RenameSlot Old New).2.GetSaveSlotNames.1 ∧
      ∀ k, k ≠ Old → k ≠ New →
        (k ∈ (M.RenameSlot Old New).2.GetSaveSlotNames.1 ↔ k ∈ M.GetSaveSlotNames.1)) := by
  constructor
  · intro hAbsent
    simp [RenameSlot, hAbsent]
  · intro hPresent
    have hNames : (M.RenameSlot Old New).2.GetSaveSlotNames.1
        = M.GetSaveSlotNames.1.map (fun k => if k = Old then New else k) := by
      simp only [GetSaveSlotNames, TMap.Keys, RenameSlot_Slots M Old New hPresent]
      exact TMap.RenameFirstPair_keys _ _ _ hKeys
    have hMem : Old ∈ M.GetSaveSlotNames.1 := (TMap.Contains_iff_mem_Keys _ _).mp hPresent
    refine ⟨RenameSlot_found M Old New hPresent, hNames, ?_, ?_, ?_⟩
    · rw [hNames]
      exact List.mem_map.mpr ⟨Old, hMem, by simp⟩
    · rw [hNames]
      intro h
      obtain ⟨k, -, hk⟩ := List.mem_map.mp h
      by_cases e : k = Old
      · rw [if_pos e] at hk
        exact hNe hk.symm
      · rw [if_neg e] at hk
        exact e hk
    · intro k hkOld hkNew
      rw [hNames]
      constructor
      · intro h
        obtain ⟨j, hj, hjk⟩ := List.mem_map.mp h
        by_cases e : j = Old
        · rw [if_pos e] at hjk
          exact absurd hjk.symm hkNew
        · rw [if_neg e] at hjk
          rw [← hjk]; exact hj
      · intro h
        exact List.mem_map.mpr ⟨k, h, by simp [hkOld]⟩

/-- Witness for C11: renaming `A` to `C` in a directory with the slots `A` and `B`. -/
theorem C11_rename_slot_names_witness :
    ((NewGame (NewGame (({} : SaveGameManager).SetWorld (some ⟨0⟩)) {} "A" (some ⟨1⟩) false
        false).2.1 {} "B" (some ⟨1⟩) false false).2.1.RenameSlot "A" "C").2.GetSaveSlotNames.1
      = ["C", "B"] := by
  have h := (C11_rename_slot_names
    (NewGame (NewGame (({} : SaveGameManager).SetWorld (some ⟨0⟩)) {} "A" (some ⟨1⟩) false
        false).2.1 {} "B" (some ⟨1⟩) false false).2.1 "A" "C" (by decide) (by decide)).2 (by decide)
  rw [h.2.1]
  decide

/-- C12, the code at a failing input: `NewGame(A)`, `StoreInt(Gold, 5)`, `SaveGame(A)` and then
`RenameSlot(A, B)`, which returns true. Afterwards the metadata mapping has the key `B`, but the
store mapping still has the committed store under `A` and nothing under `B`; `SetActiveSave(B)`
and `GetSaveSlotProjectVersion(B)` both reach `SaveData.Data[B]` without the key being there. -/
theorem C12_rename_leaves_store_under_old_name :
    (((NewGame ((({} : SaveGameManager).SetWorld (some ⟨0⟩)).SetSaveFileName "Save") {} "A"
        (some ⟨1⟩) false false).2.1.StoreInt "Gold" 5).SaveGame {} "A" 0 (some ⟨1⟩) false).map
      (fun Saved => decide (
        (Saved.1.RenameSlot "A" "B").1 = true ∧
        (Saved.1.RenameSlot "A" "B").2.SaveData.Slots.Keys = ["B"] ∧
        (Saved.1.RenameSlot "A" "B").2.SaveData.Data.Keys = ["A"] ∧
        (Saved.1.RenameSlot "A" "B").2.SaveData.Data.Find "B" = none ∧
        ((Saved.1.RenameSlot "A" "B").2.SaveData.Data.Find "A").map
          (fun Data => Data.Integers.Find "Gold") = some (some 5) ∧
        ((Saved.1.RenameSlot "A" "B").2.SaveData.Data.Find "A").map
          FSavedData.ProjectVersion = some "1.0" ∧
        (Saved.1.RenameSlot "A" "B").2.SetActiveSave "B" = none ∧
        (Saved.1.RenameSlot "A" "B").2.GetSaveSlotProjectVersion "B" = none))
      = some true := by
  decide

/-- C13, the code at a failing input: after `NewGame(A)` on a fresh manager, `RenameSlot(A, B)`
returns true and leaves the metadata mapping with the key set `B` and the store mapping with the
key set `A`. -/
theorem C13_rename_breaks_lockstep :
    ((NewGame (({} : SaveGameManager).SetWorld (some ⟨0⟩)) {} "A" (some ⟨1⟩) false
        false).2.1.RenameSlot "A" "B").1 = true ∧
    ((NewGame (({} : SaveGameManager).SetWorld (some ⟨0⟩)) {} "A" (some ⟨1⟩) false
        false).2.1.RenameSlot "A" "B").2.SaveData.Slots.Keys = ["B"] ∧
    ((NewGame (({} : SaveGameManager).SetWorld (some ⟨0⟩)) {} "A" (some ⟨1⟩) false
        false).2.1.RenameSlot "A" "B").2.SaveData.Data.Keys = ["A"] ∧
    (NewGame (({} : SaveGameManager).SetWorld (some ⟨0⟩)) {} "A" (some ⟨1⟩) false
        false).2.1.SaveData.Slots.Keys
      = (NewGame (({} : SaveGameManager).SetWorld (some ⟨0⟩)) {} "A" (some ⟨1⟩) false
        false).2.1.SaveData.Data.Keys := by
  decide

/-- Counterexample to C14 as stated: with single-file mode off, after `NewGame(A)` the current
slot name is `A`, `RenameSlot(A, B)` returns true and the current slot name is still `A`. -/
theorem C14_current_name_kept_without_single_file :
    (NewGame ((({} : SaveGameManager).SetWorld (some ⟨0⟩)).SetIsUsingSingleSaveFile false) {} "A"
        (some ⟨1⟩) false false).2.1.CurrentSlotName = "A" ∧
    ((NewGame ((({} : SaveGameManager).SetWorld (some ⟨0⟩)).SetIsUsingSingleSaveFile false) {} "A"
        (some ⟨1⟩) false false).2.1.RenameSlot "A" "B").1 = true ∧
    ((NewGame ((({} : SaveGameManager).SetWorld (some ⟨0⟩)).SetIsUsingSingleSaveFile false) {} "A"
        (some ⟨1⟩) false false).2.1.RenameSlot "A" "B").2.CurrentSlotName = "A" := by
  decide

/-- C14, amended: if `Old` is the current slot name and present in the directory, then
`RenameSlot(Old, New)` returns true and afterwards the current slot name is `New` when
single-file mode is on, and is still `Old` when single-file mode is off. -/
theorem C14_rename_current_slot (M : SaveGameManager) (Old New : String)
    (hCurrent : M.CurrentSlotName = Old) (hPresent : M.SaveData.Slots.Contains Old = true) :
    (M.RenameSlot Old New).1 = true ∧
    (M.bIsUsingSingleSaveFile = true → (M.RenameSlot Old New).2.CurrentSlotName = New) ∧
    (M.bIsUsingSingleSaveFile = false → (M.RenameSlot Old New).2.CurrentSlotName = Old) := by
  refine ⟨RenameSlot_found M Old New hPresent, ?_, ?_⟩
  · intro hSingle
    simp [RenameSlot, hPresent, hSingle, hCurrent, FindAndRenameSlot]
  · intro hSingle
    simp [RenameSlot, hPresent, hSingle, hCurrent, FindAndRenameSlot]

/-- Witness for C14, amended: the current slot `A` of a fresh single-file manager renamed to
`B`. -/
theorem C14_rename_current_slot_witness :
    ((NewGame (({} : SaveGameManager).SetWorld (some ⟨0⟩)) {} "A" (some ⟨1⟩) false
        false).2.1.RenameSlot "A" "B").2.CurrentSlotName = "B" :=
  (C14_rename_current_slot
    (NewGame (({} : SaveGameManager).SetWorld (some ⟨0⟩)) {} "A" (some ⟨1⟩) false false).2.1
    "A" "B" (by decide) (by decide)).2.1 (by decide)

/-! ## `DeleteGame` -/

theorem LoadData_triple (M : SaveGameManager) (Host : Engine) (Filename : String) (UserIndex : Int) :
    (M.LoadData Host Filename UserIndex).2.CurrentSlotName = M.CurrentSlotName ∧
    (M.LoadData Host Filename UserIndex).2.CurrentSlotInfo = M.CurrentSlotInfo ∧
    (M.LoadData Host Filename UserIndex).2.CurrentData = M.CurrentData ∧
    (M.LoadData Host Filename UserIndex).2.SaveFileName = Filename ∧
    (M.LoadData Host Filename UserIndex).2.World = M.World := by
  simp only [LoadData]
  split <;> simp

/-- The load step keeps the current triple and fixes the file name. -/
theorem LoadStep_triple (M : SaveGameManager) (Host : Engine) (Name : String) (UserIndex : Int) :
    (M.LoadStep Host Name UserIndex).CurrentSlotName = M.CurrentSlotName ∧
    (M.LoadStep Host Name UserIndex).CurrentSlotInfo = M.CurrentSlotInfo ∧
    (M.LoadStep Host Name UserIndex).CurrentData = M.CurrentData ∧
    (M.LoadStep Host Name UserIndex).SaveFileName
      = (if M.bIsUsingSingleSaveFile then M.SaveFileName else Name) ∧
    (M.LoadStep Host Name UserIndex).World = M.World := by
  unfold LoadStep
  by_cases hF : M.bIsUsingSingleSaveFile = true <;>
    by_cases hL : M.bHasDataBeenLoaded = true <;>
    simp [hF, hL, LoadData_triple]

/-- With the flag set the load step reads nothing: the manager is as before, up to the file
name. -/
theorem LoadStep_loaded (M : SaveGameManager) (Host : Engine) (Name : String) (UserIndex : Int)
    (hLoaded : M.bHasDataBeenLoaded = true) :
    (M.LoadStep Host Name UserIndex).SaveData = M.SaveData := by
  unfold LoadStep
  by_cases hF : M.bIsUsingSingleSaveFile = true <;> simp [hF, hLoaded]

theorem DeleteGame_isSome (M : SaveGameManager) (Host : Engine) (Name : String) (UserIndex : Int)
    (Class : UClass) (bInIsMultithreading : Bool) :
    (M.DeleteGame Host Name UserIndex (some Class) bInIsMultithreading).isSome = true := rfl

/-- What `DeleteGame` returns, in terms of the manager after its load step. -/
theorem DeleteGame_result (M : SaveGameManager) (Host : Engine) (Name : String) (UserIndex : Int)
    (SaveGameClass : TSubclassOf) (bInIsMultithreading : Bool) (b : Bool) (M' : SaveGameManager)
    (Host' : Engine)
    (hDelete : M.DeleteGame Host Name UserIndex SaveGameClass bInIsMultithreading
      = some (b, M', Host')) :
    b = true ∧
    M'.SaveData.Slots = (M.LoadStep Host Name UserIndex).SaveData.Slots.Remove Name ∧
    M'.SaveData.Data = (M.LoadStep Host Name UserIndex).SaveData.Data.Remove Name ∧
    M'.SaveFileName = (if M.bIsUsingSingleSaveFile then M.SaveFileName else Name) ∧
    (M.CurrentSlotName = Name →
      M'.CurrentSlotName = "" ∧ M'.CurrentSlotInfo = {} ∧ M'.CurrentData = {}) ∧
    (M.CurrentSlotName ≠ Name →
      M'.CurrentSlotName = M.CurrentSlotName ∧ M'.CurrentSlotInfo = M.CurrentSlotInfo ∧
      M'.CurrentData = M.CurrentData) ∧
    Host' = (Host.SaveGameToSlot { Slots := M'.SaveData.Slots, Data := M'.SaveData.Data }
      M'.SaveFileName UserIndex).2 := by
  obtain ⟨hName, hInfo, hData, hFile, -⟩ := LoadStep_triple M Host Name UserIndex
  cases SaveGameClass with
  | none => simp [DeleteGame, Engine.CreateSaveGameObject] at hDelete
  | some Class =>
    have hEq : M.DeleteGame Host Name UserIndex (some Class) bInIsMultithreading =
        some (true,
          { (if (M.LoadStep Host Name UserIndex).CurrentSlotName = Name then
              { M.LoadStep Host Name UserIndex with
                CurrentSlotName := "", CurrentData := {}, CurrentSlotInfo := {} }
            else M.LoadStep Host Name UserIndex) with
            SaveData :=
              { Slots := (if (M.LoadStep Host Name UserIndex).CurrentSlotName = Name then
                    { M.LoadStep Host Name UserIndex with
                      CurrentSlotName := "", CurrentData := {}, CurrentSlotInfo := {} }
                  else M.LoadStep Host Name UserIndex).SaveData.Slots.Remove Name,
                Data := (if (M.LoadStep Host Name UserIndex).CurrentSlotName = Name then
                    { M.LoadStep Host Name UserIndex with
                      CurrentSlotName := "", CurrentData := {}, CurrentSlotInfo := {} }
                  else M.LoadStep Host Name UserIndex).SaveData.Data.Remove Name },
            SaveObject := some
              { Slots := (if (M.LoadStep Host Name UserIndex).CurrentSlotName = Name then
                    { M.LoadStep Host Name UserIndex with
                      CurrentSlotName := "", CurrentData := {}, CurrentSlotInfo := {} }
                  else M.LoadStep Host Name UserIndex).SaveData.Slots.Remove Name,
                Data := (if (M.LoadStep Host Name UserIndex).CurrentSlotName = Name then
                    { M.LoadStep Host Name UserIndex with
                      CurrentSlotName := "", CurrentData := {}, CurrentSlotInfo := {} }
                  else M.LoadStep Host Name UserIndex).SaveData.Data.Remove Name } },
          (Host.SaveGameToSlot
            { Slots := (if (M.LoadStep Host Name UserIndex).CurrentSlotName = Name then
                    { M.LoadStep Host Name UserIndex with
                      CurrentSlotName := "", CurrentData := {}, CurrentSlotInfo := {} }
                  else M.LoadStep Host Name UserIndex).SaveData.Slots.Remove Name,
              Data := (if (M.LoadStep Host Name UserIndex).CurrentSlotName = Name then
                    { M.LoadStep Host Name UserIndex with
                      CurrentSlotName := "", CurrentData := {}, CurrentSlotInfo := {} }
                  else M.LoadStep Host Name UserIndex).SaveData.Data.Remove Name }
            (if (M.LoadStep Host Name UserIndex).CurrentSlotName = Name then
                    { M.LoadStep Host Name UserIndex with
                      CurrentSlotName := "", CurrentData := {}, CurrentSlotInfo := {} }
                  else M.LoadStep Host Name UserIndex).SaveFileName UserIndex).2) := rfl
    rw [hEq] at hDelete
    simp only [Option.some.injEq, Prod.mk.injEq] at hDelete
    obtain ⟨rfl, rfl, rfl⟩ := hDelete
    by_cases hCur : M.CurrentSlotName = Name
    · simp [hName, hInfo, hData, hFile, hCur]
    · simp [hName, hInfo, hData, hFile, hCur]

theorem TMap.not_mem_Keys_Remove {V : Type} (Map : TMap V) (Key : String) :
    Key ∉ (Map.Remove Key).Keys := by
  intro h
  have := (TMap.Contains_iff_mem_Keys _ _).mpr h
  rw [TMap.Contains_Remove_same] at this
  exact Bool.noConfusion this

/-- Counterexample to C15 as stated: the slot file `Save` holds the single slot `Z`; in a new
session `NewGame(B)` puts `B` into the directory without loading; `DeleteGame(A)` then runs its
load step, which replaces the directory by the file's, so afterwards the other slot `B` is gone
and the directory holds `Z`. -/
theorem C15_delete_reloads_directory :
    (NewGame ((({} : SaveGameManager).SetWorld (some ⟨0⟩)).SetSaveFileName "Save")
        { SaveGames := [⟨"Save", 0, { Slots := ⟨[("Z", {})]⟩, Data := ⟨[("Z", {})]⟩ }⟩] }
        "B" (some ⟨1⟩) false false).2.1.SaveData.Slots.Keys = ["B"] ∧
    ((NewGame ((({} : SaveGameManager).SetWorld (some ⟨0⟩)).SetSaveFileName "Save")
        { SaveGames := [⟨"Save", 0, { Slots := ⟨[("Z", {})]⟩, Data := ⟨[("Z", {})]⟩ }⟩] }
        "B" (some ⟨1⟩) false false).2.1.DeleteGame
      (NewGame ((({} : SaveGameManager).SetWorld (some ⟨0⟩)).SetSaveFileName "Save")
        { SaveGames := [⟨"Save", 0, { Slots := ⟨[("Z", {})]⟩, Data := ⟨[("Z", {})]⟩ }⟩] }
        "B" (some ⟨1⟩) false false).2.2
      "A" 0 (some ⟨1⟩) false).map
      (fun Result => decide (
        Result.2.1.SaveData.Slots.Keys = ["Z"] ∧ Result.2.1.SaveData.Data.Keys = ["Z"] ∧
        Result.2.1.SaveData.Slots.Find "B" = none))
      = some true := by
  decide

/-- C15, amended: with a save class that can be instantiated `DeleteGame(name)` returns true, and
afterwards `name` is in neither directory mapping and not in `GetSaveSlotNames()`; every other
slot has the metadata and the store it has in the directory after the load step of `DeleteGame`,
which is the directory before the call when data had been loaded already; if `name` was the
current slot name the current triple is (empty name, default metadata, default store), and
otherwise the current triple is as before the call. -/
theorem C15_delete_game (M : SaveGameManager) (Host : Engine) (Name : String) (UserIndex : Int)
    (Class : UClass) (bInIsMultithreading : Bool) :
    ∃ M' Host', M.DeleteGame Host Name UserIndex (some Class) bInIsMultithreading
        = some (true, M', Host') ∧
      M'.SaveData.Slots.Find Name = none ∧
      M'.SaveData.Data.Find Name = none ∧
      Name ∉ M'.GetSaveSlotNames.1 ∧
      (∀ Other, Other ≠ Name →
        M'.SaveData.Slots.Find Other = (M.LoadStep Host Name UserIndex).SaveData.Slots.Find Other ∧
        M'.SaveData.Data.Find Other = (M.LoadStep Host Name UserIndex).SaveData.Data.Find Other) ∧
      (M.bHasDataBeenLoaded = true → (M.LoadStep Host Name UserIndex).SaveData = M.SaveData) ∧
      (M.CurrentSlotName = Name →
        M'.CurrentSlotName = "" ∧ M'.CurrentSlotInfo = {} ∧ M'.CurrentData = {}) ∧
      (M.CurrentSlotName ≠ Name →
        M'.CurrentSlotName = M.CurrentSlotName ∧ M'.CurrentSlotInfo = M.CurrentSlotInfo ∧
        M'.CurrentData = M.CurrentData) := by
  have hSome := DeleteGame_isSome M Host Name UserIndex Class bInIsMultithreading
  obtain ⟨⟨b, M', Host'⟩, hDelete⟩ := Option.isSome_iff_exists.mp hSome
  obtain ⟨rfl, hSlots, hData, -, hReset, hKeep, -⟩ :=
    DeleteGame_result M Host Name UserIndex (some Class) bInIsMultithreading b M' Host' hDelete
  refine ⟨M', Host', hDelete, ?_, ?_, ?_, ?_, LoadStep_loaded M Host Name UserIndex, hReset, hKeep⟩
  · rw [hSlots]; exact TMap.Find_Remove_same _ _
  · rw [hData]; exact TMap.Find_Remove_same _ _
  · simp only [GetSaveSlotNames, hSlots]
    exact TMap.not_mem_Keys_Remove _ _
  · intro Other hOther
    rw [hSlots, hData]
    exact ⟨TMap.Find_Remove_other _ _ _ hOther, TMap.Find_Remove_other _ _ _ hOther⟩

/-- C16: with a save class that can be instantiated, a write that succeeds and a file name that
is not empty, `DeleteGame(name)` returns true whether or not `name` was in the directory, and
the container then found in the slot file is the in-memory directory after the call, which is
the directory of the load step with `name` removed from both mappings; a later `LoadData` of
that file, by any manager over the same slot files, returns true and yields that directory,
which does not contain `name`. -/
theorem C16_delete_game_persists (M : SaveGameManager) (Host : Engine) (Name : String)
    (UserIndex : Int) (Class : UClass) (bInIsMultithreading : Bool)
    (hWrite : Host.bWriteSucceeds = true)
    (hFile : (if M.bIsUsingSingleSaveFile then M.SaveFileName else Name) ≠ "") :
    ∃ M' Host', M.DeleteGame Host Name UserIndex (some Class) bInIsMultithreading
        = some (true, M', Host') ∧
      Host'.LoadGameFromSlot M'.SaveFileName UserIndex
        = some { Slots := M'.SaveData.Slots, Data := M'.SaveData.Data } ∧
      M'.SaveData.Slots = (M.LoadStep Host Name UserIndex).SaveData.Slots.Remove Name ∧
      M'.SaveData.Data = (M.LoadStep Host Name UserIndex).SaveData.Data.Remove Name ∧
      ∀ (Fresh : SaveGameManager) (Host2 : Engine), Host2.SaveGames = Host'.SaveGames →
        (Fresh.LoadData Host2 M'.SaveFileName UserIndex).1 = true ∧
        (Fresh.LoadData Host2 M'.SaveFileName UserIndex).2.SaveData = M'.SaveData ∧
        (Fresh.LoadData Host2 M'.SaveFileName UserIndex).2.SaveData.Slots.Contains Name = false ∧
        (Fresh.LoadData Host2 M'.SaveFileName UserIndex).2.SaveData.Data.Contains Name = false := by
  have hSome := DeleteGame_isSome M Host Name UserIndex Class bInIsMultithreading
  obtain ⟨⟨b, M', Host'⟩, hDelete⟩ := Option.isSome_iff_exists.mp hSome
  obtain ⟨rfl, hSlots, hData, hName, -, -, hHost⟩ :=
    DeleteGame_result M Host Name UserIndex (some Class) bInIsMultithreading b M' Host' hDelete
  have hN : M'.SaveFileName ≠ "" := by rw [hName]; exact hFile
  have hStored : Host'.LoadGameFromSlot M'.SaveFileName UserIndex
      = some { Slots := M'.SaveData.Slots, Data := M'.SaveData.Data } := by
    rw [hHost]
    exact Engine.LoadGameFromSlot_SaveGameToSlot Host _ _ _ hWrite hN
  refine ⟨M', Host', hDelete, hStored, hSlots, hData, ?_⟩
  intro Fresh Host2 hGames
  have hRead : Host2.LoadGameFromSlot M'.SaveFileName UserIndex
      = some { Slots := M'.SaveData.Slots, Data := M'.SaveData.Data } := by
    rw [Engine.LoadGameFromSlot_congr Host' Host2 hGames]; exact hStored
  have hDir : (Fresh.LoadData Host2 M'.SaveFileName UserIndex).2.SaveData = M'.SaveData := by
    simp [LoadData, hRead, USaveGameObject.GetSlots, USaveGameObject.GetData]
  refine ⟨by simp [LoadData, hRead], hDir, ?_, ?_⟩
  · rw [hDir, hSlots]; exact TMap.Contains_Remove_same _ _
  · rw [hDir, hData]; exact TMap.Contains_Remove_same _ _

/-- Witness for C16: deleting the absent slot `A` on a manager with file name `Save` that holds
the unsaved slot `B`; the file written holds `B` and not `A`. -/
theorem C16_delete_game_persists_witness :
    ∃ M' Host',
      (NewGame ((({} : SaveGameManager).SetWorld (some ⟨0⟩)).SetSaveFileName "Save") {} "B"
          (some ⟨1⟩) false false).2.1.DeleteGame {} "A" 0 (some ⟨1⟩) false
        = some (true, M', Host') ∧
      Host'.LoadGameFromSlot M'.SaveFileName 0
        = some { Slots := M'.SaveData.Slots, Data := M'.SaveData.Data } := by
  obtain ⟨M', Host', h1, h2, -⟩ := C16_delete_game_persists
    (NewGame ((({} : SaveGameManager).SetWorld (some ⟨0⟩)).SetSaveFileName "Save") {} "B"
      (some ⟨1⟩) false false).2.1 {} "A" 0 ⟨1⟩ false (by decide) (by decide)
  exact ⟨M', Host', h1, h2⟩

/-! ## `LoadData` and `LoadGame` -/

theorem LoadGame_eq_LoadStep (M : SaveGameManager) (Host : Engine) (Name : String)
    (UserIndex : Int) (hThread : Host.bIsInGameThread = true) :
    M.LoadGame Host Name UserIndex =
      match (M.LoadStep Host Name UserIndex).SaveData.Slots.Find Name with
      | none =>
        some (false, M.LoadStep Host Name UserIndex,
          Host.Dispatch (Host.GetAllActorsWithInterface M.World) ESaveGameEvent.PreLoad)
      | some SlotInfo =>
        match (M.LoadStep Host Name UserIndex).SaveData.Data.Find Name with
        | none => none
        | some Data =>
          if (M.LoadStep Host Name UserIndex).SaveObject.isSome ∧
              (M.LoadStep Host Name UserIndex).SaveFileName ≠ "" then
            match (M.LoadStep Host Name UserIndex).World with
            | none =>
              some (false,
                { M.LoadStep Host Name UserIndex with
                  CurrentSlotInfo := SlotInfo, CurrentData := Data, CurrentSlotName := Name },
                (Host.Dispatch (Host.GetAllActorsWithInterface M.World)
                  ESaveGameEvent.PreLoad).Dispatch (Host.GetAllActorsWithInterface M.World)
                  ESaveGameEvent.PostLoad)
            | some _ =>
              some (true,
                (SpawnTimeKeeper
                  { M.LoadStep Host Name UserIndex with
                    CurrentSlotInfo := SlotInfo, CurrentData := Data, CurrentSlotName := Name }
                  ((Host.Dispatch (Host.GetAllActorsWithInterface M.World)
                    ESaveGameEvent.PreLoad).Dispatch (Host.GetAllActorsWithInterface M.World)
                    ESaveGameEvent.PostLoad)).1,
                (SpawnTimeKeeper
                  { M.LoadStep Host Name UserIndex with
                    CurrentSlotInfo := SlotInfo, CurrentData := Data, CurrentSlotName := Name }
                  ((Host.Dispatch (Host.GetAllActorsWithInterface M.World)
                    ESaveGameEvent.PreLoad).Dispatch (Host.GetAllActorsWithInterface M.World)
                    ESaveGameEvent.PostLoad)).2)
          else
            some (false,
              { M.LoadStep Host Name UserIndex with
                CurrentSlotInfo := SlotInfo, CurrentData := Data, CurrentSlotName := Name },
              Host.Dispatch (Host.GetAllActorsWithInterface M.World) ESaveGameEvent.PreLoad) := by
  unfold LoadGame
  rw [if_neg (by simp [hThread])]
  rfl

theorem SpawnTimeKeeper_Manager (M : SaveGameManager) (Host : Engine) :
    (M.SpawnTimeKeeper Host).1.SaveData = M.SaveData ∧
    (M.SpawnTimeKeeper Host).1.CurrentSlotName = M.CurrentSlotName ∧
    (M.SpawnTimeKeeper Host).1.CurrentSlotInfo = M.CurrentSlotInfo ∧
    (M.SpawnTimeKeeper Host).1.CurrentData = M.CurrentData := by
  unfold SpawnTimeKeeper
  split <;> simp

/-- What `LoadGame` returns on the game thread, in terms of the manager after its load step. -/
theorem LoadGame_result (M : SaveGameManager) (Host : Engine) (Name : String) (UserIndex : Int)
    (hThread : Host.bIsInGameThread = true) (b : Bool) (M' : SaveGameManager) (Host' : Engine)
    (hLoad : M.LoadGame Host Name UserIndex = some (b, M', Host')) :
    M'.SaveData = (M.LoadStep Host Name UserIndex).SaveData ∧
    ((M.LoadStep Host Name UserIndex).SaveData.Slots.Contains Name = false →
      b = false ∧ M'.CurrentSlotName = M.CurrentSlotName ∧
      M'.CurrentSlotInfo = M.CurrentSlotInfo ∧ M'.CurrentData = M.CurrentData) ∧
    ((M.LoadStep Host Name UserIndex).SaveData.Slots.Contains Name = true →
      M'.CurrentSlotName = Name ∧
      (M.LoadStep Host Name UserIndex).SaveData.Slots.Find Name = some M'.CurrentSlotInfo ∧
      (M.LoadStep Host Name UserIndex).SaveData.Data.Find Name = some M'.CurrentData ∧
      (b = true ↔ ((M.LoadStep Host Name UserIndex).SaveObject.isSome = true ∧
        (M.LoadStep Host Name UserIndex).SaveFileName ≠ "" ∧ M.World.isSome = true))) := by
  obtain ⟨hName, hInfo, hData, -, hWorld⟩ := LoadStep_triple M Host Name UserIndex
  rw [LoadGame_eq_LoadStep M Host Name UserIndex hThread] at hLoad
  cases hS : (M.LoadStep Host Name UserIndex).SaveData.Slots.Find Name with
  | none =>
    simp only [hS, Option.some.injEq, Prod.mk.injEq] at hLoad
    obtain ⟨rfl, rfl, rfl⟩ := hLoad
    simp [TMap.Contains, hS, hName, hInfo, hData]
  | some SlotInfo =>
    simp only [hS] at hLoad
    cases hD : (M.LoadStep Host Name UserIndex).SaveData.Data.Find Name with
    | none =>
      simp [hD] at hLoad
    | some Data =>
      simp only [hD] at hLoad
      by_cases hGate : (M.LoadStep Host Name UserIndex).SaveObject.isSome = true ∧
          (M.LoadStep Host Name UserIndex).SaveFileName ≠ ""
      · rw [if_pos hGate] at hLoad
        cases hW : M.World with
        | none =>
          rw [hWorld, hW] at hLoad
          simp only [Option.some.injEq, Prod.mk.injEq] at hLoad
          obtain ⟨rfl, rfl, rfl⟩ := hLoad
          simp [TMap.Contains, hS]
        | some World =>
          rw [hWorld, hW] at hLoad
          simp only [Option.some.injEq, Prod.mk.injEq] at hLoad
          obtain ⟨rfl, rfl, rfl⟩ := hLoad
          simp [TMap.Contains, hS, SpawnTimeKeeper_Manager, hGate.1, hGate.2]
      · rw [if_neg hGate] at hLoad
        simp only [Option.some.injEq, Prod.mk.injEq] at hLoad
        obtain ⟨rfl, rfl, rfl⟩ := hLoad
        simp only [TMap.Contains, hS, Option.isSome_some, true_and]
        refine ⟨fun h => absurd h (by simp), fun _ => ?_⟩
        constructor
        · intro h; exact absurd h (by simp)
        · intro h; exact absurd ⟨h.1, h.2.1⟩ hGate

theorem LoadGame_isSome (M : SaveGameManager) (Host : Engine) (Name : String) (UserIndex : Int)
    (hLock : (M.LoadStep Host Name UserIndex).SaveData.Slots.Contains Name = true →
      (M.LoadStep Host Name UserIndex).SaveData.Data.Contains Name = true) :
    (M.LoadGame Host Name UserIndex).isSome = true := by
  by_cases hThread : Host.bIsInGameThread = true
  · rw [LoadGame_eq_LoadStep M Host Name UserIndex hThread]
    cases hS : (M.LoadStep Host Name UserIndex).SaveData.Slots.Find Name with
    | none => rfl
    | some SlotInfo =>
      have hD := hLock (by simp [TMap.Contains, hS])
      obtain ⟨Data, hData⟩ := Option.isSome_iff_exists.mp hD
      simp only [hData]
      split
      · split <;> rfl
      · rfl
  · simp [LoadGame, hThread]

/-- Counterexample to C17 as stated: the slot file `Save` holds the single slot `Z`. A first
`LoadData` returns true and sets `bHasDataBeenLoaded`; `NewGame(B)` then adds the slot `B` in
memory; a second `LoadData` returns true again and the directory is the file's once more, without
the unsaved slot `B`. -/
theorem C17_second_load_data_rereads :
    (LoadData ((({} : SaveGameManager).SetWorld (some ⟨0⟩)).SetSaveFileName "Save")
      { SaveGames := [⟨"Save", 0, { Slots := ⟨[("Z", {})]⟩, Data := ⟨[("Z", {})]⟩ }⟩] }
      "Save" 0).2.bHasDataBeenLoaded = true ∧
    (NewGame
      (LoadData ((({} : SaveGameManager).SetWorld (some ⟨0⟩)).SetSaveFileName "Save")
        { SaveGames := [⟨"Save", 0, { Slots := ⟨[("Z", {})]⟩, Data := ⟨[("Z", {})]⟩ }⟩] }
        "Save" 0).2
      { SaveGames := [⟨"Save", 0, { Slots := ⟨[("Z", {})]⟩, Data := ⟨[("Z", {})]⟩ }⟩] }
      "B" (some ⟨1⟩) false false).2.1.SaveData.Slots.Keys = ["Z", "B"] ∧
    (LoadData
      (NewGame
        (LoadData ((({} : SaveGameManager).SetWorld (some ⟨0⟩)).SetSaveFileName "Save")
          { SaveGames := [⟨"Save", 0, { Slots := ⟨[("Z", {})]⟩, Data := ⟨[("Z", {})]⟩ }⟩] }
          "Save" 0).2
        { SaveGames := [⟨"Save", 0, { Slots := ⟨[("Z", {})]⟩, Data := ⟨[("Z", {})]⟩ }⟩] }
        "B" (some ⟨1⟩) false false).2.1
      (NewGame
        (LoadData ((({} : SaveGameManager).SetWorld (some ⟨0⟩)).SetSaveFileName "Save")
          { SaveGames := [⟨"Save", 0, { Slots := ⟨[("Z", {})]⟩, Data := ⟨[("Z", {})]⟩ }⟩] }
          "Save" 0).2
        { SaveGames := [⟨"Save", 0, { Slots := ⟨[("Z", {})]⟩, Data := ⟨[("Z", {})]⟩ }⟩] }
        "B" (some ⟨1⟩) false false).2.2
      "Save" 0).2.SaveData.Slots.Keys = ["Z"] := by
  decide

/-- C17, amended: `LoadData` does not consult the already-loaded flag: whenever the file yields
a container, `LoadData` makes both directory mappings the container's, whatever the flag and
whatever was in memory. The flag is honoured by the load step of `LoadGame` and `DeleteGame`:
once it is set, that step leaves the directory unchanged, and so does a `LoadGame` that
returns. -/
theorem C17_load_data_and_flag (M : SaveGameManager) (Host : Engine) (Filename : String)
    (UserIndex : Int) :
    (∀ Object, Host.LoadGameFromSlot Filename UserIndex = some Object →
      (M.LoadData Host Filename UserIndex).2.SaveData
        = { Slots := Object.Slots, Data := Object.Data }) ∧
    (M.bHasDataBeenLoaded = true →
      ∀ Name,
        (M.LoadStep Host Name UserIndex).SaveData = M.SaveData ∧
        ∀ b M' Host', M.LoadGame Host Name UserIndex = some (b, M', Host') →
          M'.SaveData = M.SaveData) := by
  constructor
  · intro Object hRead
    simp [LoadData, hRead, USaveGameObject.GetSlots, USaveGameObject.GetData]
  · intro hLoaded Name
    refine ⟨LoadStep_loaded M Host Name UserIndex hLoaded, ?_⟩
    intro b M' Host' hLoad
    by_cases hThread : Host.bIsInGameThread = true
    · rw [(LoadGame_result M Host Name UserIndex hThread b M' Host' hLoad).1]
      exact LoadStep_loaded M Host Name UserIndex hLoaded
    · simp only [LoadGame, hThread, Bool.false_eq_true, not_false_eq_true, if_true,
        Option.some.injEq, Prod.mk.injEq] at hLoad
      rw [← hLoad.2.1]

/-- C18: `LoadData` returns true exactly when `LoadGameFromSlot` yields a save object for the
file; when it does, both directory mappings are the object's mappings on return, for every
manager state and so with `bIsMultithreading` set as well; when `LoadData` returns false the
directory is unchanged. -/
theorem C18_load_data_result (M : SaveGameManager) (Host : Engine) (Filename : String)
    (UserIndex : Int) :
    ((M.LoadData Host Filename UserIndex).1 = true ↔
      (Host.LoadGameFromSlot Filename UserIndex).isSome = true) ∧
    (∀ Object, Host.LoadGameFromSlot Filename UserIndex = some Object →
      (M.LoadData Host Filename UserIndex).1 = true ∧
      (M.LoadData Host Filename UserIndex).2.SaveData.Slots = Object.Slots ∧
      (M.LoadData Host Filename UserIndex).2.SaveData.Data = Object.Data) ∧
    ((M.LoadData Host Filename UserIndex).1 = false →
      (M.LoadData Host Filename UserIndex).2.SaveData = M.SaveData) := by
  cases hRead : Host.LoadGameFromSlot Filename UserIndex with
  | none => simp [LoadData, hRead]
  | some Object =>
    simp [LoadData, hRead, USaveGameObject.GetSlots, USaveGameObject.GetData]

/-- Counterexample to C19 as stated: on the game thread with a world set and no slot file,
`NewGame(A)` followed by `LoadGame(A)`: the name `A` is in the directory after the load step,
yet `LoadGame` returns false (no save object is held), with the current slot name set to `A`. -/
theorem C19_load_game_false_with_slot_present :
    ((NewGame ((({} : SaveGameManager).SetWorld (some ⟨0⟩)).SetSaveFileName "Save") {} "A"
        (some ⟨1⟩) false false).2.1.LoadStep
      (NewGame ((({} : SaveGameManager).SetWorld (some ⟨0⟩)).SetSaveFileName "Save") {} "A"
        (some ⟨1⟩) false false).2.2 "A" 0).SaveData.Slots.Contains "A" = true ∧
    ((NewGame ((({} : SaveGameManager).SetWorld (some ⟨0⟩)).SetSaveFileName "Save") {} "A"
        (some ⟨1⟩) false false).2.1.LoadGame
      (NewGame ((({} : SaveGameManager).SetWorld (some ⟨0⟩)).SetSaveFileName "Save") {} "A"
        (some ⟨1⟩) false false).2.2 "A" 0).map
      (fun Result => decide (Result.1 = false ∧ Result.2.1.CurrentSlotName = "A" ∧
        Result.2.1.World = some ⟨0⟩ ∧ Result.2.1.SaveData.Slots.Contains "A" = true))
      = some true := by
  decide

/-- C19, amended: on the game thread with a world set (and with a store entry for the name if it
has a metadata entry after the load step) `LoadGame(name)` returns. If `name` is absent from the
directory after the load step it returns false and the current triple is as before. If `name` is
present the current triple becomes (`name`, the directory's metadata for `name`, the directory's
store for `name`), and the returned flag is true exactly when the manager holds a save object
and the save file name is not empty. -/
theorem C19_load_game (M : SaveGameManager) (Host : Engine) (Name : String) (UserIndex : Int)
    (World : UWorld) (hThread : Host.bIsInGameThread = true) (hWorld : M.World = some World)
    (hLock : (M.LoadStep Host Name UserIndex).SaveData.Slots.Contains Name = true →
      (M.LoadStep Host Name UserIndex).SaveData.Data.Contains Name = true) :
    ∃ b M' Host', M.LoadGame Host Name UserIndex = some (b, M', Host') ∧
      M'.SaveData = (M.LoadStep Host Name UserIndex).SaveData ∧
      ((M.LoadStep Host Name UserIndex).SaveData.Slots.Contains Name = false →
        b = false ∧ M'.CurrentSlotName = M.CurrentSlotName ∧
        M'.CurrentSlotInfo = M.CurrentSlotInfo ∧ M'.CurrentData = M.CurrentData) ∧
      ((M.LoadStep Host Name UserIndex).SaveData.Slots.Contains Name = true →
        M'.CurrentSlotName = Name ∧
        (M.LoadStep Host Name UserIndex).SaveData.Slots.Find Name = some M'.CurrentSlotInfo ∧
        (M.LoadStep Host Name UserIndex).SaveData.Data.Find Name = some M'.CurrentData ∧
        (b = true ↔ ((M.LoadStep Host Name UserIndex).SaveObject.isSome = true ∧
          (M.LoadStep Host Name UserIndex).SaveFileName ≠ ""))) := by
  have hSome := LoadGame_isSome M Host Name UserIndex hLock
  obtain ⟨⟨b, M', Host'⟩, hLoad⟩ := Option.isSome_iff_exists.mp hSome
  obtain ⟨hDir, hAbsent, hPresent⟩ := LoadGame_result M Host Name UserIndex hThread b M' Host' hLoad
  refine ⟨b, M', Host', hLoad, hDir, hAbsent, ?_⟩
  intro h
  obtain ⟨h1, h2, h3, h4⟩ := hPresent h
  refine ⟨h1, h2, h3, ?_⟩
  rw [h4, hWorld]
  simp

/-- Witness for C19, amended: `LoadGame(A)` in a session whose slot file `Save` holds the slot
`A` returns true with `A` current. -/
theorem C19_load_game_witness :
    ∃ b M' Host',
      ((({} : SaveGameManager).SetWorld (some ⟨0⟩)).SetSaveFileName "Save").LoadGame
        { SaveGames := [⟨"Save", 0, { Slots := ⟨[("A", {})]⟩, Data := ⟨[("A", {})]⟩ }⟩] } "A" 0
        = some (b, M', Host') ∧ b = true ∧ M'.CurrentSlotName = "A" := by
  obtain ⟨b, M', Host', h1, -, -, h3⟩ := C19_load_game
    ((({} : SaveGameManager).SetWorld (some ⟨0⟩)).SetSaveFileName "Save")
    { SaveGames := [⟨"Save", 0, { Slots := ⟨[("A", {})]⟩, Data := ⟨[("A", {})]⟩ }⟩] } "A" 0 ⟨0⟩
    (by decide) (by decide) (by decide)
  exact ⟨b, M', Host', h1, (h3 (by decide)).2.2.2.mpr (by decide), (h3 (by decide)).1⟩

/-! ## `SetActiveSave` -/

/-- C20: for every manager state `SetActiveSave("")` returns with the current triple (empty
name, default metadata, default store) and with the directory as before, and applying it again
to the result returns the same result; on a freshly constructed manager, where no slot was ever
active, it returns the fresh manager itself. -/
theorem C20_set_active_save_empty (M : SaveGameManager) :
    ∃ M', M.SetActiveSave "" = some M' ∧
      M'.CurrentSlotName = "" ∧ M'.CurrentSlotInfo = {} ∧ M'.CurrentData = {} ∧
      M'.SaveData = M.SaveData ∧
      M'.SetActiveSave "" = some M' ∧
      ({} : SaveGameManager).SetActiveSave "" = some {} :=
  ⟨_, rfl, rfl, rfl, rfl, rfl, rfl, rfl⟩

/-! ## `SetActiveSave` on a name, `UpdateSaveSlotProjectVersion` -/

/-- C21: for every non-empty name: if the name is absent from the directory `SetActiveSave(name)`
returns with the manager, hence the current triple, unchanged; if it is present (with metadata
`Info` and store `Data`) it returns with the current triple (`name`, `Info`, `Data`); in both
cases the directory is as before. `SetActiveSave` has no access to the host, so the slot files
cannot change. -/
theorem C21_set_active_save (M : SaveGameManager) (Name : String) (hName : Name ≠ "") :
    (M.SaveData.Slots.Contains Name = false → M.SetActiveSave Name = some M) ∧
    (∀ Info Data, M.SaveData.Slots.Find Name = some Info → M.SaveData.Data.Find Name = some Data →
      ∃ M', M.SetActiveSave Name = some M' ∧
        M'.CurrentSlotName = Name ∧ M'.CurrentSlotInfo = Info ∧ M'.CurrentData = Data ∧
        M'.SaveData = M.SaveData) := by
  constructor
  · intro hAbsent
    have hFind : M.SaveData.Slots.Find Name = none := (TMap.Contains_eq_false_iff _ _).mp hAbsent
    simp [SetActiveSave, hName, hFind]
  · intro Info Data hInfo hData
    by_cases hF : M.bIsUsingSingleSaveFile = true <;>
      simp [SetActiveSave, hName, hInfo, hData, hF]

/-- Witness for C21: after `NewGame(A)` and `NewGame(B)` the current slot is `B`; selecting the
absent name `Z` changes nothing and selecting `A` makes `A` current. -/
theorem C21_set_active_save_witness :
    ((NewGame (NewGame (({} : SaveGameManager).SetWorld (some ⟨0⟩)) {} "A" (some ⟨1⟩) false
        false).2.1 {} "B" (some ⟨1⟩) false false).2.1.SetActiveSave "Z"
      = some (NewGame (NewGame (({} : SaveGameManager).SetWorld (some ⟨0⟩)) {} "A" (some ⟨1⟩) false
        false).2.1 {} "B" (some ⟨1⟩) false false).2.1) ∧
    ∃ M', (NewGame (NewGame (({} : SaveGameManager).SetWorld (some ⟨0⟩)) {} "A" (some ⟨1⟩) false
        false).2.1 {} "B" (some ⟨1⟩) false false).2.1.SetActiveSave "A" = some M' ∧
      M'.CurrentSlotName = "A" := by
  refine ⟨(C21_set_active_save
    (NewGame (NewGame (({} : SaveGameManager).SetWorld (some ⟨0⟩)) {} "A" (some ⟨1⟩) false
      false).2.1 {} "B" (some ⟨1⟩) false false).2.1 "Z" (by decide)).1 (by decide), ?_⟩
  obtain ⟨M', h1, h2, -⟩ := (C21_set_active_save
    (NewGame (NewGame (({} : SaveGameManager).SetWorld (some ⟨0⟩)) {} "A" (some ⟨1⟩) false
      false).2.1 {} "B" (some ⟨1⟩) false false).2.1 "A" (by decide)).2
    (SetTimeAndDateCreated ({} : Engine).Now {}) {} (by decide) (by decide)
  exact ⟨M', h1, h2⟩

theorem TMap.AddPairs_keys_of_found {V : Type} (l : List (String × V)) (Key : String) (Value : V)
    (h : (TMap.FindPairs l Key).isSome = true) :
    (TMap.AddPairs l Key Value).map Prod.fst = l.map Prod.fst := by
  induction l with
  | nil => simp [TMap.FindPairs] at h
  | cons p rest ih =>
    obtain ⟨k, v⟩ := p
    by_cases hk : k = Key
    · simp [TMap.AddPairs, hk]
    · simp only [TMap.FindPairs, hk, if_false] at h
      simp [TMap.AddPairs, hk, ih h]

theorem TMap.Keys_Add_of_Contains {V : Type} (Map : TMap V) (Key : String) (Value : V)
    (h : Map.Contains Key = true) : (Map.Add Key Value).Keys = Map.Keys :=
  TMap.AddPairs_keys_of_found Map.Pairs Key Value h

/-- C22: `UpdateSaveSlotProjectVersion(name, v)` returns false with the whole manager unchanged
when `name` is not in the directory; when `name` is in the directory (with committed store
`Slot`) it returns true, and afterwards `GetSaveSlotProjectVersion(name)` returns `v`, the store
of `name` is `Slot` with only the project version replaced, the metadata mapping, the key list of
the store mapping and every other slot's store are unchanged, and so is the current triple. -/
theorem C22_update_project_version (M : SaveGameManager) (Name Version : String) :
    (M.SaveData.Slots.Contains Name = false →
      M.UpdateSaveSlotProjectVersion Name Version = some (false, M)) ∧
    (∀ Slot, M.SaveData.Slots.Contains Name = true → M.SaveData.Data.Find Name = some Slot →
      ∃ M', M.UpdateSaveSlotProjectVersion Name Version = some (true, M') ∧
        M'.GetSaveSlotProjectVersion Name = some Version ∧
        M'.SaveData.Data.Find Name = some { Slot with ProjectVersion := Version } ∧
        M'.SaveData.Slots = M.SaveData.Slots ∧
        M'.SaveData.Data.Keys = M.SaveData.Data.Keys ∧
        (∀ Other, Other ≠ Name → M'.SaveData.Data.Find Other = M.SaveData.Data.Find Other) ∧
        M'.CurrentSlotName = M.CurrentSlotName ∧ M'.CurrentSlotInfo = M.CurrentSlotInfo ∧
        M'.CurrentData = M.CurrentData) := by
  constructor
  · intro hAbsent
    simp [UpdateSaveSlotProjectVersion, hAbsent]
  · intro Slot hPresent hSlot
    refine ⟨{ M with SaveData := { M.SaveData with
        Data := M.SaveData.Data.Add Name { Slot with ProjectVersion := Version } } }, ?_, ?_, ?_,
      rfl, ?_, ?_, rfl, rfl, rfl⟩
    · simp [UpdateSaveSlotProjectVersion, hPresent, hSlot]
    · simp [GetSaveSlotProjectVersion, hPresent, TMap.Find_Add_same]
    · exact TMap.Find_Add_same _ _ _
    · exact TMap.Keys_Add_of_Contains _ _ _ (by simp [TMap.Contains, hSlot])
    · intro Other hOther
      exact TMap.Find_Add_other _ _ _ _ hOther

/-! ## `GetTimePlayed` -/

/-- The string `GetTimePlayed` returns for a slot that has a metadata entry and a store entry. -/
theorem GetTimePlayed_string (M : SaveGameManager) (Name : String) (Info : FSaveSlotInfo)
    (Data : FSavedData) (hInfo : M.SaveData.Slots.Find Name = some Info)
    (hData : M.SaveData.Data.Find Name = some Data) :
    (M.GetTimePlayed Name).map Prod.fst
      = some (GetTimePlayed_Locals Info Data.SecondsPlayed).Slot.TimePlayed := by
  simp [GetTimePlayed, hInfo, hData]

/-- C23: for a slot in the directory whose committed `SecondsPlayed` is 3661, `GetTimePlayed`
returns `1 hour, 1 minute, 1 second, ` (with the trailing comma and blank); for 0 it returns the
empty string; for 31557600 it returns `1 year, `. -/
theorem C23_time_played_examples (M : SaveGameManager) (Name : String) (Info : FSaveSlotInfo)
    (Data : FSavedData) (hInfo : M.SaveData.Slots.Find Name = some Info)
    (hData : M.SaveData.Data.Find Name = some Data) :
    (Data.SecondsPlayed = 3661 →
      (M.GetTimePlayed Name).map Prod.fst = some "1 hour, 1 minute, 1 second, ") ∧
    (Data.SecondsPlayed = 0 → (M.GetTimePlayed Name).map Prod.fst = some "") ∧
    (Data.SecondsPlayed = 31557600 → (M.GetTimePlayed Name).map Prod.fst = some "1 year, ") := by
  rw [GetTimePlayed_string M Name Info Data hInfo hData]
  refine ⟨?_, ?_, ?_⟩ <;> intro h <;> rw [h] <;> with_unfolding_all rfl

/-- Witness for C23: the slot `A` committed with 3661 seconds played. -/
theorem C23_time_played_examples_witness :
    (GetTimePlayed
      { SaveData := { Slots := ⟨[("A", {})]⟩, Data := ⟨[("A", { SecondsPlayed := 3661 })]⟩ } }
      "A").map Prod.fst = some "1 hour, 1 minute, 1 second, " :=
  (C23_time_played_examples
    { SaveData := { Slots := ⟨[("A", {})]⟩, Data := ⟨[("A", { SecondsPlayed := 3661 })]⟩ } }
    "A" {} { SecondsPlayed := 3661 } (by decide) (by decide)).1 (by decide)

/-- C24, the code at failing inputs. For 63072000 committed seconds the year counter is
`63072000 / 365 / 24 / 60 / 60 = 2`, not `63072000 div 31557600 = 1`, and the remainder is
`63072000 - 2 * 31557600 = -43200`, so the string is `2 years, ` only. For 1209600 committed
seconds the week counter is `1209600 / 7 / 24 / 60 / 60 = 2`, not `1209600 div 605800 = 1`, and
the remainder is `-2000`. -/
theorem C24_components_not_greedy :
    (GetTimePlayed_Locals {} 63072000).Years = 2 ∧
    (63072000 : Int) / 31557600 = 1 ∧
    (GetTimePlayed_Locals {} 63072000).TimeLeft = -43200 ∧
    (GetTimePlayed_Locals {} 63072000).Months = 0 ∧
    (GetTimePlayed
      { SaveData := { Slots := ⟨[("A", {})]⟩, Data := ⟨[("A", { SecondsPlayed := 63072000 })]⟩ } }
      "A").map Prod.fst = some "2 years, " ∧
    (GetTimePlayed_Locals {} 1209600).Weeks = 2 ∧
    (1209600 : Int) / 605800 = 1 ∧
    (GetTimePlayed_Locals {} 1209600).TimeLeft = -2000 ∧
    (GetTimePlayed_Locals {} 1209600).Days = 0 := by
  decide

/-- C25, the code at failing inputs. For 5184000 committed seconds (two months) `GetTimePlayed`
returns `2 months,` and for 1209600 (two weeks) `2 weeks,`, both without the blank after the
comma, while the sibling units keep it: 172800 seconds give `2 days, `; followed by another
piece the blank is missing inside the string: 5270400 seconds give `2 months,1 day, `. -/
theorem C25_plural_months_weeks_lack_blank :
    (GetTimePlayed
      { SaveData := { Slots := ⟨[("A", {})]⟩, Data := ⟨[("A", { SecondsPlayed := 5184000 })]⟩ } }
      "A").map Prod.fst = some "2 months," ∧
    (GetTimePlayed
      { SaveData := { Slots := ⟨[("A", {})]⟩, Data := ⟨[("A", { SecondsPlayed := 1209600 })]⟩ } }
      "A").map Prod.fst = some "2 weeks," ∧
    (GetTimePlayed
      { SaveData := { Slots := ⟨[("A", {})]⟩, Data := ⟨[("A", { SecondsPlayed := 172800 })]⟩ } }
      "A").map Prod.fst = some "2 days, " ∧
    (GetTimePlayed
      { SaveData := { Slots := ⟨[("A", {})]⟩, Data := ⟨[("A", { SecondsPlayed := 5270400 })]⟩ } }
      "A").map Prod.fst = some "2 months,1 day, " := by
  decide

/-- C26, the code at a failing input: after `NewGame(A)` the name `B` is absent from the
directory; `GetSaveSlotInfo(B)` returns the empty metadata and `GetSaveSlotProjectVersion(B)`
the empty string, both leaving the manager unchanged, but `GetTimePlayed(B)` reaches
`SaveData.Slots[B]` on the missing key. -/
theorem C26_time_played_of_absent_slot :
    (NewGame (({} : SaveGameManager).SetWorld (some ⟨0⟩)) {} "A" (some ⟨1⟩) false
        false).2.1.SaveData.Slots.Contains "B" = false ∧
    ((NewGame (({} : SaveGameManager).SetWorld (some ⟨0⟩)) {} "A" (some ⟨1⟩) false
        false).2.1.GetTimePlayed "B").isSome = false ∧
    (NewGame (({} : SaveGameManager).SetWorld (some ⟨0⟩)) {} "A" (some ⟨1⟩) false
        false).2.1.GetSaveSlotInfo "B"
      = some (EmptySlotInfo, (NewGame (({} : SaveGameManager).SetWorld (some ⟨0⟩)) {} "A"
        (some ⟨1⟩) false false).2.1) ∧
    (NewGame (({} : SaveGameManager).SetWorld (some ⟨0⟩)) {} "A" (some ⟨1⟩) false
        false).2.1.GetSaveSlotProjectVersion "B" = some "" := by
  decide

/-! ## Documented behaviour the code does not have -/

/-- C27, the code at a failing input: the slot file `Save` holds the slot `A`. In a fresh session
`NewGame(B)` and then a synchronous `SaveGame(B)` never read the file: the directory after
`NewGame` is `B` alone with `bHasDataBeenLoaded` still false, after `SaveGame` it is still `B`
alone, and the container then found in the file `Save` holds `B` and no longer `A`. -/
theorem C27_save_without_load_drops_stored_slot :
    (Engine.LoadGameFromSlot
        { SaveGames := [⟨"Save", 0, { Slots := ⟨[("A", {})]⟩, Data := ⟨[("A", {})]⟩ }⟩] }
        "Save" 0).map (fun Object => Object.Slots.Keys) = some ["A"] ∧
    (NewGame ((({} : SaveGameManager).SetWorld (some ⟨0⟩)).SetSaveFileName "Save")
        { SaveGames := [⟨"Save", 0, { Slots := ⟨[("A", {})]⟩, Data := ⟨[("A", {})]⟩ }⟩] }
        "B" (some ⟨1⟩) false false).1 = true ∧
    (NewGame ((({} : SaveGameManager).SetWorld (some ⟨0⟩)).SetSaveFileName "Save")
        { SaveGames := [⟨"Save", 0, { Slots := ⟨[("A", {})]⟩, Data := ⟨[("A", {})]⟩ }⟩] }
        "B" (some ⟨1⟩) false false).2.1.SaveData.Slots.Keys = ["B"] ∧
    (NewGame ((({} : SaveGameManager).SetWorld (some ⟨0⟩)).SetSaveFileName "Save")
        { SaveGames := [⟨"Save", 0, { Slots := ⟨[("A", {})]⟩, Data := ⟨[("A", {})]⟩ }⟩] }
        "B" (some ⟨1⟩) false false).2.1.bHasDataBeenLoaded = false ∧
    ((NewGame ((({} : SaveGameManager).SetWorld (some ⟨0⟩)).SetSaveFileName "Save")
        { SaveGames := [⟨"Save", 0, { Slots := ⟨[("A", {})]⟩, Data := ⟨[("A", {})]⟩ }⟩] }
        "B" (some ⟨1⟩) false false).2.1.SaveGame
      (NewGame ((({} : SaveGameManager).SetWorld (some ⟨0⟩)).SetSaveFileName "Save")
        { SaveGames := [⟨"Save", 0, { Slots := ⟨[("A", {})]⟩, Data := ⟨[("A", {})]⟩ }⟩] }
        "B" (some ⟨1⟩) false false).2.2
      "B" 0 (some ⟨1⟩) false).map
      (fun Saved => decide (
        Saved.1.SaveData.Slots.Keys = ["B"] ∧ Saved.1.SaveData.Data.Keys = ["B"] ∧
        Saved.1.SaveData.Slots.Contains "A" = false ∧
        (Saved.2.LoadGameFromSlot "Save" 0).map (fun Object => Object.Slots.Keys) = some ["B"] ∧
        (Saved.2.LoadGameFromSlot "Save" 0).map (fun Object => Object.Data.Keys) = some ["B"]))
      = some true := by
  decide

/-- C28, the code at failing inputs: `StoreObject(Chest, object)` for an object whose own name is
`Chest_C_0` records the class under `Chest_C_0`, not under `Chest`, so `SpawnObject(Chest)` finds
nothing; and `StoreObject` with the empty name records the class under the empty name, not under
the object's own name. -/
theorem C28_store_object_key_inverted :
    (({} : SaveGameManager).StoreObject "Chest" (some ⟨"Chest_C_0", ⟨7⟩⟩)).CurrentData.Objects.Keys
      = ["Chest_C_0"] ∧
    (({} : SaveGameManager).StoreObject "Chest"
      (some ⟨"Chest_C_0", ⟨7⟩⟩)).CurrentData.Objects.Contains "Chest" = false ∧
    SpawnObject (fun Class => Class.map (fun C => ⟨"Spawned", C⟩))
      (({} : SaveGameManager).StoreObject "Chest" (some ⟨"Chest_C_0", ⟨7⟩⟩)) "Chest" = none ∧
    SpawnObject (fun Class => Class.map (fun C => ⟨"Spawned", C⟩))
      (({} : SaveGameManager).StoreObject "Chest" (some ⟨"Chest_C_0", ⟨7⟩⟩)) "Chest_C_0"
      = some ⟨"Spawned", ⟨7⟩⟩ ∧
    (({} : SaveGameManager).StoreObject "" (some ⟨"Chest_C_0", ⟨7⟩⟩)).CurrentData.Objects.Keys
      = [""] ∧
    (({} : SaveGameManager).StoreActor "" (some ⟨"Crate_C_0", ⟨8⟩, FTransform.Identity, []⟩)
      ESpawnActorCollisionHandlingMethod.Undefined).CurrentData.Actors.Keys = ["Crate_C_0"] := by
  decide

/-- C29, the code at a failing input: on 7 March 2022 `SetTimeAndDateCreated` writes the creation
date `03-07-2022`, month first and year last, not `2022-03-07`; that is the date `NewGame` puts
into the directory and the one `GetDateCreated` reports once the slot is made active. -/
theorem C29_date_is_month_day_year :
    (SetTimeAndDateCreated ⟨2022, 3, 7, 14, 5, 9⟩ {}).DateCreated = "03-07-2022" ∧
    (SetTimeAndDateCreated ⟨2022, 3, 7, 14, 5, 9⟩ {}).DateCreated ≠ "2022-03-07" ∧
    ((NewGame (({} : SaveGameManager).SetWorld (some ⟨0⟩)) { Now := ⟨2022, 3, 7, 14, 5, 9⟩ } "A"
        (some ⟨1⟩) false false).2.1.SaveData.Slots.Find "A").map FSaveSlotInfo.DateCreated
      = some "03-07-2022" ∧
    ((NewGame (({} : SaveGameManager).SetWorld (some ⟨0⟩)) { Now := ⟨2022, 3, 7, 14, 5, 9⟩ } "A"
        (some ⟨1⟩) false false).2.1.SetActiveSave "A").map
      UExpandedSaveGameLibrary.GetDateCreated = some "03-07-2022" := by
  decide

/-- C30, the code at a failing input: after `NewGame(A)` the name `A` is a key of the directory
and `B` is not, but `DoesSaveSlotExit` hands back whatever value the missing `return` leaves to
the caller, the same for both names: with `false` it denies the existing slot `A`, with `true`
it affirms the missing slot `B`. -/
theorem C30_does_save_slot_exit_ignores_directory :
    (NewGame (({} : SaveGameManager).SetWorld (some ⟨0⟩)) {} "A" (some ⟨1⟩) false
        false).2.1.SaveData.Slots.Contains "A" = true ∧
    UExpandedSaveGameLibrary.DoesSaveSlotExit false
      (NewGame (({} : SaveGameManager).SetWorld (some ⟨0⟩)) {} "A" (some ⟨1⟩) false false).2.1 "A"
      = false ∧
    (NewGame (({} : SaveGameManager).SetWorld (some ⟨0⟩)) {} "A" (some ⟨1⟩) false
        false).2.1.SaveData.Slots.Contains "B" = false ∧
    UExpandedSaveGameLibrary.DoesSaveSlotExit true
      (NewGame (({} : SaveGameManager).SetWorld (some ⟨0⟩)) {} "A" (some ⟨1⟩) false false).2.1 "B"
      = true := by
  decide

/-! ## Playtime tracking -/

/-- C31, the code at failing inputs: `NewGame(A)` spawns an active keeper; a following
`SetIsTimeKeeperEnabled(false)` spawns a second keeper and deactivates that one only, so the
keepers in the world are (active, inactive) and one tick still raises the counter from 0 to 1;
a following `SetIsTimeKeeperEnabled(true)` instead leaves two active keepers and one tick raises
the counter by 2. The calls themselves leave the counter at 0. -/
theorem C31_disabled_tracking_still_ticks :
    (SetIsTimeKeeperEnabled
      (NewGame (({} : SaveGameManager).SetWorld (some ⟨0⟩)) {} "A" (some ⟨1⟩) false false).2.1
      (NewGame (({} : SaveGameManager).SetWorld (some ⟨0⟩)) {} "A" (some ⟨1⟩) false false).2.2
      (some ⟨0⟩) false).2.TimeKeepers.map ATimeKeeper.bIsActive = [true, false] ∧
    (SetIsTimeKeeperEnabled
      (NewGame (({} : SaveGameManager).SetWorld (some ⟨0⟩)) {} "A" (some ⟨1⟩) false false).2.1
      (NewGame (({} : SaveGameManager).SetWorld (some ⟨0⟩)) {} "A" (some ⟨1⟩) false false).2.2
      (some ⟨0⟩) false).1.GetSecondsPlayed = 0 ∧
    (WorldTick
      (SetIsTimeKeeperEnabled
        (NewGame (({} : SaveGameManager).SetWorld (some ⟨0⟩)) {} "A" (some ⟨1⟩) false false).2.1
        (NewGame (({} : SaveGameManager).SetWorld (some ⟨0⟩)) {} "A" (some ⟨1⟩) false false).2.2
        (some ⟨0⟩) false).1
      (SetIsTimeKeeperEnabled
        (NewGame (({} : SaveGameManager).SetWorld (some ⟨0⟩)) {} "A" (some ⟨1⟩) false false).2.1
        (NewGame (({} : SaveGameManager).SetWorld (some ⟨0⟩)) {} "A" (some ⟨1⟩) false false).2.2
        (some ⟨0⟩) false).2).GetSecondsPlayed = 1 ∧
    (WorldTick
      (SetIsTimeKeeperEnabled
        (NewGame (({} : SaveGameManager).SetWorld (some ⟨0⟩)) {} "A" (some ⟨1⟩) false false).2.1
        (NewGame (({} : SaveGameManager).SetWorld (some ⟨0⟩)) {} "A" (some ⟨1⟩) false false).2.2
        (some ⟨0⟩) true).1
      (SetIsTimeKeeperEnabled
        (NewGame (({} : SaveGameManager).SetWorld (some ⟨0⟩)) {} "A" (some ⟨1⟩) false false).2.1
        (NewGame (({} : SaveGameManager).SetWorld (some ⟨0⟩)) {} "A" (some ⟨1⟩) false false).2.2
        (some ⟨0⟩) true).2).GetSecondsPlayed = 2 := by
  decide

/-! ## Calls off the game thread, saving without a save object -/

/-- C32: off the game thread `NewGame` returns false, `LoadGame` returns false and `SaveGame`
returns, each with the manager (directory and current triple included) and the host (slot files
included) exactly as before the call. -/
theorem C32_off_game_thread (M : SaveGameManager) (Host : Engine) (Name : String)
    (UserIndex : Int) (SaveGameClass : TSubclassOf) (bInIsMultithreading bOverwriteExistingSave : Bool)
    (hThread : Host.bIsInGameThread = false) :
    M.NewGame Host Name SaveGameClass bInIsMultithreading bOverwriteExistingSave = (false, M, Host) ∧
    M.LoadGame Host Name UserIndex = some (false, M, Host) ∧
    M.SaveGame Host Name UserIndex SaveGameClass bInIsMultithreading = some (M, Host) := by
  simp [NewGame, LoadGame, SaveGame, hThread]

/-- Witness for C32: the three calls on a manager with the slot `A`, off the game thread. -/
theorem C32_off_game_thread_witness :
    (NewGame (({} : SaveGameManager).SetWorld (some ⟨0⟩)) {} "A" (some ⟨1⟩) false false).2.1.NewGame
        { bIsInGameThread := false } "B" (some ⟨1⟩) false true
      = (false, (NewGame (({} : SaveGameManager).SetWorld (some ⟨0⟩)) {} "A" (some ⟨1⟩) false
          false).2.1, { bIsInGameThread := false }) :=
  (C32_off_game_thread
    (NewGame (({} : SaveGameManager).SetWorld (some ⟨0⟩)) {} "A" (some ⟨1⟩) false false).2.1
    { bIsInGameThread := false } "B" 0 (some ⟨1⟩) false true rfl).1

/-- The host after `SaveGame` with a null save class: only the two dispatches happened. -/
theorem SaveGame_null_class_host (M : SaveGameManager) (Host : Engine) (Name : String)
    (UserIndex : Int) (bInIsMultithreading : Bool) (hThread : Host.bIsInGameThread = true)
    (M' : SaveGameManager) (Host' : Engine)
    (hSave : M.SaveGame Host Name UserIndex none bInIsMultithreading = some (M', Host')) :
    Host' = (Host.Dispatch (Host.GetAllActorsWithInterface M.World) ESaveGameEvent.PreSave).Dispatch
      (Host.GetAllActorsWithInterface M.World) ESaveGameEvent.PostSave ∧
    M'.SaveObject = none := by
  by_cases hS : M.SaveData.Slots.Contains Name = true
  · by_cases hD : M.SaveData.Data.Contains Name = true
    · by_cases hF : M.bIsUsingSingleSaveFile = true <;>
        simp [SaveGame, hThread, hS, hD, hF, Engine.CreateSaveGameObject] at hSave <;>
        obtain ⟨rfl, rfl⟩ := hSave <;> simp
    · have hD' : M.SaveData.Data.Contains Name = false := by simpa using hD
      simp [SaveGame, hThread, hS, hD'] at hSave
  · have hS' : M.SaveData.Slots.Contains Name = false := by simpa using hS
    by_cases hF : M.bIsUsingSingleSaveFile = true <;>
      simp [SaveGame, hThread, hS', hF, Engine.CreateSaveGameObject] at hSave <;>
      obtain ⟨rfl, rfl⟩ := hSave <;> simp

/-- C33: on the game thread, with a save class that cannot be instantiated (the object creation
yields null), `SaveGame(name)` returns; the directory's store entry for `name` is then the
current store with the project version refreshed, the slot files are as before, no save object
is held, and after the pre-save hooks the post-save hook has been delivered to every listener of
the world. -/
theorem C33_save_without_save_object (M : SaveGameManager) (Host : Engine) (Name : String)
    (UserIndex : Int) (bInIsMultithreading : Bool) (hThread : Host.bIsInGameThread = true)
    (hLock : M.SaveData.Slots.Contains Name = true → M.SaveData.Data.Contains Name = true) :
    ∃ M' Host', M.SaveGame Host Name UserIndex none bInIsMultithreading = some (M', Host') ∧
      M'.SaveData.Data.Find Name
        = some { M.CurrentData with ProjectVersion := Host.GetProjectVersion } ∧
      Host'.SaveGames = Host.SaveGames ∧
      M'.SaveObject = none ∧
      Host'.Dispatched = Host.Dispatched ++
        (Host.GetAllActorsWithInterface M.World).map (fun Actor => (ESaveGameEvent.PreSave, Actor)) ++
        (Host.GetAllActorsWithInterface M.World).map (fun Actor => (ESaveGameEvent.PostSave, Actor)) ∧
      ∀ Actor ∈ Host.GetAllActorsWithInterface M.World,
        (ESaveGameEvent.PostSave, Actor) ∈ Host'.Dispatched := by
  have hSome := SaveGame_isSome M Host Name UserIndex none bInIsMultithreading hLock
  obtain ⟨⟨M', Host'⟩, hSave⟩ := Option.isSome_iff_exists.mp hSome
  obtain ⟨hCur, -, -, hData, -, -, -⟩ :=
    SaveGame_directory M Host Name UserIndex none bInIsMultithreading hThread M' Host' hSave
  obtain ⟨hHost, hObject⟩ :=
    SaveGame_null_class_host M Host Name UserIndex bInIsMultithreading hThread M' Host' hSave
  refine ⟨M', Host', hSave, ?_, ?_, hObject, ?_, ?_⟩
  · rw [hData, hCur]
  · rw [hHost]; rfl
  · rw [hHost]; rfl
  · intro Actor hActor
    rw [hHost]
    simp only [Engine.Dispatch, List.mem_append, List.mem_map]
    exact Or.inr ⟨Actor, hActor, rfl⟩

/-- Witness for C33: saving the slot `A` with a null class in a world with the listeners `Door`
and `Lamp`. -/
theorem C33_save_without_save_object_witness :
    ∃ M' Host',
      ((({} : SaveGameManager).SetWorld (some ⟨0⟩)).StoreInt "Gold" 5).SaveGame
        { Listeners := ["Door", "Lamp"] } "A" 0 none false = some (M', Host') ∧
      Host'.SaveGames = [] ∧
      (ESaveGameEvent.PostSave, "Lamp") ∈ Host'.Dispatched := by
  obtain ⟨M', Host', h1, -, h3, -, -, h6⟩ := C33_save_without_save_object
    ((({} : SaveGameManager).SetWorld (some ⟨0⟩)).StoreInt "Gold" 5)
    { Listeners := ["Door", "Lamp"] } "A" 0 false (by decide) (by decide)
  exact ⟨M', Host', h1, h3, h6 "Lamp" (by decide)⟩

/-! ## Creation time, slot names, current metadata -/

/-- C35, the code at a failing input: at 11:30 in the morning (24-hour hour 11) the stamped
creation time is `11:30PM`; at 10:30 it is `10:30AM` and at 12:03 `12:03PM`, at 00:15 it is
`12:15AM`. The test of the source is `Hour24 < 11`. -/
theorem C35_eleven_in_the_morning_is_pm :
    (SetTimeAndDateCreated ⟨2022, 3, 7, 11, 30, 9⟩ {}).TimeCreated = "11:30PM" ∧
    ((NewGame (({} : SaveGameManager).SetWorld (some ⟨0⟩)) { Now := ⟨2022, 3, 7, 11, 30, 9⟩ } "A"
        (some ⟨1⟩) false false).2.1.SaveData.Slots.Find "A").map FSaveSlotInfo.TimeCreated
      = some "11:30PM" ∧
    (SetTimeAndDateCreated ⟨2022, 3, 7, 10, 30, 9⟩ {}).TimeCreated = "10:30AM" ∧
    (SetTimeAndDateCreated ⟨2022, 3, 7, 12, 3, 9⟩ {}).TimeCreated = "12:03PM" ∧
    (SetTimeAndDateCreated ⟨2022, 3, 7, 0, 15, 9⟩ {}).TimeCreated = "12:15AM" := by
  decide

/-- C36, the code at a failing input: after `NewGame(A)` and `NewGame(B)` the slot names are
`A`, `B`; `RenameSlot(A, B)` returns true and `GetSaveSlotNames()` is then `B`, `B`. -/
theorem C36_rename_onto_existing_name :
    (NewGame (NewGame (({} : SaveGameManager).SetWorld (some ⟨0⟩)) {} "A" (some ⟨1⟩) false
        false).2.1 {} "B" (some ⟨1⟩) false false).2.1.GetSaveSlotNames.1 = ["A", "B"] ∧
    ((NewGame (NewGame (({} : SaveGameManager).SetWorld (some ⟨0⟩)) {} "A" (some ⟨1⟩) false
        false).2.1 {} "B" (some ⟨1⟩) false false).2.1.RenameSlot "A" "B").1 = true ∧
    ((NewGame (NewGame (({} : SaveGameManager).SetWorld (some ⟨0⟩)) {} "A" (some ⟨1⟩) false
        false).2.1 {} "B" (some ⟨1⟩) false false).2.1.RenameSlot "A" "B").2.GetSaveSlotNames.1
      = ["B", "B"] ∧
    ¬ ((NewGame (NewGame (({} : SaveGameManager).SetWorld (some ⟨0⟩)) {} "A" (some ⟨1⟩) false
        false).2.1 {} "B" (some ⟨1⟩) false false).2.1.RenameSlot "A" "B").2.GetSaveSlotNames.1.Nodup := by
  decide

/-- Counterexample to C38 as stated: the slot file `Save` holds the slot `A`, created on
`03-07-2022`; a manager without a world runs `LoadGame(A)`: the call returns false, yet the
current slot name has changed from empty to `A` and the current metadata and store are those of
`A`. -/
theorem C38_load_game_false_after_switch :
    (LoadGame (({} : SaveGameManager).SetSaveFileName "Save")
      { SaveGames := [⟨"Save", 0,
          { Slots := ⟨[("A", { DateCreated := "03-07-2022", TimeCreated := "9:05AM" })]⟩,
            Data := ⟨[("A", { SecondsPlayed := 42 })]⟩ }⟩] }
      "A" 0).map
      (fun Result => decide (
        Result.1 = false ∧ Result.2.1.CurrentSlotName = "A" ∧
        Result.2.1.CurrentSlotInfo.DateCreated = "03-07-2022" ∧
        Result.2.1.CurrentData.SecondsPlayed = 42))
      = some true ∧
    (({} : SaveGameManager).SetSaveFileName "Save").CurrentSlotName = "" ∧
    (({} : SaveGameManager).SetSaveFileName "Save").CurrentSlotInfo.DateCreated = "" ∧
    (({} : SaveGameManager).SetSaveFileName "Save").CurrentData.SecondsPlayed = 0 := by
  decide

/-- C38, amended: when `LoadGame(name)` returns false, the current triple is as before the call
if the call was made off the game thread or if `name` is absent from the directory after the
load step; if `name` is present there, the current triple has been switched to (`name`, the
directory's metadata for `name`, the directory's store for `name`) although the call returns
false. -/
theorem C38_load_game_on_failure (M : SaveGameManager) (Host : Engine) (Name : String)
    (UserIndex : Int) (M' : SaveGameManager) (Host' : Engine)
    (hLoad : M.LoadGame Host Name UserIndex = some (false, M', Host')) :
    (Host.bIsInGameThread = false →
      M'.CurrentSlotName = M.CurrentSlotName ∧ M'.CurrentSlotInfo = M.CurrentSlotInfo ∧
      M'.CurrentData = M.CurrentData) ∧
    (Host.bIsInGameThread = true →
      (M.LoadStep Host Name UserIndex).SaveData.Slots.Contains Name = false →
      M'.CurrentSlotName = M.CurrentSlotName ∧ M'.CurrentSlotInfo = M.CurrentSlotInfo ∧
      M'.CurrentData = M.CurrentData) ∧
    (Host.bIsInGameThread = true →
      (M.LoadStep Host Name UserIndex).SaveData.Slots.Contains Name = true →
      M'.CurrentSlotName = Name ∧
      (M.LoadStep Host Name UserIndex).SaveData.Slots.Find Name = some M'.CurrentSlotInfo ∧
      (M.LoadStep Host Name UserIndex).SaveData.Data.Find Name = some M'.CurrentData) := by
  refine ⟨?_, ?_, ?_⟩
  · intro hThread
    simp only [LoadGame, hThread, Bool.false_eq_true, not_false_eq_true, if_true,
      Option.some.injEq, Prod.mk.injEq] at hLoad
    rw [← hLoad.2.1]
    exact ⟨rfl, rfl, rfl⟩
  · intro hThread hAbsent
    exact ((LoadGame_result M Host Name UserIndex hThread false M' Host' hLoad).2.1 hAbsent).2
  · intro hThread hPresent
    obtain ⟨h1, h2, h3, -⟩ :=
      (LoadGame_result M Host Name UserIndex hThread false M' Host' hLoad).2.2 hPresent
    exact ⟨h1, h2, h3⟩

/-- Witness for C38, amended: `LoadGame(B)` on a manager whose directory holds only `A`, with no
slot file, returns false and leaves the current slot name `A`. -/
theorem C38_load_game_on_failure_witness :
    ∃ M' Host',
      (NewGame ((({} : SaveGameManager).SetWorld (some ⟨0⟩)).SetSaveFileName "Save") {} "A"
        (some ⟨1⟩) false false).2.1.LoadGame {} "B" 0 = some (false, M', Host') ∧
      M'.CurrentSlotName = "A" := by
  have hLoad : (NewGame ((({} : SaveGameManager).SetWorld (some ⟨0⟩)).SetSaveFileName "Save") {}
      "A" (some ⟨1⟩) false false).2.1.LoadGame {} "B" 0
      = some (false,
          (NewGame ((({} : SaveGameManager).SetWorld (some ⟨0⟩)).SetSaveFileName "Save") {} "A"
            (some ⟨1⟩) false false).2.1.LoadStep {} "B" 0,
          ({} : Engine).Dispatch [] ESaveGameEvent.PreLoad) := by
    decide
  exact ⟨_, _, hLoad,
    ((C38_load_game_on_failure _ _ _ _ _ _ hLoad).2.1 (by decide) (by decide)).1.trans (by decide)⟩

/-- C39, the code at a failing input: on a fresh manager `NewGame(A)` succeeds and stamps the
directory entry of `A` with the date `01-01-2022` and the time `12:00AM`, but the current slot
metadata is still the default, so `GetDateCreated()` reports the empty string for the active slot
`A`; `SetActiveSave(A)` afterwards does bring the current metadata in line. -/
theorem C39_new_game_leaves_current_metadata :
    (NewGame (({} : SaveGameManager).SetWorld (some ⟨0⟩)) {} "A" (some ⟨1⟩) false false).1 = true ∧
    (NewGame (({} : SaveGameManager).SetWorld (some ⟨0⟩)) {} "A" (some ⟨1⟩) false
        false).2.1.GetCurrentSlotName = "A" ∧
    ((NewGame (({} : SaveGameManager).SetWorld (some ⟨0⟩)) {} "A" (some ⟨1⟩) false
        false).2.1.SaveData.Slots.Find "A").map FSaveSlotInfo.DateCreated = some "01-01-2022" ∧
    ((NewGame (({} : SaveGameManager).SetWorld (some ⟨0⟩)) {} "A" (some ⟨1⟩) false
        false).2.1.SaveData.Slots.Find "A").map FSaveSlotInfo.TimeCreated = some "12:00AM" ∧
    SaveGameManager.GetDateCreated (NewGame (({} : SaveGameManager).SetWorld (some ⟨0⟩)) {} "A"
        (some ⟨1⟩) false false).2.1 = "" ∧
    (NewGame (({} : SaveGameManager).SetWorld (some ⟨0⟩)) {} "A" (some ⟨1⟩) false
        false).2.1.CurrentSlotInfo.TimeCreated = "" ∧
    ((NewGame (({} : SaveGameManager).SetWorld (some ⟨0⟩)) {} "A" (some ⟨1⟩) false
        false).2.1.SetActiveSave "A").map SaveGameManager.GetDateCreated = some "01-01-2022" := by
  decide

/-! ## `GetTimePlayed` reads the committed counter -/

theorem AppendTime_eq_Text (Slot : FSaveSlotInfo) (InTime : Int)
    (TimeAboveOneString TimeEqualsOneString : String) :
    AppendTime Slot InTime TimeAboveOneString TimeEqualsOneString
      = { Slot with TimePlayed :=
            Slot.TimePlayed ++ AppendTime_Text InTime TimeAboveOneString TimeEqualsOneString } := by
  unfold AppendTime AppendTime_Text
  split_ifs <;> simp

/-- `GetTimePlayed_Locals` block by block. -/
theorem GetTimePlayed_Locals_blocks (Slot : FSaveSlotInfo) (SecondsPlayed : Int) :
    GetTimePlayed_Locals Slot SecondsPlayed =
      (fun L : FTimePlayedLocals =>
        { L with Slot := AppendTime L.Slot L.TimeLeft " seconds, " " second, " })
      (GetTimePlayed_Block SecondsInAMinute (fun T => T.tdiv 60)
        (fun L N => { L with Minutes := N }) " minutes, " " minute, "
      (GetTimePlayed_Block SecondsInAnHour (fun T => (T.tdiv 60).tdiv 60)
        (fun L N => { L with Hours := N }) " hours, " " hour, "
      (GetTimePlayed_Block SecondsInADay (fun T => ((T.tdiv 24).tdiv 60).tdiv 60)
        (fun L N => { L with Days := N }) " days, " " day, "
      (GetTimePlayed_Block SecondsInAWeek (fun T => (((T.tdiv 7).tdiv 24).tdiv 60).tdiv 60)
        (fun L N => { L with Weeks := N }) " weeks," " week, "
      (GetTimePlayed_Block SecondsInAMonth (fun T => (((T.tdiv 30).tdiv 24).tdiv 60).tdiv 60)
        (fun L N => { L with Months := N }) " months," " month, "
      (GetTimePlayed_Block SecondsInAYear (fun T => (((T.tdiv 365).tdiv 24).tdiv 60).tdiv 60)
        (fun L N => { L with Years := N }) " years, " " year, "
        { Slot := { Slot with TimePlayed := "" }, TimeLeft := SecondsPlayed })))))) :=
  rfl

/-- A block of `GetTimePlayed` run on two sets of locals with the same `TimeLeft`, the one's
slot being `Frame` with the other's `TimePlayed`: the same holds afterwards. -/
theorem GetTimePlayed_Block_frame (Frame : FSaveSlotInfo) (Seconds : Int) (Count : Int → Int)
    (SetCounter : FTimePlayedLocals → Int → FTimePlayedLocals) (Above One : String)
    (L L2 : FTimePlayedLocals)
    (h : L.TimeLeft = L2.TimeLeft ∧ L.Slot = { Frame with TimePlayed := L2.Slot.TimePlayed }) :
    (GetTimePlayed_Block Seconds Count SetCounter Above One L).TimeLeft
      = (GetTimePlayed_Block Seconds Count SetCounter Above One L2).TimeLeft ∧
    (GetTimePlayed_Block Seconds Count SetCounter Above One L).Slot
      = { Frame with TimePlayed :=
            (GetTimePlayed_Block Seconds Count SetCounter Above One L2).Slot.TimePlayed } := by
  obtain ⟨hT, hS⟩ := h
  unfold GetTimePlayed_Block
  rw [hT]
  split_ifs
  · simp [AppendTime_eq_Text, hS]
  · exact ⟨hT, hS⟩

/-- The slot `GetTimePlayed_Locals` leaves is the slot it was given with only `TimePlayed`
replaced, and the replacement is a function of the counter alone. -/
theorem GetTimePlayed_Locals_frame (Slot : FSaveSlotInfo) (SecondsPlayed : Int) :
    (GetTimePlayed_Locals Slot SecondsPlayed).Slot
      = { Slot with TimePlayed := (GetTimePlayed_Locals {} SecondsPlayed).Slot.TimePlayed } := by
  rw [GetTimePlayed_Locals_blocks Slot, GetTimePlayed_Locals_blocks {}]
  have h1 := GetTimePlayed_Block_frame Slot SecondsInAYear
    (fun T => (((T.tdiv 365).tdiv 24).tdiv 60).tdiv 60) (fun L N => { L with Years := N })
    " years, " " year, "
    { Slot := { Slot with TimePlayed := "" }, TimeLeft := SecondsPlayed }
    { Slot := { ({} : FSaveSlotInfo) with TimePlayed := "" }, TimeLeft := SecondsPlayed }
    ⟨rfl, rfl⟩
  have h2 := GetTimePlayed_Block_frame Slot SecondsInAMonth
    (fun T => (((T.tdiv 30).tdiv 24).tdiv 60).tdiv 60) (fun L N => { L with Months := N })
    " months," " month, " _ _ h1
  have h3 := GetTimePlayed_Block_frame Slot SecondsInAWeek
    (fun T => (((T.tdiv 7).tdiv 24).tdiv 60).tdiv 60) (fun L N => { L with Weeks := N })
    " weeks," " week, " _ _ h2
  have h4 := GetTimePlayed_Block_frame Slot SecondsInADay
    (fun T => ((T.tdiv 24).tdiv 60).tdiv 60) (fun L N => { L with Days := N })
    " days, " " day, " _ _ h3
  have h5 := GetTimePlayed_Block_frame Slot SecondsInAnHour
    (fun T => (T.tdiv 60).tdiv 60) (fun L N => { L with Hours := N })
    " hours, " " hour, " _ _ h4
  have h6 := GetTimePlayed_Block_frame Slot SecondsInAMinute
    (fun T => T.tdiv 60) (fun L N => { L with Minutes := N })
    " minutes, " " minute, " _ _ h5
  simp only [AppendTime_eq_Text]
  rw [h6.1, h6.2]

theorem TMap.AddPairs_AddPairs_same {V : Type} (l : List (String × V)) (Key : String)
    (Value : V) :
    TMap.AddPairs (TMap.AddPairs l Key Value) Key Value = TMap.AddPairs l Key Value := by
  induction l with
  | nil => simp [TMap.AddPairs]
  | cons p rest ih =>
    obtain ⟨k, v⟩ := p
    by_cases hk : k = Key
    · simp [TMap.AddPairs, hk]
    · simp [TMap.AddPairs, hk, ih]

theorem TMap.Add_Add_same {V : Type} (Map : TMap V) (Key : String) (Value : V) :
    (Map.Add Key Value).Add Key Value = Map.Add Key Value := by
  simp [TMap.Add, TMap.AddPairs_AddPairs_same]

/-- Ticks of the world leave the directory alone. -/
theorem WorldTick_iterate_SaveData (Host : Engine) (Ticks : Nat) (M : SaveGameManager) :
    ((fun X : SaveGameManager => X.WorldTick Host)^[Ticks] M).SaveData = M.SaveData := by
  induction Ticks generalizing M with
  | zero => rfl
  | succ n ih => rw [Function.iterate_succ_apply, ih]; rfl

/-- The string of `GetTimePlayed` is a function of the directory. -/
theorem GetTimePlayed_congr (M M2 : SaveGameManager) (Name : String)
    (h : M2.SaveData = M.SaveData) :
    (M2.GetTimePlayed Name).map Prod.fst = (M.GetTimePlayed Name).map Prod.fst := by
  simp only [GetTimePlayed, h]
  split
  · rfl
  · split <;> rfl

/-- C40: `GetTimePlayed(name)` reads the counter committed in the directory for `name`. After any
number of world ticks (which run on the current store) it returns what it returned before them;
for a slot with a metadata entry and a store entry, the string is that of the committed
`SecondsPlayed` alone, whatever the metadata entry held before (the cached string is emptied
first); a second call in a row returns the same string and leaves the manager as the first call
left it; and once `SaveGame(name)` has run on the game thread after the ticks, the string is that
of the current store's counter. -/
theorem C40_time_played_reads_committed_counter (M : SaveGameManager) (Host : Engine)
    (Name : String) (Ticks : Nat) :
    (((fun X : SaveGameManager => X.WorldTick Host)^[Ticks] M).GetTimePlayed Name).map Prod.fst
      = (M.GetTimePlayed Name).map Prod.fst ∧
    (∀ Info Data, M.SaveData.Slots.Find Name = some Info → M.SaveData.Data.Find Name = some Data →
      (M.GetTimePlayed Name).map Prod.fst
        = some (GetTimePlayed_Locals {} Data.SecondsPlayed).Slot.TimePlayed) ∧
    (∀ Played M1, M.GetTimePlayed Name = some (Played, M1) →
      M1.GetTimePlayed Name = some (Played, M1)) ∧
    (∀ UserIndex SaveGameClass bInIsMultithreading M1 Host1, Host.bIsInGameThread = true →
      ((fun X : SaveGameManager => X.WorldTick Host)^[Ticks] M).SaveGame Host Name UserIndex
        SaveGameClass bInIsMultithreading = some (M1, Host1) →
      (M1.GetTimePlayed Name).map Prod.fst
        = some (GetTimePlayed_Locals {}
            ((fun X : SaveGameManager => X.WorldTick Host)^[Ticks] M).CurrentData.SecondsPlayed
          ).Slot.TimePlayed) := by
  refine ⟨GetTimePlayed_congr _ _ _ (WorldTick_iterate_SaveData Host Ticks M), ?_, ?_, ?_⟩
  · intro Info Data hInfo hData
    rw [GetTimePlayed_string M Name Info Data hInfo hData, GetTimePlayed_Locals_frame]
  · intro Played M1 hFirst
    cases hInfo : M.SaveData.Slots.Find Name with
    | none => simp [GetTimePlayed, hInfo] at hFirst
    | some Info =>
      cases hData : M.SaveData.Data.Find Name with
      | none => simp [GetTimePlayed, hInfo, hData] at hFirst
      | some Data =>
        simp only [GetTimePlayed, hInfo, hData, Option.some.injEq, Prod.mk.injEq] at hFirst
        obtain ⟨rfl, rfl⟩ := hFirst
        have hSame : GetTimePlayed_Locals (GetTimePlayed_Locals Info Data.SecondsPlayed).Slot
            Data.SecondsPlayed = GetTimePlayed_Locals Info Data.SecondsPlayed := by
          rw [GetTimePlayed_Locals_frame Info]
          rfl
        simp [GetTimePlayed, TMap.Find_Add_same, hData, hSame, TMap.Add_Add_same]
  · intro UserIndex SaveGameClass bInIsMultithreading M1 Host1 hThread hSave
    obtain ⟨hData, -, -, hFind, hSlot, -⟩ := SaveGame_directory _ Host Name UserIndex
      SaveGameClass bInIsMultithreading hThread M1 Host1 hSave
    have hInfo : ∃ Info, M1.SaveData.Slots.Find Name = some Info := by
      rw [hSlot]
      split
      · rename_i hC
        exact Option.isSome_iff_exists.mp hC
      · exact ⟨_, rfl⟩
    obtain ⟨Info, hInfo⟩ := hInfo
    rw [GetTimePlayed_string M1 Name Info M1.CurrentData hInfo hFind, GetTimePlayed_Locals_frame,
      hData]

/-- Witness for C40: the slot `A` committed with 61 seconds played and a stale cached string;
the current store has ticked on to 75. -/
theorem C40_time_played_reads_committed_counter_witness :
    (GetTimePlayed
      { SaveData := { Slots := ⟨[("A", { TimePlayed := "5 seconds, " })]⟩,
                      Data := ⟨[("A", { SecondsPlayed := 61 })]⟩ },
        CurrentSlotName := "A", CurrentData := { SecondsPlayed := 75 } }
      "A").map Prod.fst = some "1 minute, 1 second, " :=
  ((C40_time_played_reads_committed_counter
    { SaveData := { Slots := ⟨[("A", { TimePlayed := "5 seconds, " })]⟩,
                    Data := ⟨[("A", { SecondsPlayed := 61 })]⟩ },
      CurrentSlotName := "A", CurrentData := { SecondsPlayed := 75 } }
    {} "A" 0).2.1 { TimePlayed := "5 seconds, " } { SecondsPlayed := 61 } (by decide)
    (by decide)).trans (by decide)

/-! ## The actor-name list -/

theorem TMap.AddPairs_keys_of_not_found {V : Type} (l : List (String × V)) (Key : String)
    (Value : V) (h : TMap.FindPairs l Key = none) :
    (TMap.AddPairs l Key Value).map Prod.fst = l.map Prod.fst ++ [Key] := by
  induction l with
  | nil => simp [TMap.AddPairs]
  | cons p rest ih =>
    obtain ⟨k, v⟩ := p
    by_cases hk : k = Key
    · simp [TMap.FindPairs, hk] at h
    · simp only [TMap.FindPairs, hk, if_false] at h
      simp [TMap.AddPairs, hk, ih h]

theorem TMap.RemovePairs_keys {V : Type} (l : List (String × V)) (Key : String) :
    (TMap.RemovePairs l Key).map Prod.fst = (l.map Prod.fst).filter (fun Item => Item ≠ Key) := by
  induction l with
  | nil => simp [TMap.RemovePairs]
  | cons p rest ih =>
    obtain ⟨k, v⟩ := p
    by_cases hk : k = Key
    · simp [TMap.RemovePairs, hk, ih]
    · simp [TMap.RemovePairs, hk, ih]

theorem INTERNAL_ERASE_VALUE_Keys {V : Type} (map : TMap V) (n : String) (b : Bool) :
    (INTERNAL_ERASE_VALUE map n b).1.Keys = map.Keys.filter (fun Item => Item ≠ n) := by
  unfold INTERNAL_ERASE_VALUE
  by_cases h : map.Contains n = true
  · simp only [h, if_true]
    exact TMap.RemovePairs_keys map.Pairs n
  · simp only [h, Bool.false_eq_true, if_false]
    have hMem : n ∉ map.Keys := fun hIn => h ((TMap.Contains_iff_mem_Keys map n).mpr hIn)
    symm
    rw [List.filter_eq_self]
    intro Item hItem
    have hNe : Item ≠ n := fun hEq => hMem (hEq ▸ hItem)
    simpa using hNe

theorem INTERNAL_ERASE_VALUE_Array_filter (map : List String) (n : String) (b : Bool) :
    (INTERNAL_ERASE_VALUE_Array map n b).1 = map.filter (fun Item => Item ≠ n) := by
  unfold INTERNAL_ERASE_VALUE_Array
  by_cases h : n ∈ map
  · simp [h]
  · simp only [h, if_false]
    symm
    rw [List.filter_eq_self]
    intro Item hItem
    have hNe : Item ≠ n := fun hEq => h (hEq ▸ hItem)
    simpa using hNe

/-- `StoreActor` of an actor on a store whose name list is the key list of the actor map: the
name goes to the end of the list when it is not in it, the list stays the key list, and the
snapshot is under the name. -/
theorem StoreActor_ActorNames (M : SaveGameManager) (ObjectName : String) (Actor : AActor)
    (SpawnMethod : ESpawnActorCollisionHandlingMethod)
    (hInv : M.CurrentData.ActorNames = M.CurrentData.Actors.Keys) :
    (M.StoreActor ObjectName (some Actor) SpawnMethod).CurrentData.ActorNames
      = (if (if ObjectName = "" then Actor.Name else ObjectName) ∈ M.CurrentData.ActorNames
          then M.CurrentData.ActorNames
          else M.CurrentData.ActorNames ++ [if ObjectName = "" then Actor.Name else ObjectName]) ∧
    (M.StoreActor ObjectName (some Actor) SpawnMethod).CurrentData.ActorNames
      = (M.StoreActor ObjectName (some Actor) SpawnMethod).CurrentData.Actors.Keys ∧
    (M.StoreActor ObjectName (some Actor) SpawnMethod).CurrentData.Actors.Find
        (if ObjectName = "" then Actor.Name else ObjectName)
      = some { Class := some Actor.Class, Transform := Actor.Transform, SpawnMethod := SpawnMethod,
               bIsSimulatingPhysics := GetIsSimulatingPhysics Actor } := by
  by_cases hC : M.CurrentData.Actors.Contains (if ObjectName = "" then Actor.Name else ObjectName)
      = true
  · have hMem : (if ObjectName = "" then Actor.Name else ObjectName) ∈ M.CurrentData.ActorNames :=
      hInv ▸ (TMap.Contains_iff_mem_Keys _ _).mp hC
    have hStore : M.StoreActor ObjectName (some Actor) SpawnMethod
        = { M with CurrentData := { M.CurrentData with
              Actors := M.CurrentData.Actors.Add (if ObjectName = "" then Actor.Name else ObjectName)
                { Class := some Actor.Class, Transform := Actor.Transform,
                  SpawnMethod := SpawnMethod,
                  bIsSimulatingPhysics := GetIsSimulatingPhysics Actor } } } := by
      simp only [StoreActor, hC, if_true]
    rw [hStore, if_pos hMem]
    exact ⟨rfl, hInv.trans (TMap.Keys_Add_of_Contains _ _ _ hC).symm, TMap.Find_Add_same _ _ _⟩
  · have hMem : (if ObjectName = "" then Actor.Name else ObjectName) ∉ M.CurrentData.ActorNames :=
      fun hIn => hC ((TMap.Contains_iff_mem_Keys _ _).mpr (hInv ▸ hIn))
    have hNone : TMap.FindPairs M.CurrentData.Actors.Pairs
        (if ObjectName = "" then Actor.Name else ObjectName) = none := by
      simpa [TMap.Contains, TMap.Find] using hC
    have hStore : M.StoreActor ObjectName (some Actor) SpawnMethod
        = { M with CurrentData := { M.CurrentData with
              Actors := M.CurrentData.Actors.Add (if ObjectName = "" then Actor.Name else ObjectName)
                { Class := some Actor.Class, Transform := Actor.Transform,
                  SpawnMethod := SpawnMethod,
                  bIsSimulatingPhysics := GetIsSimulatingPhysics Actor },
              ActorNames := M.CurrentData.ActorNames
                ++ [if ObjectName = "" then Actor.Name else ObjectName] } } := by
      simp only [StoreActor, hC, Bool.false_eq_true, if_false]
    rw [hStore, if_neg hMem]
    refine ⟨rfl, ?_, TMap.Find_Add_same _ _ _⟩
    show M.CurrentData.ActorNames ++ [if ObjectName = "" then Actor.Name else ObjectName]
      = (TMap.AddPairs M.CurrentData.Actors.Pairs _ _).map Prod.fst
    rw [TMap.AddPairs_keys_of_not_found _ _ _ hNone, hInv]
    rfl

/-- `EraseValue` on a store whose name list is the key list of the actor map: the name is taken
out of the list, which stays the key list. -/
theorem EraseValue_ActorNames (M : SaveGameManager) (n : String)
    (hInv : M.CurrentData.ActorNames = M.CurrentData.Actors.Keys) :
    (M.EraseValue n).2.CurrentData.ActorNames
      = M.CurrentData.ActorNames.filter (fun Item => Item ≠ n) ∧
    (M.EraseValue n).2.CurrentData.ActorNames = (M.EraseValue n).2.CurrentData.Actors.Keys := by
  have hNames : (M.EraseValue n).2.CurrentData.ActorNames
      = M.CurrentData.ActorNames.filter (fun Item => Item ≠ n) :=
    INTERNAL_ERASE_VALUE_Array_filter _ _ _
  have hKeys : (M.EraseValue n).2.CurrentData.Actors.Keys
      = M.CurrentData.Actors.Keys.filter (fun Item => Item ≠ n) :=
    INTERNAL_ERASE_VALUE_Keys _ _ _
  exact ⟨hNames, by rw [hNames, hKeys, hInv]⟩

/-- A run of `StoreActor` and `EraseValue` calls keeps the name list equal to the key list of the
actor map and free of duplicates, and the list is the one the data model describes. -/
theorem FActorOperation.Run_invariant (Operations : List FActorOperation) (M : SaveGameManager)
    (hInv : M.CurrentData.ActorNames = M.CurrentData.Actors.Keys)
    (hNodup : M.CurrentData.ActorNames.Nodup) :
    (FActorOperation.Run M Operations).CurrentData.ActorNames
      = (FActorOperation.Run M Operations).CurrentData.Actors.Keys ∧
    (FActorOperation.Run M Operations).CurrentData.ActorNames.Nodup ∧
    (FActorOperation.Run M Operations).CurrentData.ActorNames
      = ExpectedActorNames M.CurrentData.ActorNames Operations := by
  induction Operations generalizing M with
  | nil => exact ⟨hInv, hNodup, rfl⟩
  | cons Operation Rest ih =>
    cases Operation with
    | StoreActor ObjectName ActorToStore SpawnMethod =>
      cases ActorToStore with
      | none => exact ih M hInv hNodup
      | some Actor =>
        obtain ⟨hNames, hInv2, -⟩ := StoreActor_ActorNames M ObjectName Actor SpawnMethod hInv
        have hNodup2 : (M.StoreActor ObjectName (some Actor) SpawnMethod).CurrentData.ActorNames.Nodup := by
          rw [hNames]
          by_cases hMem : (if ObjectName = "" then Actor.Name else ObjectName)
              ∈ M.CurrentData.ActorNames
          · rw [if_pos hMem]
            exact hNodup
          · rw [if_neg hMem]
            exact List.Nodup.append hNodup (List.nodup_singleton _) (by simpa using hMem)
        obtain ⟨h1, h2, h3⟩ := ih (M.StoreActor ObjectName (some Actor) SpawnMethod) hInv2 hNodup2
        refine ⟨h1, h2, ?_⟩
        rw [hNames] at h3
        exact h3
    | EraseValue VariableName =>
      obtain ⟨hNames, hInv2⟩ := EraseValue_ActorNames M VariableName hInv
      have hNodup2 : (M.EraseValue VariableName).2.CurrentData.ActorNames.Nodup := by
        rw [hNames]
        exact hNodup.filter _
      obtain ⟨h1, h2, h3⟩ := ih (M.EraseValue VariableName).2 hInv2 hNodup2
      refine ⟨h1, h2, ?_⟩
      rw [hNames] at h3
      exact h3

/-- C37: after every run of `StoreActor` and `EraseValue` calls on an empty store, the actor-name
list has no duplicates, holds exactly the names that are keys of the actor-snapshot map, and is
the list built by putting each stored name that is not yet listed at the end and taking out each
erased name; a further `StoreActor` of an actor puts the new snapshot under its name, and when
that name is already listed the list is unchanged. -/
theorem C37_actor_name_list (M : SaveGameManager) (Operations : List FActorOperation)
    (ObjectName : String) (Actor : AActor) (SpawnMethod : ESpawnActorCollisionHandlingMethod) :
    (FActorOperation.Run { M with CurrentData := {} } Operations).CurrentData.ActorNames.Nodup ∧
    (∀ Name, Name ∈ (FActorOperation.Run { M with CurrentData := {} } Operations).CurrentData.ActorNames
      ↔ (FActorOperation.Run { M with CurrentData := {} } Operations).CurrentData.Actors.Contains Name
          = true) ∧
    (FActorOperation.Run { M with CurrentData := {} } Operations).CurrentData.ActorNames
      = ExpectedActorNames [] Operations ∧
    ((FActorOperation.Run { M with CurrentData := {} } Operations).StoreActor ObjectName
        (some Actor) SpawnMethod).CurrentData.Actors.Find
          (if ObjectName = "" then Actor.Name else ObjectName)
      = some { Class := some Actor.Class, Transform := Actor.Transform, SpawnMethod := SpawnMethod,
               bIsSimulatingPhysics := GetIsSimulatingPhysics Actor } ∧
    ((if ObjectName = "" then Actor.Name else ObjectName)
        ∈ (FActorOperation.Run { M with CurrentData := {} } Operations).CurrentData.ActorNames →
      ((FActorOperation.Run { M with CurrentData := {} } Operations).StoreActor ObjectName
          (some Actor) SpawnMethod).CurrentData.ActorNames
        = (FActorOperation.Run { M with CurrentData := {} } Operations).CurrentData.ActorNames) := by
  obtain ⟨hInv, hNodup, hExpected⟩ := FActorOperation.Run_invariant Operations
    { M with CurrentData := {} } rfl List.nodup_nil
  obtain ⟨hNames, -, hFind⟩ := StoreActor_ActorNames
    (FActorOperation.Run { M with CurrentData := {} } Operations) ObjectName Actor SpawnMethod hInv
  refine ⟨hNodup, ?_, hExpected, hFind, ?_⟩
  · intro Name
    rw [hInv]
    exact (TMap.Contains_iff_mem_Keys _ _).symm
  · intro hMem
    rw [hNames, if_pos hMem]

/-- Witness for C37: `Lamp` and `Door` are stored, `Lamp` is erased, `Door` is stored again and
`Lamp` is stored again; the list is `Door`, `Lamp`, and a further store of `Door` leaves it so. -/
theorem C37_actor_name_list_witness :
    (FActorOperation.Run {}
      [.StoreActor "" (some ⟨"Lamp", ⟨1⟩, FTransform.Identity, []⟩) .Undefined,
       .StoreActor "Door" (some ⟨"Lamp", ⟨1⟩, FTransform.Identity, []⟩) .AlwaysSpawn,
       .EraseValue "Lamp",
       .StoreActor "Door" (some ⟨"Gate", ⟨1⟩, FTransform.Identity, []⟩) .Undefined,
       .StoreActor "Lamp" (some ⟨"Lamp", ⟨1⟩, FTransform.Identity, []⟩) .Undefined]).CurrentData.ActorNames
      = ["Door", "Lamp"] ∧
    ((FActorOperation.Run {}
      [.StoreActor "" (some ⟨"Lamp", ⟨1⟩, FTransform.Identity, []⟩) .Undefined,
       .StoreActor "Door" (some ⟨"Lamp", ⟨1⟩, FTransform.Identity, []⟩) .AlwaysSpawn,
       .EraseValue "Lamp",
       .StoreActor "Door" (some ⟨"Gate", ⟨1⟩, FTransform.Identity, []⟩) .Undefined,
       .StoreActor "Lamp" (some ⟨"Lamp", ⟨1⟩, FTransform.Identity, []⟩) .Undefined]).StoreActor "Door"
        (some ⟨"Gate", ⟨1⟩, FTransform.Identity, []⟩) .Undefined).CurrentData.ActorNames = ["Door", "Lamp"] :=
  ⟨by decide,
   ((C37_actor_name_list {}
      [.StoreActor "" (some ⟨"Lamp", ⟨1⟩, FTransform.Identity, []⟩) .Undefined,
       .StoreActor "Door" (some ⟨"Lamp", ⟨1⟩, FTransform.Identity, []⟩) .AlwaysSpawn,
       .EraseValue "Lamp",
       .StoreActor "Door" (some ⟨"Gate", ⟨1⟩, FTransform.Identity, []⟩) .Undefined,
       .StoreActor "Lamp" (some ⟨"Lamp", ⟨1⟩, FTransform.Identity, []⟩) .Undefined]
      "Door" ⟨"Gate", ⟨1⟩, FTransform.Identity, []⟩ .Undefined).2.2.2.2 (by decide)).trans (by decide)⟩

end SaveGameLibrary
